import Mathlib

/-!
# Mixed-integer mesh pose estimator

A shallow embedding of `mip_pose_estimator.cpp` / `mip_pose_estimator.hpp`
(class `MIPMultipleMeshPoseEstimator`) and theorems about it.  Line numbers in
the doc comments refer to `mip_pose_estimator.cpp`.

Conventions of the embedding.

* `double` values are rationals (`ℚ`); a `double` that may hold `+infinity`
  is `WithTop ℚ`.  Rounding and NaN are not represented.
* A `MathematicalProgram` is the list of linear constraints added to it, the
  list of variables declared binary and its linear cost.  Decision variables
  are the constructors of `Var`; an assignment of values is a function
  `Var → ℚ`.
* Library calls whose body is not part of the repository (Eigen's `norm()`,
  `rotation()` and `LinSpaced`, `closestPointOnTriangle`, `rotmat2rpy`, the
  Drake rotation envelopes, the kinematics of the tree, the solver itself,
  `std::random_shuffle`) are parameters of the definitions that use them; the
  results of the successive calls of `randrange` are an input stream.
* A read past the end of a `std::vector` is undefined behaviour in the source;
  the definitions whose result depends on such a read (`bodyFit`, `posedVerts`,
  `detectPoint`, the scene preprocessing, the model point sampling and what is
  built on them) return `Option` and yield `none` there.  Dense matrices are
  total: a write through `Mat.set` outside the dimensions changes nothing, and
  the embedded code reads entries only inside the dimensions of the program it
  belongs to; the sampling loop and the outlier loop check their writes and
  yield `none` outside the matrix.
* Bodies are numbered as in the source (`body_i` from 1, the world is 0); the
  per-body variables and the rows of `B_` use the index `body_i - 1`.

The file has two parts: the definitions (the embedding, then a few concrete
instances), and the theorems.
-/

namespace MIPPose

/-! ## Vectors, matrices, rigid transforms -/

/-- The code's `Vector3d`, indexed by axis. -/
abbrev Vec3 := Fin 3 → ℚ

/-- The code's `Matrix3d`, indexed by row then column. -/
abbrev Mat3 := Fin 3 → Fin 3 → ℚ

/-- A dense dynamically sized matrix (`MatrixXd`): its dimensions and entries.
Entries outside the dimensions are never read by the embedded code. -/
structure Mat where
  rows : Nat
  cols : Nat
  data : Nat → Nat → ℚ

namespace Mat

/-- The empty matrix of a default-constructed `MatrixXd`. -/
def empty : Mat := ⟨0, 0, fun _ _ => 0⟩

/-- The matrix after `resize(r, c)` followed by `setZero()`. -/
def zeros (r c : Nat) : Mat := ⟨r, c, fun _ _ => 0⟩

/-- The write `m(i, j) = x`.  A write outside the dimensions leaves the matrix as it is. -/
def set (m : Mat) (i j : Nat) (x : ℚ) : Mat :=
  if i < m.rows ∧ j < m.cols then
    { m with data := fun a b => if a = i ∧ b = j then x else m.data a b }
  else m

end Mat

/-- The L1 norm `lpNorm<1>()` of a 3-vector. -/
def l1norm (v : Vec3) : ℚ := |v 0| + |v 1| + |v 2|

/-- Matrix-vector product of a `Matrix3d` with a `Vector3d`. -/
def Mat3.mulVec3 (R : Mat3) (v : Vec3) : Vec3 :=
  fun k => R k 0 * v 0 + R k 1 * v 1 + R k 2 * v 2

/-- Product of two `Matrix3d`. -/
def Mat3.mul3 (A B : Mat3) : Mat3 :=
  fun r c => A r 0 * B 0 c + A r 1 * B 1 c + A r 2 * B 2 c

/-- The 3×3 identity. -/
def Mat3.id3 : Mat3 := fun r c => if r = c then 1 else 0

/-- Determinant of a `Matrix3d` (cofactor expansion on the first row). -/
def Mat3.det3 (A : Mat3) : ℚ :=
  A 0 0 * (A 1 1 * A 2 2 - A 1 2 * A 2 1)
  - A 0 1 * (A 1 0 * A 2 2 - A 1 2 * A 2 0)
  + A 0 2 * (A 1 0 * A 2 1 - A 1 1 * A 2 0)

/-- Adjugate of a `Matrix3d`. -/
def Mat3.adj3 (A : Mat3) : Mat3 :=
  fun r c =>
    match r, c with
    | 0, 0 => A 1 1 * A 2 2 - A 1 2 * A 2 1
    | 0, 1 => A 0 2 * A 2 1 - A 0 1 * A 2 2
    | 0, 2 => A 0 1 * A 1 2 - A 0 2 * A 1 1
    | 1, 0 => A 1 2 * A 2 0 - A 1 0 * A 2 2
    | 1, 1 => A 0 0 * A 2 2 - A 0 2 * A 2 0
    | 1, 2 => A 0 2 * A 1 0 - A 0 0 * A 1 2
    | 2, 0 => A 1 0 * A 2 1 - A 1 1 * A 2 0
    | 2, 1 => A 0 1 * A 2 0 - A 0 0 * A 2 1
    | 2, 2 => A 0 0 * A 1 1 - A 0 1 * A 1 0

/-- Inverse of a `Matrix3d` by cofactors, as Eigen computes it for fixed size 3.
When the determinant is 0 the source produces non-finite entries; here the
division by 0 yields 0, and no theorem relies on that case. -/
def Mat3.inv3 (A : Mat3) : Mat3 := fun r c => A.adj3 r c / A.det3

/-- The code's `Affine3d`: linear part and translation (last row is `0 0 0 1`). -/
structure Affine3 where
  linear : Mat3
  translation : Vec3

namespace Affine3

/-- The transform after `setIdentity()`. -/
def identity : Affine3 := ⟨Mat3.id3, fun _ => 0⟩

/-- Applying a transform to a point: `tf * p`. -/
def apply (tf : Affine3) (p : Vec3) : Vec3 :=
  fun k => tf.linear.mulVec3 p k + tf.translation k

/-- Composition `a * b` (apply `b` first). -/
def comp (a b : Affine3) : Affine3 :=
  ⟨a.linear.mul3 b.linear, fun k => a.linear.mulVec3 b.translation k + a.translation k⟩

/-- The code's `inverse()` in `Affine` mode: invert the linear part, then
the translation is `-(linear⁻¹ * translation)`. -/
def inverse (tf : Affine3) : Affine3 :=
  ⟨tf.linear.inv3, fun k => - (tf.linear.inv3.mulVec3 tf.translation k)⟩

end Affine3

/-! ## Linear programs -/

/-- Decision variables of the programs built by the estimator.  `alpha h b i`
is entry `(b, i)` of the slack matrix with handle `h`, where a handle is the
position in the member vector `alpha_` at which the matrix was pushed. -/
inductive Var
  | T (b : Nat) (k : Fin 3)
  | R (b : Nat) (r c : Fin 3)
  | R_abs (b : Nat) (r c : Fin 3)
  | R_diff (b : Nat) (r c : Fin 3)
  | phi (i : Nat)
  | alpha (h : Nat) (b i : Nat)
  | C (i v : Nat)
  | f (i j : Nat)
  | f_outlier (i : Nat)
  | aux (b n : Nat)
  deriving DecidableEq, Repr

/-- A linear expression: a list of (coefficient, variable) terms and a constant. -/
structure LinExpr where
  terms : List (ℚ × Var)
  const : ℚ

namespace LinExpr

/-- The expression consisting of one variable. -/
def var (v : Var) : LinExpr := ⟨[(1, v)], 0⟩

/-- A constant expression. -/
def cst (c : ℚ) : LinExpr := ⟨[], c⟩

/-- Sum of two expressions. -/
def add (a b : LinExpr) : LinExpr := ⟨a.terms ++ b.terms, a.const + b.const⟩

/-- Scaling of an expression by a constant. -/
def smul (c : ℚ) (a : LinExpr) : LinExpr :=
  ⟨a.terms.map (fun t => (c * t.1, t.2)), c * a.const⟩

/-- Negation of an expression. -/
def neg (a : LinExpr) : LinExpr := smul (-1) a

/-- Difference of two expressions. -/
def sub (a b : LinExpr) : LinExpr := add a (neg b)

/-- The sum `g 0 + g 1 + ... + g (n-1)`. -/
def sumOver (n : Nat) (g : Nat → LinExpr) : LinExpr :=
  (List.range n).foldr (fun j acc => add (g j) acc) (cst 0)

/-- Value of an expression under an assignment of the variables. -/
def eval (σ : Var → ℚ) (e : LinExpr) : ℚ :=
  (e.terms.map (fun t => t.1 * σ t.2)).sum + e.const

end LinExpr

/-- A constraint of a program.  `box lo hi v` is `AddBoundingBoxConstraint`,
with `hi = none` for an upper bound of `+infinity`. -/
inductive Constraint
  | le (a b : LinExpr)
  | ge (a b : LinExpr)
  | eq (a b : LinExpr)
  | box (lo : ℚ) (hi : Option ℚ) (v : Var)

/-- Whether an assignment satisfies a constraint. -/
def Constraint.holds (σ : Var → ℚ) : Constraint → Prop
  | .le a b => a.eval σ ≤ b.eval σ
  | .ge a b => a.eval σ ≥ b.eval σ
  | .eq a b => a.eval σ = b.eval σ
  | .box lo hi v => lo ≤ σ v ∧ (∀ h, hi = some h → σ v ≤ h)

instance (σ : Var → ℚ) (c : Constraint) : Decidable (c.holds σ) := by
  cases c with
  | le a b => exact inferInstanceAs (Decidable (a.eval σ ≤ b.eval σ))
  | ge a b => exact inferInstanceAs (Decidable (a.eval σ ≥ b.eval σ))
  | eq a b => exact inferInstanceAs (Decidable (a.eval σ = b.eval σ))
  | box lo hi v =>
    cases hi with
    | none => exact decidable_of_iff (lo ≤ σ v) (by simp [Constraint.holds])
    | some h => exact decidable_of_iff (lo ≤ σ v ∧ σ v ≤ h) (by simp [Constraint.holds])

/-- A `MathematicalProgram`: constraints in the order they were added, the
variables created by `NewBinaryVariables`, and the linear cost. -/
structure Prog where
  constraints : List Constraint
  binaries : List Var
  cost : LinExpr

/-- An assignment satisfies every constraint added to the program. -/
def Prog.SatisfiesConstraints (P : Prog) (σ : Var → ℚ) : Prop :=
  ∀ c ∈ P.constraints, c.holds σ

/-- An assignment gives every binary variable the value 0 or 1. -/
def Prog.Binary (P : Prog) (σ : Var → ℚ) : Prop :=
  ∀ v ∈ P.binaries, σ v = 0 ∨ σ v = 1

/-- A feasible point of the mixed-integer program. -/
def Prog.Feasible (P : Prog) (σ : Var → ℚ) : Prop :=
  P.SatisfiesConstraints σ ∧ P.Binary σ

/-! ## Estimator state -/

/-- A triangle of the mesh: three indices into the vertex matrix. -/
abbrev Face := Fin 3 → Nat

/-- A node of the YAML configuration tree, as far as the code inspects it. -/
inductive YamlNode
  | undefined
  | scalar (s : String)
  | nonScalar
  deriving DecidableEq, Repr

/-- The conversion `node.as<string>()`: it throws unless the node is a scalar. -/
def YamlNode.asString : YamlNode → Except String String
  | .scalar s => .ok s
  | .undefined => .error "bad conversion"
  | .nonScalar => .error "bad conversion"

/-- One entry of the solve history. -/
structure SolveHistoryElem where
  wall_time : ℚ
  reported_runtime : ℚ
  best_objective : WithTop ℚ
  best_bound : ℚ
  explored_node_count : Int
  feasible_solutions_count : Int

/-- One packet of the heuristic queue: values and the variables they are for. -/
structure NewHeuristicSol where
  vals : List ℚ
  vars : List Var

/-- The members of `MIPMultipleMeshPoseEstimator` read or written by the
embedded code, with the initial values of the header. `numBodies` is
`robot_.get_num_bodies()` (the world body included) and `numPositions` is
`robot_.get_num_positions()`. -/
structure Estimator where
  numBodies : Nat := 1
  numPositions : Nat := 0
  q_robot_gt_ : List ℚ := []
  detector_type : YamlNode := .undefined
  optBigNumber_ : ℚ := 100
  optRotationConstraint_ : Int := 4
  optRotationConstraintNumFaces_ : Int := 2
  optRotationConstraintL1Bound_ : ℚ := 1 / 10
  optAllowOutliers_ : Bool := true
  optPhiMax_ : ℚ := 1 / 10
  optMaxDistToSameFace : ℚ := -1
  optUseICPHeuristic_ : Bool := false
  optDownsampleToThisManyPoints_ : Int := -1
  optNumOutliers_ : Int := 0
  optAddedSceneNoise_ : ℚ := 0
  optOutlierMin_ : List ℚ := [-1, -1, -1]
  optOutlierMax_ : List ℚ := [1, 1, 1]
  optModelSampleRays_ : Int := 10
  optICPIters_ : Int := 1000
  alpha_ : List Nat := []
  F_ : Mat := Mat.empty
  B_ : Mat := Mat.empty
  all_vertices_ : List Vec3 := []
  all_faces_ : List Face := []
  face_body_map_ : List Nat := []
  scene_pts_ : List Vec3 := []
  last_published_node_ : ℚ := 0
  last_published_sol_ : ℚ := 0
  best_heuristic_supplied_yet_ : WithTop ℚ := ⊤
  best_sol_objective_yet_ : WithTop ℚ := ⊤
  q_incumbent_ : List ℚ := []
  C_incumbent_ : Mat := Mat.empty
  f_incumbent_ : Mat := Mat.empty
  tfs_incumbent_ : List Affine3 := []
  solve_history : List SolveHistoryElem := []
  icp_search_seeds_ : List (List ℚ) := []
  new_heuristic_sols_ : List NewHeuristicSol := []

/-- Column `i` of a `Matrix3Xd` stored as the list of its columns. -/
def col (pts : List Vec3) (i : Nat) : Vec3 := pts.getD i (fun _ => 0)

/-- Difference of two 3-vectors. -/
def vsub (a b : Vec3) : Vec3 := fun k => a k - b k

/-! ## Formulation A: building the program -/

/-- Lines 1119-1126, one pass of the loop over faces: `F_(i, v) = 1` for the
three vertex indices of face `i`, and `B_(face_body_map_[i] - 1, i) = 1`.  A
face tagged 0 (the world) would index row -1, and a face without a tag would
read past `face_body_map_`: neither writes anything here. -/
def buildFBStep (est : Estimator) (FB : Mat × Mat) (i : Nat) : Mat × Mat :=
  let face := est.all_faces_.getD i (fun _ => 0)
  let F := ((FB.1.set i (face 0) 1).set i (face 1) 1).set i (face 2) 1
  let tag := est.face_body_map_.getD i 0
  let B := if tag = 0 then FB.2 else FB.2.set (tag - 1) i 1
  (F, B)

/-- Lines 1113-1126: the face-membership matrix `F_` and the body-membership
matrix `B_`, both zeroed and then filled face by face. -/
def buildFB (est : Estimator) : Mat × Mat :=
  (List.range est.all_faces_.length).foldl (buildFBStep est)
    (Mat.zeros est.all_faces_.length est.all_vertices_.length,
     Mat.zeros (est.numBodies - 1) est.all_faces_.length)

/-- What the rigid-body and rotation libraries contribute to a program:
Eigen's Euclidean `norm()`, the constant `sqrtf(3)`, the ground-truth rotation
of each body (index `body_i - 1`) in the requested direction, the constraints
that `NewRotationMatrixVars` attaches to a fresh rotation matrix, and the
constraints of the Drake rotation envelopes selected by modes 3 to 6. -/
structure External where
  norm : Vec3 → ℚ
  sqrt3 : ℚ
  gtRot : Bool → Nat → Mat3
  rotVarCons : Nat → List Constraint
  envelope : Int → Int → Nat → List Constraint

open LinExpr in
/-- Lines 831-875: the rotation constraints of one body (index `b = body_i - 1`)
for the configured mode.  An unknown positive mode prints a message and calls
`exit(-1)`. -/
def rotationConstraints (ext : External) (est : Estimator) (w2b : Bool) (b : Nat) :
    Except String (List Constraint) :=
  let idx : List (Fin 3 × Fin 3) :=
    [(0,0),(1,0),(2,0),(0,1),(1,1),(2,1),(0,2),(1,2),(2,2)]
  let three : List (Fin 3) := [0, 1, 2]
  let gt := ext.gtRot w2b b
  if est.optRotationConstraint_ > 0 then
    if est.optRotationConstraint_ = 1 then .ok []
    else if est.optRotationConstraint_ = 2 then
      .ok (idx.flatMap (fun rc =>
            [ .ge (var (.R_abs b rc.1 rc.2)) (var (.R b rc.1 rc.2)),
              .ge (var (.R_abs b rc.1 rc.2)) (neg (var (.R b rc.1 rc.2))),
              .ge (var (.R_diff b rc.1 rc.2)) (sub (var (.R b rc.1 rc.2)) (cst (gt rc.1 rc.2))),
              .ge (var (.R_diff b rc.1 rc.2)) (neg (sub (var (.R b rc.1 rc.2)) (cst (gt rc.1 rc.2)))) ])
          ++ three.flatMap (fun k =>
            [ .le (add (var (.R_diff b 0 k)) (add (var (.R_diff b 1 k)) (var (.R_diff b 2 k))))
                  (cst est.optRotationConstraintL1Bound_),
              .le (add (var (.R_diff b k 0)) (add (var (.R_diff b k 1)) (var (.R_diff b k 2))))
                  (cst est.optRotationConstraintL1Bound_),
              .le (add (var (.R_abs b 0 k)) (add (var (.R_abs b 1 k)) (var (.R_abs b 2 k))))
                  (cst ext.sqrt3),
              .le (add (var (.R_abs b k 0)) (add (var (.R_abs b k 1)) (var (.R_abs b k 2))))
                  (cst ext.sqrt3) ]))
    else if est.optRotationConstraint_ ≤ 6 then
      .ok (ext.envelope est.optRotationConstraint_ est.optRotationConstraintNumFaces_ b)
    else .error "invalid optRotationConstraint_ option!"
  else
    .ok (three.flatMap (fun c => three.map (fun r =>
          .eq (sub (var (.R b r c)) (cst (gt r c))) (cst 0))))

/-- Lines 797-884, one pass of the loop over bodies (index `b = body_i - 1`):
the box on the translation, the constraints of the fresh rotation matrix and
the rotation constraints of the configured mode are added, in that order. -/
def transformStep (ext : External) (est : Estimator) (w2b : Bool) (acc : List Constraint)
    (b : Nat) : Except String (List Constraint) :=
  match rotationConstraints ext est w2b b with
  | .error e => .error e
  | .ok rc =>
    .ok (acc
      ++ ([0, 1, 2] : List (Fin 3)).map
          (fun k => Constraint.box (-est.optBigNumber_) (some est.optBigNumber_) (.T b k))
      ++ ext.rotVarCons b ++ rc)

/-- Lines 792-886, `addTransformationVarsAndConstraints`: the constraints added
for all bodies, in body order. -/
def addTransformationVarsAndConstraints (ext : External) (est : Estimator) (w2b : Bool) :
    Except String (List Constraint) :=
  (List.range (est.numBodies - 1)).foldlM (transformStep ext est w2b) []

/-- Lines 1158-1182: the value given to `optMaxDistToSameFace` when it is
configured as exactly 0.  For every face the code copies `all_vertices_.col(k)`
(with `k` the running count, not the vertex index) into `face_pts`, then for
every pair `i < j` takes the distance from `face_pts.col(i)` to
`face_pts.col(2)`. -/
def widestFace (ext : External) (F : Mat) (all_vertices : List Vec3) : ℚ :=
  (List.range F.rows).foldl
    (fun widest face_i =>
      let k := ((List.range all_vertices.length).filter
                  (fun i => decide (F.data face_i i > 0))).length
      let face_pts := (List.range k).map (fun c => col all_vertices c)
      (List.range k).foldl
        (fun w i =>
          (List.range' (i + 1) (k - (i + 1))).foldl
            (fun w _ =>
              let dist := ext.norm (vsub (col face_pts i) (col face_pts 2))
              if dist > w then dist else w)
            w)
        widest)
    0

/-- Lines 1157-1182: the gate distance in force after the "exactly 0" rule. -/
def maxDistToSameFace (ext : External) (est : Estimator) (F : Mat) : ℚ :=
  if est.optMaxDistToSameFace = 0 then
    let widest_face := widestFace ext F est.all_vertices_
    if est.optAllowOutliers_ then widest_face + est.optPhiMax_ * 2 else widest_face
  else est.optMaxDistToSameFace

open LinExpr in
/-- Lines 1187-1190, the body of the loop over pairs: when scene points `k_1`
and `k_2` are at distance at least `D`, one constraint
`f(k_1, j) + f(k_2, j) <= 1` per face `j`; otherwise nothing. -/
def sameFacePair (ext : External) (scene_pts : List Vec3) (Nf : Nat) (D : ℚ) (k_1 k_2 : Nat) :
    List Constraint :=
  if ext.norm (vsub (col scene_pts k_1) (col scene_pts k_2)) ≥ D then
    (List.range Nf).map (fun j =>
      Constraint.le (add (var (.f k_1 j)) (var (.f k_2 j))) (cst 1))
  else []

/-- Lines 1185-1192: the loop over all ordered pairs of scene points. -/
def sameFaceConstraints (ext : External) (scene_pts : List Vec3) (Nf : Nat) (D : ℚ) :
    List Constraint :=
  (List.range scene_pts.length).flatMap (fun k_1 =>
    (List.range scene_pts.length).flatMap (fun k_2 =>
      sameFacePair ext scene_pts Nf D k_1 k_2))

open LinExpr in
/-- Lines 1195-1197: every column of `C_` sums to at most `C_.rows() - 10`. -/
def columnCapConstraints (Ns Nv : Nat) : List Constraint :=
  (List.range Nv).map (fun j =>
    Constraint.le (sumOver Ns (fun i => var (.C i j))) (cst ((Ns : ℚ) - 10)))

open LinExpr in
/-- Lines 1287-1289: component `k` of `R_b * s_i + T_b - all_vertices_ * C_.row(i)^T`. -/
def l1ErrorPos (all_vertices : List Vec3) (s : Vec3) (b i : Nat) (k : Fin 3) : LinExpr :=
  sub
    (add
      (add (smul (s 0) (var (.R b k 0)))
        (add (smul (s 1) (var (.R b k 1))) (smul (s 2) (var (.R b k 2)))))
      (var (.T b k)))
    (sumOver all_vertices.length (fun v => smul (col all_vertices v k) (var (.C i v))))

open LinExpr in
/-- Line 1290: `optBigNumber_ * (1 - B_.row(b) * f_.row(i)^T)`. -/
def selector (bigM : ℚ) (B : Mat) (Nf : Nat) (b i : Nat) : LinExpr :=
  smul bigM (sub (cst 1) (sumOver Nf (fun j => smul (B.data b j) (var (.f i j)))))

open LinExpr in
/-- Lines 1270-1296: for scene point `i`, the equality defining `phi_(i)` and,
for every body, the six lower bounds on the `alpha` slacks.  `aK k` is the
handle of `alpha_[k]`. -/
def residualConstraints (est : Estimator) (B : Mat) (aK : Fin 3 → Nat) (scene_pts : List Vec3)
    (i : Nat) : List Constraint :=
  let nb := est.numBodies - 1
  let Nf := est.all_faces_.length
  [ Constraint.eq (var (.phi i))
      (add (add (add (sumOver nb (fun b => var (.alpha (aK 0) b i)))
                     (sumOver nb (fun b => var (.alpha (aK 1) b i))))
                (sumOver nb (fun b => var (.alpha (aK 2) b i))))
           (smul est.optPhiMax_ (var (.f_outlier i)))) ]
  ++ (List.range nb).flatMap (fun b =>
      ([0, 1, 2] : List (Fin 3)).flatMap (fun k =>
        [ Constraint.ge (var (.alpha (aK k) b i))
            (sub (l1ErrorPos est.all_vertices_ (col scene_pts i) b i k)
                 (selector est.optBigNumber_ B Nf b i)),
          Constraint.ge (var (.alpha (aK k) b i))
            (sub (neg (l1ErrorPos est.all_vertices_ (col scene_pts i) b i k))
                 (selector est.optBigNumber_ B Nf b i)) ]))

open LinExpr in
/-- Line 1148: with outliers disallowed, the sum of all `f_outlier` is 0. -/
def noOutlierConstraints (est : Estimator) (Ns : Nat) : List Constraint :=
  if est.optAllowOutliers_ then []
  else [Constraint.eq (sumOver Ns (fun i => var (.f_outlier i))) (cst 0)]

/-- Lines 1184-1198: the same-face gate and the column caps, added when the
gate distance is positive. -/
def gateConstraints (ext : External) (scene_pts : List Vec3) (Nf Nv : Nat) (D : ℚ) :
    List Constraint :=
  if D > 0 then
    sameFaceConstraints ext scene_pts Nf D ++ columnCapConstraints scene_pts.length Nv
  else []

/-- Lines 1211-1216: `phi_` and the rows of `alpha_[0..2]` are nonnegative. -/
def slackBoxConstraints (Ns nb : Nat) (aK : Fin 3 → Nat) : List Constraint :=
  (List.range Ns).map (fun i => Constraint.box 0 none (.phi i))
  ++ ([0, 1, 2] : List (Fin 3)).flatMap (fun k =>
      (List.range nb).flatMap (fun b =>
        (List.range Ns).map (fun i => Constraint.box 0 none (.alpha (aK k) b i))))

open LinExpr in
/-- Lines 1233-1235: row `k` of `C_` plus `f_outlier_(k)` sums to 1. -/
def cRowSumConstraint (Nv k : Nat) : Constraint :=
  Constraint.eq (add (sumOver Nv (fun v => var (.C k v))) (var (.f_outlier k))) (cst 1)

open LinExpr in
/-- Lines 1238-1240: row `k` of `f_` plus `f_outlier_(k)` sums to 1. -/
def fRowSumConstraint (Nf k : Nat) : Constraint :=
  Constraint.eq (add (sumOver Nf (fun j => var (.f k j))) (var (.f_outlier k))) (cst 1)

/-- Lines 1248-1252: every entry of `C_` lies in `[0, 1]`. -/
def cBoxConstraint (i j : Nat) : Constraint := Constraint.box 0 (some 1) (.C i j)

open LinExpr in
/-- Lines 1261-1265: `C_(i, j) <= F_.col(j)^T * f_.row(i)^T`. -/
def cFaceConstraint (F : Mat) (Nf i j : Nat) : Constraint :=
  Constraint.le (var (.C i j)) (sumOver Nf (fun r => smul (F.data r j) (var (.f i r))))

/-- The member vector `alpha_` after the code has pushed three fresh slack
matrices onto it (lines 1134-1137); a fresh matrix gets as handle the position
at which it is pushed. -/
def alphaAfterPush (alpha_ : List Nat) : List Nat :=
  alpha_ ++ [alpha_.length, alpha_.length + 1, alpha_.length + 2]

/-- The handle of `alpha_[k]` as the constraints of a solve call read it,
after the push of that call. -/
def alphaHandle (alpha_ : List Nat) (k : Fin 3) : Nat :=
  (alphaAfterPush alpha_).getD k.val 0

open LinExpr in
/-- Lines 1101-1296 of `doObjectPoseEstimationWithWorldToBodyFormulation`,
after the transform variables: the program of formulation A for the given
scene points, with the constraints in the order the code adds them.
`tfCons` are the constraints added by `addTransformationVarsAndConstraints`. -/
def programA (ext : External) (est : Estimator) (scene_pts : List Vec3)
    (tfCons : List Constraint) : Prog :=
  let Ns := scene_pts.length
  let Nv := est.all_vertices_.length
  let Nf := est.all_faces_.length
  let nb := est.numBodies - 1
  let FB := buildFB est
  let aK := alphaHandle est.alpha_
  { constraints :=
      tfCons
        ++ noOutlierConstraints est Ns
        ++ gateConstraints ext scene_pts Nf Nv (maxDistToSameFace ext est FB.1)
        ++ slackBoxConstraints Ns nb aK
        ++ (List.range Ns).map (fun k => cRowSumConstraint Nv k)
        ++ (List.range Ns).map (fun k => fRowSumConstraint Nf k)
        ++ (List.range Ns).flatMap (fun i => (List.range Nv).map (fun j => cBoxConstraint i j))
        ++ (List.range Ns).flatMap (fun i =>
            (List.range Nv).map (fun j => cFaceConstraint FB.1 Nf i j))
        ++ (List.range Ns).flatMap (fun i =>
            residualConstraints est FB.2 aK scene_pts i)
    binaries :=
      (List.range Ns).flatMap (fun i => (List.range Nf).map (fun j => Var.f i j))
        ++ (List.range Ns).map (fun i => Var.f_outlier i)
    cost := smul (1 / (Ns : ℚ)) (sumOver Ns (fun i => var (.phi i))) }

/-- The program-building part of
`doObjectPoseEstimationWithWorldToBodyFormulation` (lines 1101-1296): the
program handed to the solver and the estimator as the construction leaves it
(`scene_pts_`, `F_`, `B_`, `alpha_`, `optMaxDistToSameFace`).  It fails only
where `addTransformationVarsAndConstraints` exits. -/
def buildFormulationA (ext : External) (est : Estimator) (scene_pts : List Vec3) :
    Except String (Prog × Estimator) := do
  let tfCons ← addTransformationVarsAndConstraints ext est false
  let FB := buildFB est
  pure (programA ext est scene_pts tfCons,
    { est with scene_pts_ := scene_pts, F_ := FB.1, B_ := FB.2,
               alpha_ := alphaAfterPush est.alpha_,
               optMaxDistToSameFace := maxDistToSameFace ext est FB.1 })

/-- A point satisfies formulation A when the program is built and the point
satisfies all of its constraints (binary or not). -/
def SatisfiesA (ext : External) (est : Estimator) (scene_pts : List Vec3) (σ : Var → ℚ) : Prop :=
  ∃ P est1, buildFormulationA ext est scene_pts = .ok (P, est1) ∧ P.SatisfiesConstraints σ

/-- A feasible point of formulation A: the program is built, and the point
satisfies its constraints and gives 0 or 1 to every binary variable. -/
def FeasibleA (ext : External) (est : Estimator) (scene_pts : List Vec3) (σ : Var → ℚ) : Prop :=
  ∃ P est1, buildFormulationA ext est scene_pts = .ok (P, est1) ∧ P.Feasible σ

/-- Whether `v` is one of the three vertex indices of a face. -/
def Face.hasVertex (face : Face) (v : Nat) : Prop := v = face 0 ∨ v = face 1 ∨ v = face 2

instance (face : Face) (v : Nat) : Decidable (face.hasVertex v) := by
  unfold Face.hasVertex; exact inferInstance

/-- Face `j` of the estimator's mesh (`all_faces_[j]`). -/
def Estimator.face (est : Estimator) (j : Nat) : Face := est.all_faces_.getD j (fun _ => 0)

/-- Component-wise residual `R_b * s + T_b - all_vertices_ * C(i,:)^T` of scene
point `i` against body `b` (index `body_i - 1`) under an assignment. -/
def residual (est : Estimator) (σ : Var → ℚ) (s : Vec3) (b i : Nat) : Vec3 :=
  fun k => Mat3.mulVec3 (fun r c => σ (.R b r c)) s k + σ (.T b k)
    - ∑ v in Finset.range est.all_vertices_.length, col est.all_vertices_ v k * σ (.C i v)

/-- The gate `B_.row(b) * f_.row(i)^T` of body `b` for scene point `i`. -/
def bodyGate (est : Estimator) (σ : Var → ℚ) (b i : Nat) : ℚ :=
  ∑ j in Finset.range est.all_faces_.length, (buildFB est).2.data b j * σ (.f i j)

/-! ## Formulation A: extracting the solution -/

/-- The code's `PointCorrespondence`. -/
structure PointCorrespondence where
  scene_pt : Vec3
  model_pt : Vec3
  face_ind : Nat
  scene_ind : Nat
  model_verts : List Vec3
  vert_weights : List ℚ
  vert_inds : List Nat

/-- The code's `ObjectPoseEstimation`. -/
structure ObjectPoseEstimation where
  est_tf : Affine3
  R_fit : Mat3
  T_fit : Vec3
  correspondences : List PointCorrespondence
  obj_ind : Nat

/-- The code's `Solution`; the objective may be `+infinity`. -/
structure Solution where
  pose_estimates : List ObjectPoseEstimation
  objective : WithTop ℚ
  solve_time : ℚ
  lower_bound : ℚ

/-- What the solver hands back after `Solve`: whether it reports
`kSolutionFound`, the values `GetSolution` returns for `f_`, `C_` and the
transform variables of each body (index `body_i - 1`), the optimal cost, the
lower bound, and the elapsed wall time measured around the call. -/
structure SolveResult where
  sol_good : Bool
  f : Mat
  C : Mat
  T : Nat → Vec3
  R : Nat → Mat3
  optimal_cost : ℚ
  lower_bound : ℚ
  elapsed : ℚ

/-- Eigen's `rotation()` of an `Affine3d` (the rotation factor of the linear
part) and the helper `rotmat2rpy`; neither body is part of the repository. -/
structure RotationLib where
  rotation : Affine3 → Mat3
  rotmat2rpy : Mat3 → Vec3

/-- Lines 1463-1469: the vertices, weights and indices recorded with a
correspondence of scene point `scene_i`: every vertex whose weight is `>= 0`. -/
def vertexWeights (all_vertices : List Vec3) (C_est : Mat) (scene_i : Nat) :
    List (Vec3 × ℚ × Nat) :=
  ((List.range all_vertices.length).filter (fun k_v => decide (C_est.data scene_i k_v ≥ 0))).map
    (fun k_v => (col all_vertices k_v, C_est.data scene_i k_v, k_v))

/-- Lines 1453-1473: the correspondences of body `body_i`, scanning scene points
and, for each, faces, and keeping the pairs with `f_est > 0.5` and `B_ > 0.5`. -/
def correspondencesFor (est : Estimator) (scene_pts : List Vec3) (f_est C_est : Mat)
    (est_tf : Affine3) (body_i : Nat) : List PointCorrespondence :=
  (List.range scene_pts.length).flatMap (fun scene_i =>
    (List.range f_est.cols).flatMap (fun face_i =>
      if f_est.data scene_i face_i > 1 / 2 ∧ est.B_.data (body_i - 1) face_i > 1 / 2 then
        let vw := vertexWeights est.all_vertices_ C_est scene_i
        [{ scene_pt := col scene_pts scene_i
           model_pt := est_tf.apply (col scene_pts scene_i)
           scene_ind := scene_i
           face_ind := face_i
           model_verts := vw.map (fun t => t.1)
           vert_weights := vw.map (fun t => t.2.1)
           vert_inds := vw.map (fun t => t.2.2) }]
      else []))

/-- Lines 1423-1434: the translation and rotation reported for body `body_i`.
With a solution they are the solver's values; without, they are read from
`tfs_incumbent_[body_i - 1]`, and reading past the end of that vector is
undefined behaviour (`none`). -/
def bodyFit (lib : RotationLib) (est : Estimator) (res : SolveResult) (body_i : Nat) :
    Option (Vec3 × Mat3) :=
  if res.sol_good then some (res.T (body_i - 1), res.R (body_i - 1))
  else
    match est.tfs_incumbent_[body_i - 1]? with
    | some tf => some (tf.inverse.translation, lib.rotation tf.inverse)
    | none => none

/-- The estimate of body `body_i` built from its fitted translation and
rotation (lines 1436-1473): `est_tf` is the inverse of the fitted transform. -/
def newEstimate (est : Estimator) (scene_pts : List Vec3) (f_est C_est : Mat)
    (TR : Vec3 × Mat3) (body_i : Nat) : ObjectPoseEstimation :=
  let est_tf := (Affine3.mk TR.2 TR.1).inverse
  { est_tf := est_tf
    R_fit := TR.2
    T_fit := TR.1
    correspondences := correspondencesFor est scene_pts f_est C_est est_tf body_i
    obj_ind := body_i }

/-- Lines 1413-1479, one pass of the loop over bodies: the estimate is pushed
onto `pose_estimates` only when it has correspondences. -/
def extractBody (lib : RotationLib) (est : Estimator) (scene_pts : List Vec3)
    (res : SolveResult) (f_est C_est : Mat) (pose_estimates : List ObjectPoseEstimation)
    (body_i : Nat) : Option (List ObjectPoseEstimation) :=
  match bodyFit lib est res body_i with
  | none => none
  | some TR =>
    let new_estimate := newEstimate est scene_pts f_est C_est TR body_i
    some (if new_estimate.correspondences.length > 0 then pose_estimates ++ [new_estimate]
          else pose_estimates)

/-- Lines 1392-1490 of `doObjectPoseEstimationWithWorldToBodyFormulation`: the
solutions returned after the solve.  `est` is the estimator after the solve
(with `B_` of this call and whatever the solution callback recorded). -/
def extractSolutionA (lib : RotationLib) (est : Estimator) (scene_pts : List Vec3)
    (res : SolveResult) : Option (List Solution) :=
  let f_est := if res.sol_good then res.f else est.f_incumbent_
  let C_est := if res.sol_good then res.C else est.C_incumbent_
  match (List.range' 1 (est.numBodies - 1)).foldlM
      (extractBody lib est scene_pts res f_est C_est) [] with
  | none => none
  | some pose_estimates =>
    some [{ pose_estimates := pose_estimates
            objective := if res.sol_good then (res.optimal_cost : WithTop ℚ)
                         else est.best_sol_objective_yet_
            lower_bound := res.lower_bound
            solve_time := res.elapsed }]

/-- The whole of `doObjectPoseEstimationWithWorldToBodyFormulation` (lines
1101-1491): build the program, hand it to the solver, extract the solutions.
`solve` stands for `gurobi_solver.Solve(prog)` together with the callbacks it
invokes: it returns the solver's outcome and the estimator as the callbacks
leave it.  The result is `none` where the extraction has undefined behaviour. -/
def doObjectPoseEstimationWithWorldToBodyFormulation (ext : External) (lib : RotationLib)
    (solve : Prog → Estimator → SolveResult × Estimator) (est : Estimator)
    (scene_pts : List Vec3) : Except String (Option (List Solution) × Estimator) :=
  match buildFormulationA ext est scene_pts with
  | .error e => .error e
  | .ok (prog, est1) =>
    let r := solve prog est1
    .ok (extractSolutionA lib r.2 scene_pts r.1, r.2)

/-- The pairs (scene point, face) that the specification lists for body
`body_i`: those with `f_est > 0.5` and `Bm > 0.5`, scene points in increasing
order and, for each, faces in increasing order. -/
def specPairs (est : Estimator) (Ns : Nat) (f_est : Mat) (body_i : Nat) : List (Nat × Nat) :=
  (List.range Ns).flatMap (fun i =>
    ((List.range f_est.cols).filter
      (fun j => decide (f_est.data i j > 1 / 2 ∧ est.B_.data (body_i - 1) j > 1 / 2))).map
      (fun j => (i, j)))

/-- The fitted translation and rotation of body `body_i` when the read of
`tfs_incumbent_` is in range. -/
def fitOf (lib : RotationLib) (est : Estimator) (res : SolveResult) (body_i : Nat) :
    Vec3 × Mat3 :=
  if res.sol_good then (res.T (body_i - 1), res.R (body_i - 1))
  else
    let tf := est.tfs_incumbent_.getD (body_i - 1) Affine3.identity
    (tf.inverse.translation, lib.rotation tf.inverse)

/-! ## Solver callbacks -/

/-- The fields of `GurobiSolver::SolveStatusInfo` that the callbacks read. -/
structure SolveStatusInfo where
  reported_runtime : ℚ
  current_objective : ℚ
  best_objective : WithTop ℚ
  best_bound : ℚ
  explored_node_count : Int
  feasible_solutions_count : Int

/-- The values `prog.GetSolution` returns inside a callback: the translation and
rotation variables of each body (index `body_i - 1`) and the matrices `C_`, `f_`. -/
structure SolverValues where
  T : Nat → Vec3
  R : Nat → Mat3
  C : Mat
  f : Mat

/-- The write `q.block<3, 1>(off, 0) = v` on a vector stored as a list.  A
write past the end leaves the vector as it is. -/
def setBlock3 (q : List ℚ) (off : Nat) (v : Vec3) : List ℚ :=
  ((q.set off (v 0)).set (off + 1) (v 1)).set (off + 2) (v 2)

/-- Lines 155-162 and 229-236: the transform of one body in a callback: the
solver's `(R, T)`, inverted unless the detector type is `body_to_world_transforms`. -/
def callbackTransform (dt : String) (vals : SolverValues) (b : Nat) : Affine3 :=
  let est_tf : Affine3 := ⟨vals.R b, vals.T b⟩
  if dt ≠ "body_to_world_transforms" then est_tf.inverse else est_tf

/-- Lines 149-173, one pass of the body loop of the solution callback (index
`b = body_i - 1`): the transform is stored in `tfs` and its translation and
roll/pitch/yaw are written into `q_robot`.  `config_["detector_type"].as<string>()`
throws when the key is absent. -/
def solBodyStep (lib : RotationLib) (est : Estimator) (vals : SolverValues)
    (acc : List ℚ × List Affine3) (b : Nat) : Except String (List ℚ × List Affine3) := do
  let dt ← est.detector_type.asString
  let est_tf := callbackTransform dt vals b
  let tfs := acc.2.set b est_tf
  let q_robot := setBlock3 (setBlock3 acc.1 (6 * b) est_tf.translation) (6 * b + 3)
    (lib.rotmat2rpy (lib.rotation est_tf))
  pure (q_robot, tfs)

/-- Lines 223-244, one pass of the body loop of the node callback. -/
def nodeBodyStep (lib : RotationLib) (est : Estimator) (vals : SolverValues)
    (q_robot : List ℚ) (b : Nat) : Except String (List ℚ) := do
  let dt ← est.detector_type.asString
  let est_tf := callbackTransform dt vals b
  pure (setBlock3 (setBlock3 q_robot (6 * b) est_tf.translation) (6 * b + 3)
    (lib.rotmat2rpy (lib.rotation est_tf)))

/-- Lines 147-173: `q_robot` and `tfs` as the solution callback reconstructs
them.  Both start with the right size; entries not yet written are 0 and the
identity. -/
def solReconstruct (lib : RotationLib) (est : Estimator) (vals : SolverValues) :
    Except String (List ℚ × List Affine3) :=
  (List.range (est.numBodies - 1)).foldlM (solBodyStep lib est vals)
    (List.replicate est.numPositions 0, List.replicate (est.numBodies - 1) Affine3.identity)

/-- Lines 222-244: `q_robot` as the node callback reconstructs it. -/
def nodeReconstruct (lib : RotationLib) (est : Estimator) (vals : SolverValues) :
    Except String (List ℚ) :=
  (List.range (est.numBodies - 1)).foldlM (nodeBodyStep lib est vals)
    (List.replicate est.numPositions 0)

/-- The product `q.transpose() * q`. -/
def sqNorm (q : List ℚ) : ℚ := (q.map (fun x => x * x)).sum

/-- Lines 175-179: the time of the last publication is refreshed when more
than 0.05 s have passed and `q_robot` is small enough. -/
def publishSol (est : Estimator) (q_robot : List ℚ) (now : ℚ) : Estimator :=
  if now - est.last_published_sol_ > 1 / 20 ∧ sqNorm q_robot < 100 then
    { est with last_published_sol_ := now }
  else est

/-- Lines 181-196: when the reported objective is strictly below the best so
far, the incumbent is replaced; `f_incumbent_` only under the detector type
`world_to_body_transforms`. -/
def updateIncumbent (est : Estimator) (vals : SolverValues) (info : SolveStatusInfo)
    (q_robot : List ℚ) (tfs : List Affine3) : Except String Estimator :=
  if (info.current_objective : WithTop ℚ) < est.best_sol_objective_yet_ then
    match est.detector_type.asString with
    | .error e => .error e
    | .ok dt =>
      .ok { est with
        best_sol_objective_yet_ := (info.current_objective : WithTop ℚ)
        q_incumbent_ := q_robot
        C_incumbent_ := vals.C
        f_incumbent_ := if dt = "world_to_body_transforms" then vals.f else est.f_incumbent_
        tfs_incumbent_ := tfs }
  else .ok est

/-- Lines 198-202: with the ICP heuristic enabled the state is pushed as a seed. -/
def pushSeed (est : Estimator) (q_robot : List ℚ) : Estimator :=
  if est.optUseICPHeuristic_ then
    { est with icp_search_seeds_ := q_robot :: est.icp_search_seeds_ }
  else est

/-- Lines 205-213 and 277-285: one entry is appended to the solve history. -/
def recordHistory (est : Estimator) (info : SolveStatusInfo) (now : ℚ) : Estimator :=
  { est with
    solve_history := est.solve_history ++
      [{ wall_time := now
         reported_runtime := info.reported_runtime
         best_objective := info.best_objective
         best_bound := info.best_bound
         explored_node_count := info.explored_node_count
         feasible_solutions_count := info.feasible_solutions_count }] }

/-- Lines 145-215, `handleMipSolCallbackFunction`: the estimator after one
invocation of the solution callback at wall-clock time `now`.  Publishing to
the viewer is not represented. -/
def handleMipSolCallbackFunction (lib : RotationLib) (est : Estimator) (vals : SolverValues)
    (info : SolveStatusInfo) (now : ℚ) : Except String Estimator :=
  match solReconstruct lib est vals with
  | .error e => .error e
  | .ok qt =>
    match updateIncumbent (publishSol est qt.1 now) vals info qt.1 qt.2 with
    | .error e => .error e
    | .ok est2 => .ok (recordHistory (pushSeed est2 qt.1) info now)

/-- Lines 247-251: the time of the last node publication is refreshed when
more than 0.1 s have passed and `q_robot` is small enough. -/
def publishNode (est : Estimator) (q_robot : List ℚ) (now : ℚ) : Estimator :=
  if now - est.last_published_node_ > 1 / 10 ∧ sqNorm q_robot < 1000 then
    { est with last_published_node_ := now }
  else est

/-- Lines 253-259: with the ICP heuristic enabled, the node is pushed as a seed
when the seed stack is empty. -/
def seedWhenEmpty (est : Estimator) (q_robot : List ℚ) : Estimator :=
  if est.optUseICPHeuristic_ ∧ est.icp_search_seeds_.length < 1 then
    { est with icp_search_seeds_ := q_robot :: est.icp_search_seeds_ }
  else est

/-- Lines 262-272: when the heuristic queue is not empty and the ICP heuristic
is enabled, the front packet is handed to the solver and popped. -/
def takeHeuristic (est : Estimator) : Estimator × Option NewHeuristicSol :=
  if est.new_heuristic_sols_.length > 0 then
    if est.optUseICPHeuristic_ then
      ({ est with new_heuristic_sols_ := est.new_heuristic_sols_.tail },
        est.new_heuristic_sols_.head?)
    else (est, none)
  else (est, none)

/-- Lines 276-286: an entry is appended to the solve history when the history
is empty or its last entry is more than 0.1 s old. -/
def recordNode (est : Estimator) (info : SolveStatusInfo) (now : ℚ) : Estimator :=
  match est.solve_history.getLast? with
  | none => recordHistory est info now
  | some last => if now - last.wall_time > 1 / 10 then recordHistory est info now else est

/-- Lines 220-288, `handleMipNodeCallbackFunction`: the estimator after one
invocation of the node callback at time `now`, and the heuristic handed to the
solver through `vals`/`vars` when one is taken from the queue.  Rationals are
always finite, so the `is_finite` test passes. -/
def handleMipNodeCallbackFunction (lib : RotationLib) (est : Estimator) (vals : SolverValues)
    (info : SolveStatusInfo) (now : ℚ) : Except String (Estimator × Option NewHeuristicSol) :=
  match nodeReconstruct lib est vals with
  | .error e => .error e
  | .ok q_robot =>
    let r := takeHeuristic (seedWhenEmpty (publishNode est q_robot now) q_robot)
    .ok (recordNode r.1 info now, r.2)

/-- A solve during which the solution callback is invoked for each entry of
`calls` in turn (values, status, time). -/
def runSolCallbacks (lib : RotationLib) (est : Estimator)
    (calls : List (SolverValues × SolveStatusInfo × ℚ)) : Except String Estimator :=
  calls.foldlM (fun e c => handleMipSolCallbackFunction lib e c.1 c.2.1 c.2.2) est

/-- One node callback of a run: the heuristic it hands to the solver, if any,
is appended to those handed over so far. -/
def nodeCallbackStep (lib : RotationLib) (acc : Estimator × List NewHeuristicSol)
    (c : SolverValues × SolveStatusInfo × ℚ) : Except String (Estimator × List NewHeuristicSol) :=
  match handleMipNodeCallbackFunction lib acc.1 c.1 c.2.1 c.2.2 with
  | .error e => .error e
  | .ok r => .ok (r.1, acc.2 ++ r.2.toList)

/-- A stretch of a solve during which the node callback is invoked for each
entry of `calls` in turn (values, status, time): the estimator afterwards and
the heuristics handed to the solver, in the order they were handed over. -/
def runNodeCallbacks (lib : RotationLib) (est : Estimator)
    (calls : List (SolverValues × SolveStatusInfo × ℚ)) :
    Except String (Estimator × List NewHeuristicSol) :=
  calls.foldlM (nodeCallbackStep lib) (est, [])

/-- Lines 292-298 of `doICPProcessing`: under the seed lock the top of the seed
stack is copied into `q_robot` and popped; on an empty stack `q_robot` stays
empty. -/
def takeSeed (est : Estimator) : List ℚ × Estimator :=
  match est.icp_search_seeds_ with
  | [] => ([], est)
  | q_robot :: rest => (q_robot, { est with icp_search_seeds_ := rest })

/-- Lines 520-527 of `doICPProcessing`: when the new objective is below 1.1
times the best supplied so far (`+infinity` at first), it becomes the best and
the packet built by `getInitialGuessFromRobotState` is pushed at the back of
the heuristic queue. -/
def offerHeuristic (getInitialGuessFromRobotState : List ℚ → NewHeuristicSol)
    (est : Estimator) (q_robot : List ℚ) (new_objective : ℚ) : Estimator :=
  if (new_objective : WithTop ℚ)
      < est.best_heuristic_supplied_yet_.map (fun x => x * (11 / 10)) then
    { est with
      best_heuristic_supplied_yet_ := (new_objective : WithTop ℚ)
      new_heuristic_sols_ := est.new_heuristic_sols_ ++ [getInitialGuessFromRobotState q_robot] }
  else est

/-- Lines 290-529, `doICPProcessing`.  The ICP iterations and the final
objective (lines 307-518) are the parameter `icp`, which maps the seed to the
refined state and its objective.  An empty `q_robot`, or one of the wrong
length, returns right after the pop. -/
def doICPProcessing (icp : Estimator → List ℚ → List ℚ × ℚ)
    (getInitialGuessFromRobotState : List ℚ → NewHeuristicSol) (est : Estimator) : Estimator :=
  let r := takeSeed est
  if r.1.length = 0 then r.2
  else if r.1.length ≠ r.2.numPositions then r.2
  else
    let s := icp r.2 r.1
    offerHeuristic getInitialGuessFromRobotState r.2 s.1 s.2

/-- The variables of the ICP loop that decide how long it runs: the state
being refined, the counter of consecutive rounds of nondecreasing error, and
the error of the previous round. -/
structure IcpState where
  q_robot : List ℚ
  consecutive_rounds_of_nondecreasing_error : Nat
  last_error : ℚ
  deriving DecidableEq

/-- Lines 315-497, one pass of the ICP loop: the state after the pass and
whether the loop is left by a `break`.  `errorOf q` is the sum of the distances
returned by `doExactCollisionDetectFromPoints` at `q` (lines 338-346), and
`solveStep q` is the state after lines 362-486, `none` when the reduced solve
is not finite (the `break` of line 473). -/
def icpIteration (errorOf : List ℚ → ℚ) (solveStep : List ℚ → Option (List ℚ))
    (st : IcpState) : IcpState × Bool :=
  let error := errorOf st.q_robot
  if error = 0 then (st, true)
  else if error > st.last_error - 1 / 10000 then
    if st.consecutive_rounds_of_nondecreasing_error + 1 > 10 then
      ({ st with consecutive_rounds_of_nondecreasing_error :=
            st.consecutive_rounds_of_nondecreasing_error + 1 }, true)
    else
      match solveStep st.q_robot with
      | none =>
        ({ st with consecutive_rounds_of_nondecreasing_error :=
              st.consecutive_rounds_of_nondecreasing_error + 1, last_error := error }, true)
      | some q =>
        ({ q_robot := q
           consecutive_rounds_of_nondecreasing_error :=
             st.consecutive_rounds_of_nondecreasing_error + 1
           last_error := error }, false)
  else
    match solveStep st.q_robot with
    | none => ({ st with consecutive_rounds_of_nondecreasing_error := 0, last_error := error }, true)
    | some q =>
      ({ q_robot := q, consecutive_rounds_of_nondecreasing_error := 0, last_error := error }, false)

/-- Lines 314-500, the ICP loop with `fuel` passes left: the final state and
the number of passes that were started. -/
def icpLoop (errorOf : List ℚ → ℚ) (solveStep : List ℚ → Option (List ℚ)) :
    Nat → IcpState → IcpState × Nat
  | 0, st => (st, 0)
  | fuel + 1, st =>
    let r := icpIteration errorOf solveStep st
    if r.2 then (r.1, 1)
    else
      let r2 := icpLoop errorOf solveStep fuel r.1
      (r2.1, r2.2 + 1)

/-- Lines 311-500: the loop as `doICPProcessing` runs it on a seed, with the
counter at 0, `last_error = scene_pts_.size() * optPhiMax_` (`size()` counts
the entries of the 3 x Ns matrix) and at most `optICPIters_` passes. -/
def icpRun (errorOf : List ℚ → ℚ) (solveStep : List ℚ → Option (List ℚ)) (est : Estimator)
    (q_robot : List ℚ) : IcpState × Nat :=
  icpLoop errorOf solveStep est.optICPIters_.toNat
    { q_robot := q_robot
      consecutive_rounds_of_nondecreasing_error := 0
      last_error := (3 * est.scene_pts_.length : ℚ) * est.optPhiMax_ }

/-- The pass at this state counts as a round of nondecreasing error: the error
is not 0 and exceeds the previous error minus `1e-4`. -/
def Stalls (errorOf : List ℚ → ℚ) (st : IcpState) : Prop :=
  errorOf st.q_robot ≠ 0 ∧ errorOf st.q_robot > st.last_error - 1 / 10000

instance (errorOf : List ℚ → ℚ) (st : IcpState) : Decidable (Stalls errorOf st) := by
  unfold Stalls; infer_instance

/-- The loop variables after `m` passes none of which left the loop. -/
def icpAfter (errorOf : List ℚ → ℚ) (solveStep : List ℚ → Option (List ℚ)) :
    Nat → IcpState → IcpState
  | 0, st => st
  | m + 1, st => icpAfter errorOf solveStep m (icpIteration errorOf solveStep st).1

/-- The two block writes of one pass of a callback's body loop, for detector
type `dt` (lines 171-172 and 242-243). -/
def writeBody (lib : RotationLib) (dt : String) (vals : SolverValues) (q_robot : List ℚ)
    (b : Nat) : List ℚ :=
  setBlock3 (setBlock3 q_robot (6 * b) (callbackTransform dt vals b).translation) (6 * b + 3)
    (lib.rotmat2rpy (lib.rotation (callbackTransform dt vals b)))

/-! ## Construction and dispatch -/

/-- One entry of the `models` list of the model configuration. -/
structure ModelEntry where
  urdf : String
  q0 : List ℚ

/-- The model configuration tree, as far as the constructor reads it: the
`models` key may be absent. -/
structure ModelConfig where
  models : Option (List ModelEntry)

/-- The keys of the detector configuration that set members represented in
`Estimator`; an absent key is `none` and leaves the member at its default. -/
structure Config where
  detector_type : YamlNode := .undefined
  rotation_constraint : Option Int := none
  rotation_constraint_num_faces : Option Int := none
  rotation_constraint_l1_bound : Option ℚ := none
  allow_outliers : Option Bool := none
  phi_max : Option ℚ := none
  big_M : Option ℚ := none
  ICP_use_as_heuristic : Option Bool := none
  max_dist_to_same_face : Option ℚ := none
  downsample_to_this_many_points : Option Int := none
  model_sample_rays : Option Int := none
  add_this_many_outliers : Option Int := none
  outlier_min : Option (List ℚ) := none
  outlier_max : Option (List ℚ) := none
  scene_point_additive_noise : Option ℚ := none
  ICP_max_iters : Option Int := none

/-- The collision geometry of one collision element, in its own frame, with
the element's local transform into the body frame. -/
structure Geometry where
  hasFaces : Bool
  points : List Vec3
  faces : List Face
  localTransform : Affine3

/-- A body of the tree: its collision elements (`none` for an element without
geometry). -/
structure Body where
  elements : List (Option Geometry)

/-- What loading one URDF adds to the tree: bodies and generalized positions. -/
structure UrdfModel where
  bodies : List Body
  num_positions : Nat

/-- Lines 759-787: the meshes of one body (`body_i`) are appended to the
aggregate, face indices offset by the number of vertices already present, and
every face tagged with `body_i`. -/
def collectBody (acc : List Vec3 × List Face × List Nat) (body_i : Nat) (body : Body) :
    List Vec3 × List Face × List Nat :=
  body.elements.foldl
    (fun acc el =>
      match el with
      | none => acc
      | some g =>
        if g.hasFaces then
          let points := g.points.map g.localTransform.apply
          let off := acc.1.length
          (acc.1 ++ points,
           acc.2.1 ++ g.faces.map (fun face => fun k => face k + off),
           acc.2.2 ++ g.faces.map (fun _ => body_i))
        else acc)
    acc

/-- Lines 748-790, `collectBodyMeshesFromRBT`: the loop over the bodies other
than the world (`bodies` lists them, body `body_i` at position `body_i - 1`). -/
def collectBodyMeshesFromRBT (bodies : List Body)
    (init : List Vec3 × List Face × List Nat) : List Vec3 × List Face × List Nat :=
  (List.range bodies.length).foldl
    (fun acc idx => collectBody acc (idx + 1) (bodies.getD idx ⟨[]⟩))
    init

/-- The vector after `conservativeResize(n)`: kept entries, new entries 0. -/
def conservativeResize (q : List ℚ) (n : Nat) : List ℚ :=
  q.take n ++ List.replicate (n - q.length) 0

/-- Lines 597-621, one pass of the loop over models.  The state is the bodies
loaded so far, the number of positions, `q_robot_gt_` and
`old_q_robot_gt_size`.  A `q0` of length 7 is converted from a quaternion; a
length other than 6 or 7 prints a message and calls `exit(0)`. -/
def loadModel (loadUrdf : String → UrdfModel) (quat2rpy : ℚ → ℚ → ℚ → ℚ → Vec3)
    (st : List Body × Nat × List ℚ × Nat) (m : ModelEntry) :
    Except String (List Body × Nat × List ℚ × Nat) :=
  let u := loadUrdf m.urdf
  let bodies := st.1 ++ u.bodies
  let npos := st.2.1 + u.num_positions
  let q0r : Except String (List ℚ) :=
    if m.q0.length = 7 then
      let rpy := quat2rpy (m.q0.getD 3 0) (m.q0.getD 4 0) (m.q0.getD 5 0) (m.q0.getD 6 0)
      .ok ((((m.q0.set 3 (rpy 0)).set 4 (rpy 1)).set 5 (rpy 2)).take 6)
    else if m.q0.length ≠ 6 then .error "q0 had a number of positions which doesn't make sense"
    else .ok m.q0
  match q0r with
  | .error e => .error e
  | .ok q0 =>
    let q_gt := (List.range q0.length).foldl
      (fun q i => q.set (st.2.2.2 + i) (q0.getD i 0)) (conservativeResize st.2.2.1 npos)
    .ok (bodies, npos, q_gt, st.2.2.2 + q0.length)

/-- Lines 532-629, the constructor.  The test for a missing `models` entry
builds a `runtime_error` and discards it (there is no `throw`), so execution
continues; iterating the absent entry visits nothing. -/
def construct (loadUrdf : String → UrdfModel) (quat2rpy : ℚ → ℚ → ℚ → ℚ → Vec3)
    (config : Config) (modelConfig : ModelConfig) : Except String Estimator :=
  let d : Estimator := {}
  let models : List ModelEntry :=
    match modelConfig.models with
    | none => []
    | some ms => ms
  match models.foldlM (loadModel loadUrdf quat2rpy) ([], 0, [], 0) with
  | .error e => .error e
  | .ok st =>
    let mesh := collectBodyMeshesFromRBT st.1 ([], [], [])
    .ok { d with
      optRotationConstraint_ := config.rotation_constraint.getD d.optRotationConstraint_
      optRotationConstraintNumFaces_ :=
        config.rotation_constraint_num_faces.getD d.optRotationConstraintNumFaces_
      optRotationConstraintL1Bound_ :=
        config.rotation_constraint_l1_bound.getD d.optRotationConstraintL1Bound_
      optAllowOutliers_ := config.allow_outliers.getD d.optAllowOutliers_
      optPhiMax_ := config.phi_max.getD d.optPhiMax_
      optBigNumber_ := config.big_M.getD d.optBigNumber_
      optUseICPHeuristic_ := config.ICP_use_as_heuristic.getD d.optUseICPHeuristic_
      optMaxDistToSameFace := config.max_dist_to_same_face.getD d.optMaxDistToSameFace
      optDownsampleToThisManyPoints_ :=
        config.downsample_to_this_many_points.getD d.optDownsampleToThisManyPoints_
      optModelSampleRays_ := config.model_sample_rays.getD d.optModelSampleRays_
      optNumOutliers_ := config.add_this_many_outliers.getD d.optNumOutliers_
      optOutlierMin_ := config.outlier_min.getD d.optOutlierMin_
      optOutlierMax_ := config.outlier_max.getD d.optOutlierMax_
      optAddedSceneNoise_ := config.scene_point_additive_noise.getD d.optAddedSceneNoise_
      optICPIters_ := config.ICP_max_iters.getD d.optICPIters_
      detector_type := config.detector_type
      numBodies := st.1.length + 1
      numPositions := st.2.1
      q_robot_gt_ := st.2.2.1
      all_vertices_ := mesh.1
      all_faces_ := mesh.2.1
      face_body_map_ := mesh.2.2 }

/-- Lines 2009-2031, `doObjectPoseEstimation`.  The scene preprocessing and the
three formulations are parameters.  Both error branches build a
`runtime_error` and discard it (there is no `throw`), so the still empty
`solutions` is returned.  `as<string>()` throws on a node that is defined but
not a scalar. -/
def doObjectPoseEstimation
    (doScenePointPreprocessing : Estimator → List Vec3 → List Vec3)
    (formulationA formulationB formulationC :
      Estimator → List Vec3 → Except String (List Solution × Estimator))
    (est : Estimator) (scene_pts_in : List Vec3) : Except String (List Solution × Estimator) :=
  let scene_pts := doScenePointPreprocessing est scene_pts_in
  match est.detector_type with
  | .undefined => .ok ([], est)
  | node =>
    match node.asString with
    | .error e => .error e
    | .ok s =>
      if s = "world_to_body_transforms" then formulationA est scene_pts
      else if s = "world_to_body_transforms_with_sampled_model_points" then
        formulationB est scene_pts
      else if s = "body_to_world_transforms" then formulationC est scene_pts
      else .ok ([], est)

/-! ## Exact point-to-mesh distance -/

/-- Cross product of two 3-vectors. -/
def cross (a b : Vec3) : Vec3 :=
  fun k =>
    match k with
    | 0 => a 1 * b 2 - a 2 * b 1
    | 1 => a 2 * b 0 - a 0 * b 2
    | 2 => a 0 * b 1 - a 1 * b 0

/-- Lines 110-113: the three vertices of face `j` posed by the transform of
the hosting body, `tfs[face_body_map[j] - 1] * all_vertices.col(all_faces[j](k))`.
A read outside `face_body_map`, `tfs` or the vertex matrix is undefined
behaviour (`none`). -/
def posedVerts (tfs : List Affine3) (all_vertices : List Vec3) (all_faces : List Face)
    (face_body_map : List Nat) (j : Nat) : Option (Vec3 × Vec3 × Vec3) :=
  match all_faces[j]?, face_body_map[j]? with
  | some face, some tag =>
    if tag = 0 then none
    else
      match tfs[tag - 1]?, all_vertices[face 0]?, all_vertices[face 1]?,
        all_vertices[face 2]? with
      | some tf, some v0, some v1, some v2 => some (tf.apply v0, tf.apply v1, tf.apply v2)
      | _, _, _, _ => none
  | _, _ => none

/-- The running state of the search over faces for one scene point: `phi(i)`,
`face_ind`, `closest_pt` and `closest_pt_normal`. -/
structure ClosestState where
  phi : WithTop ℚ
  face_ind : Nat
  closest_pt : Vec3
  closest_pt_normal : Vec3

/-- Lines 120-121: the normal `(v2 - v0) x (v1 - v0)` divided by its norm. -/
def faceNormal (norm : Vec3 → ℚ) (verts : Vec3 × Vec3 × Vec3) : Vec3 :=
  let n := cross (vsub verts.2.2 verts.1) (vsub verts.2.1 verts.1)
  fun k => n k / norm n

/-- Lines 109-123, one pass of the loop over faces for the scene point `s`:
the face replaces the current best when its L1 distance is strictly smaller. -/
def faceStep (norm : Vec3 → ℚ) (closestPointOnTriangle : Vec3 × Vec3 × Vec3 → Vec3 → Vec3)
    (tfs : List Affine3) (all_vertices : List Vec3) (all_faces : List Face)
    (face_body_map : List Nat) (s : Vec3) (st : ClosestState) (j : Nat) :
    Option ClosestState :=
  match posedVerts tfs all_vertices all_faces face_body_map j with
  | none => none
  | some verts =>
    let new_closest_pt := closestPointOnTriangle verts s
    let new_dist := l1norm (vsub new_closest_pt s)
    if (new_dist : WithTop ℚ) < st.phi then
      some { phi := (new_dist : WithTop ℚ)
             face_ind := j
             closest_pt := new_closest_pt
             closest_pt_normal := faceNormal norm verts }
    else some st

/-- The outputs of `doExactCollisionDetectFromPoints` for one scene point. -/
structure PointResult where
  phi : WithTop ℚ
  normal : Vec3
  x : Vec3
  body_x : Vec3
  body_idx : Nat

/-- Lines 103-128, the body of the loop over scene points.  The vectors
`closest_pt` and `closest_pt_normal` start uninitialised (0 here). -/
def detectPoint (norm : Vec3 → ℚ) (closestPointOnTriangle : Vec3 × Vec3 × Vec3 → Vec3 → Vec3)
    (tfs : List Affine3) (all_vertices : List Vec3) (all_faces : List Face)
    (face_body_map : List Nat) (s : Vec3) : Option PointResult :=
  match (List.range all_faces.length).foldlM
      (faceStep norm closestPointOnTriangle tfs all_vertices all_faces face_body_map s)
      { phi := ⊤, face_ind := 0, closest_pt := fun _ => 0, closest_pt_normal := fun _ => 0 } with
  | none => none
  | some st =>
    match face_body_map[st.face_ind]? with
    | none => none
    | some tag =>
      if tag = 0 then none
      else
        match tfs[tag - 1]? with
        | none => none
        | some tf =>
          some { phi := st.phi
                 normal := st.closest_pt_normal
                 x := st.closest_pt
                 body_x := tf.inverse.apply st.closest_pt
                 body_idx := tag }

/-- Writing the result of one scene point into the output arrays; undefined
behaviour in the computation of the point propagates. -/
def pushResult {α β : Type} (f : α → Option β) (out : List β) (a : α) : Option (List β) :=
  match f a with
  | none => none
  | some r => some (out ++ [r])

/-- Lines 84-129, `doExactCollisionDetectFromPoints`.  `relativeTransform i` is
the library's `robot.relativeTransform(cache, 0, i)`; the table `tfs` has
`numBodies` entries, entry `i` being the transform of body `i + 1`. -/
def doExactCollisionDetectFromPoints (norm : Vec3 → ℚ)
    (closestPointOnTriangle : Vec3 × Vec3 × Vec3 → Vec3 → Vec3)
    (relativeTransform : Nat → Affine3) (numBodies : Nat)
    (all_vertices : List Vec3) (all_faces : List Face) (face_body_map : List Nat)
    (scene_pts : List Vec3) : Option (List PointResult) :=
  scene_pts.foldlM
    (pushResult (detectPoint norm closestPointOnTriangle
      ((List.range numBodies).map (fun i => relativeTransform (i + 1)))
      all_vertices all_faces face_body_map))
    []

/-- Lines 98-101 and 1013-1016: the body indices passed to `relativeTransform`
while the table `tfs` is filled, `i + 1` for every `i < get_num_bodies()`. -/
def tfsQueries (numBodies : Nat) : List Nat := (List.range numBodies).map (fun i => i + 1)

/-- The transform query restricted to the bodies of the tree: the bodies are
numbered `0` to `numBodies - 1`, and no other index has an entry in the
kinematics cache. -/
def queryBody (numBodies : Nat) (relativeTransform : Nat → Affine3) (i : Nat) :
    Option Affine3 :=
  if i < numBodies then some (relativeTransform i) else none

/-- Lines 97-101 and 1012-1016: the table `tfs`, when a query outside the
bodies of the tree fails. -/
def fillTfs (numBodies : Nat) (relativeTransform : Nat → Affine3) : Option (List Affine3) :=
  (tfsQueries numBodies).foldlM (pushResult (queryBody numBodies relativeTransform)) []

/-- The decision-variable members of the estimator as the last program build
left them: the number of entries of `transform_by_object_` and the dimensions
of the variable matrices `C_`, `f_` and `f_outlier_`, all empty in a fresh
estimator.  Entry `(i, j)` of `f_` is the variable `Var.f i j`, and likewise
for the others. -/
structure DecisionVars where
  transform_by_object_ : Nat := 0
  C_ : Nat × Nat := (0, 0)
  f_ : Nat × Nat := (0, 0)
  f_outlier_ : Nat × Nat := (0, 0)
  deriving DecidableEq

/-- Lines 1128-1146: the decision-variable members after formulation A has
declared its variables for `scene_pts`; `est` is the estimator after the mesh
has been collected. -/
def declareVarsA (est : Estimator) (scene_pts : List Vec3) : DecisionVars :=
  { transform_by_object_ := est.numBodies - 1
    C_ := (scene_pts.length, est.all_vertices_.length)
    f_ := (scene_pts.length, est.F_.rows)
    f_outlier_ := (scene_pts.length, 1) }

/-- Eigen's `v.conservativeResize(v.size() + n)`: the old entries are kept and
the `n` new ones are not written yet (`none`). -/
def conservativeGrow {α : Type} (v : List (Option α)) (n : Nat) : List (Option α) :=
  v ++ List.replicate n none

/-- Eigen's block write `v.block(start, 0, blk.size(), 1) = blk`.  A block that
does not lie inside the vector is undefined behaviour (`none`). -/
def writeBlock {α : Type} (v : List (Option α)) (start : Int) (blk : List α) :
    Option (List (Option α)) :=
  if 0 ≤ start ∧ start + blk.length ≤ v.length then
    some (v.take start.toNat ++ blk.map some ++ v.drop (start.toNat + blk.length))
  else none

/-- Lines 907-910, one pass of the loop over the rows of the rotation: both
blocks are placed with `vals.size()`. -/
def guessRowStep (R : Mat3) (b : Nat) (acc : List (Option ℚ) × List (Option Var)) (k : Fin 3) :
    Option (List (Option ℚ) × List (Option Var)) :=
  match writeBlock acc.1 ((acc.1.length : Int) - 9 + (k.val : Int) * 3) (([0, 1, 2] : List (Fin 3)).map (R k)),
    writeBlock acc.2 ((acc.1.length : Int) - 9 + (k.val : Int) * 3)
      (([0, 1, 2] : List (Fin 3)).map (fun c => Var.R b k c)) with
  | some vals, some vars => some (vals, vars)
  | _, _ => none

/-- Lines 895-910, one pass of the loop over bodies: twelve entries are
appended to both vectors, the translation and then the rows of the rotation of
the transform of `body_i`, next to the variables `T` and `R` of that body.  The
block guarded by `0 && ...` (lines 920-994) never runs.  The conversion of
`detector_type` throws (`none`) unless the node is a scalar. -/
def guessBodyStep (lib : RotationLib) (relativeTransform : Nat → Nat → Affine3)
    (dv : DecisionVars) (est : Estimator) (acc : List (Option ℚ) × List (Option Var))
    (body_i : Nat) : Option (List (Option ℚ) × List (Option Var)) :=
  match est.detector_type.asString with
  | .error _ => none
  | .ok dt =>
    let tf :=
      if dt = "body_to_world_transforms" then relativeTransform 0 body_i
      else relativeTransform body_i 0
    let vars := conservativeGrow acc.2 12
    let vals := conservativeGrow acc.1 12
    if body_i - 1 < dv.transform_by_object_ then
      match writeBlock vals ((vals.length : Int) - 12) (([0, 1, 2] : List (Fin 3)).map tf.translation),
        writeBlock vars ((vals.length : Int) - 12) (([0, 1, 2] : List (Fin 3)).map (fun k => Var.T (body_i - 1) k)) with
      | some vals1, some vars1 =>
        ([0, 1, 2] : List (Fin 3)).foldlM (guessRowStep (lib.rotation tf) (body_i - 1)) (vals1, vars1)
      | _, _ => none
    else none

/-- Lines 1024-1037, one pass of the loop over faces for scene point `s` whose
closest body is `body_idx`: faces of other bodies are skipped, and a face
replaces the current best when its L1 distance is strictly smaller.  Reads
outside `B_`, `tfs`, `all_faces_` or the vertices are undefined behaviour. -/
def guessFaceStep (closestPointOnTriangle : Vec3 × Vec3 × Vec3 → Vec3 → Vec3)
    (tfs : List Affine3) (est : Estimator) (s : Vec3) (body_idx : Nat)
    (st : WithTop ℚ × Nat) (j : Nat) : Option (WithTop ℚ × Nat) :=
  if body_idx = 0 ∨ est.B_.rows ≤ body_idx - 1 ∨ est.B_.cols ≤ j then none
  else if est.B_.data (body_idx - 1) j < 1 / 2 then some st
  else
    match est.all_faces_[j]?, tfs[body_idx - 1]? with
    | some face, some tf =>
      match est.all_vertices_[face 0]?, est.all_vertices_[face 1]?,
        est.all_vertices_[face 2]? with
      | some v0, some v1, some v2 =>
        let new_closest_pt := closestPointOnTriangle (tf.apply v0, tf.apply v1, tf.apply v2) s
        let new_dist := l1norm (vsub new_closest_pt s)
        if (new_dist : WithTop ℚ) < st.1 then some ((new_dist : WithTop ℚ), j) else some st
      | _, _, _ => none
    | _, _ => none

/-- Lines 1018-1038: the distance `dist` and the face `face_ind` found for
scene point `i`; the faces are searched only when `search_phi(i)` is finite. -/
def guessClosestFace (closestPointOnTriangle : Vec3 × Vec3 × Vec3 → Vec3 → Vec3)
    (tfs : List Affine3) (est : Estimator) (search_phi : List (WithTop ℚ))
    (search_body_idx : List Nat) (i : Nat) : Option (WithTop ℚ × Nat) :=
  match search_phi[i]? with
  | none => none
  | some phi_i =>
    if phi_i = ⊤ then some (⊤, 0)
    else if est.all_faces_.length = 0 then some (⊤, 0)
    else
      match search_body_idx[i]? with
      | none => none
      | some body_idx =>
        (List.range est.all_faces_.length).foldlM
          (guessFaceStep closestPointOnTriangle tfs est (col est.scene_pts_ i) body_idx) (⊤, 0)

/-- The vectors being filled and the guess matrices `f0` and `f_outlier0`. -/
structure GuessState where
  vals : List (Option ℚ)
  vars : List (Option Var)
  f0 : Mat
  f_outlier0 : Mat

/-- Lines 1039-1049: scene point `i` is given its face or declared an outlier,
and row `i` of `f0` is appended next to row `i` of `f_`. -/
def guessAssignStep (dv : DecisionVars) (est : Estimator) (st : GuessState) (i : Nat)
    (found : WithTop ℚ × Nat) : Option GuessState :=
  let assigned : Option (Mat × Mat) :=
    if est.optAllowOutliers_ = false ∨ found.1 < (est.optPhiMax_ : WithTop ℚ) then
      if i < st.f0.rows ∧ found.2 < st.f0.cols then some (st.f0.set i found.2 1, st.f_outlier0)
      else none
    else if i < st.f_outlier0.rows then some (st.f0, st.f_outlier0.set i 0 1)
    else none
  match assigned with
  | none => none
  | some (f0, f_outlier0) =>
    let vals := conservativeGrow st.vals f0.cols
    let vars := conservativeGrow st.vars f0.cols
    if i < dv.f_.1 ∧ dv.f_.2 = f0.cols then
      match writeBlock vals ((vals.length : Int) - f0.cols)
          ((List.range f0.cols).map (fun j => f0.data i j)),
        writeBlock vars ((vars.length : Int) - f0.cols)
          ((List.range f0.cols).map (fun j => Var.f i j)) with
      | some vals1, some vars1 =>
        some { vals := vals1, vars := vars1, f0 := f0, f_outlier0 := f_outlier0 }
      | _, _ => none
    else none

/-- Lines 1017-1050, one pass of the loop over scene points. -/
def guessSceneStep (closestPointOnTriangle : Vec3 × Vec3 × Vec3 → Vec3 → Vec3)
    (tfs : List Affine3) (dv : DecisionVars) (est : Estimator) (search_phi : List (WithTop ℚ))
    (search_body_idx : List Nat) (st : GuessState) (i : Nat) : Option GuessState :=
  match guessClosestFace closestPointOnTriangle tfs est search_phi search_body_idx i with
  | none => none
  | some found => guessAssignStep dv est st i found

/-- Lines 1052-1055: the vectors grow by `f_outlier0.cols()` entries, and the
`f_outlier0.rows()` guesses and variables of the outlier column are written at
`size() - f_outlier0.rows()`. -/
def guessOutlierBlock (dv : DecisionVars) (st : GuessState) :
    Option (List (Option ℚ) × List (Option Var)) :=
  let vals := conservativeGrow st.vals st.f_outlier0.cols
  let vars := conservativeGrow st.vars st.f_outlier0.cols
  if dv.f_outlier_ = (st.f_outlier0.rows, 1) then
    match writeBlock vals ((vals.length : Int) - st.f_outlier0.rows)
        ((List.range st.f_outlier0.rows).map (fun i => st.f_outlier0.data i 0)),
      writeBlock vars ((vars.length : Int) - st.f_outlier0.rows)
        ((List.range st.f_outlier0.rows).map (fun i => Var.f_outlier i)) with
    | some vals1, some vars1 => some (vals1, vars1)
    | _, _ => none
  else none

/-- Lines 1059-1080, one pass of the loop over scene points under the sampled
detector type: the closest model point in L1 norm is marked in row `i` of `C0`
unless the point is an outlier, and the row is appended next to row `i` of
`C_`.  The `runtime_error` of line 1072 is built and dropped. -/
def guessSampledStep (est : Estimator)
    (st : List (Option ℚ) × List (Option Var) × Mat) (i : Nat) :
    Option (List (Option ℚ) × List (Option Var) × Mat) :=
  let s := col est.scene_pts_ i
  let closest : Option Nat × WithTop ℚ :=
    (List.range est.all_vertices_.length).foldl
      (fun (acc : Option Nat × WithTop ℚ) j =>
        let l1_dist := l1norm (vsub s (col est.all_vertices_ j))
        if (l1_dist : WithTop ℚ) < acc.2 then (some j, (l1_dist : WithTop ℚ)) else acc)
      (none, ⊤)
  let C0 : Option Mat :=
    if est.optAllowOutliers_ = false ∨ closest.2 < (est.optPhiMax_ : WithTop ℚ) then
      match closest.1 with
      | none => none
      | some j => if i < st.2.2.rows ∧ j < st.2.2.cols then some (st.2.2.set i j 1) else none
    else some st.2.2
  match C0 with
  | none => none
  | some C0 =>
    let vals := conservativeGrow st.1 C0.cols
    let vars := conservativeGrow st.2.1 C0.cols
    if i < C0.rows then
      match writeBlock vals ((vals.length : Int) - C0.cols)
          ((List.range C0.cols).map (fun j => C0.data i j)),
        writeBlock vars ((vars.length : Int) - C0.cols)
          ((List.range C0.cols).map (fun j => Var.C i j)) with
      | some vals1, some vars1 => some (vals1, vars1, C0)
      | _, _ => none
    else none

/-- Lines 891-1085, `getInitialGuessFromRobotState`: the vectors `vals` and
`vars` after the call.  `relativeTransform q` is the library's
`robot_.relativeTransform` on the kinematics cache of `q`;
`collisionDetectFromPoints q pts` gives the `search_phi` and `search_body_idx`
returned by the library for the scene points; `closestPointOnTriangle` is the
helper of the same name.  An entry is `none` until it is written.  The final
`runtime_error` of line 1083 is built and dropped. -/
def getInitialGuessFromRobotState (lib : RotationLib)
    (relativeTransform : List ℚ → Nat → Nat → Affine3)
    (collisionDetectFromPoints : List ℚ → List Vec3 → List (WithTop ℚ) × List Nat)
    (closestPointOnTriangle : Vec3 × Vec3 × Vec3 → Vec3 → Vec3)
    (dv : DecisionVars) (est : Estimator) (q_robot : List ℚ)
    (vals : List (Option ℚ)) (vars : List (Option Var)) :
    Option (List (Option ℚ) × List (Option Var)) :=
  match (List.range' 1 (est.numBodies - 1)).foldlM
      (guessBodyStep lib (relativeTransform q_robot) dv est) (vals, vars) with
  | none => none
  | some bodies =>
    match est.detector_type.asString with
    | .error _ => none
    | .ok dt =>
      if dt = "world_to_body_transforms" then
        let search := collisionDetectFromPoints q_robot est.scene_pts_
        let tfs := (tfsQueries est.numBodies).map (relativeTransform q_robot 0)
        match (List.range est.scene_pts_.length).foldlM
            (guessSceneStep closestPointOnTriangle tfs dv est search.1 search.2)
            { vals := bodies.1
              vars := bodies.2
              f0 := Mat.zeros est.scene_pts_.length est.F_.rows
              f_outlier0 := Mat.zeros est.scene_pts_.length 1 } with
        | none => none
        | some st => guessOutlierBlock dv st
      else if dt = "world_to_body_transforms_with_sampled_model_points" then
        ((List.range est.scene_pts_.length).foldlM (guessSampledStep est)
          (bodies.1, bodies.2, Mat.zeros dv.C_.1 dv.C_.2)).map (fun r => (r.1, r.2.1))
      else some bodies

/-! ## Scene preprocessing -/

/-- What Eigen, the C++ standard library and the random sources contribute to
the scene preprocessing: `VectorXi::LinSpaced(size, low, high)`,
`std::random_shuffle` (after the `srand` of the code), `randrange(lo, hi)` for
entry `j` of outlier `i`, and the normal draw added to entry `k` of point `i`. -/
structure SceneLib where
  linSpaced : Nat → Int → Int → List Int
  shuffle : List Int → List Int
  randrange : ℚ → ℚ → Nat → Fin 3 → ℚ
  noise : ℚ → Nat → Fin 3 → ℚ

/-- Eigen's `LinSpaced` for an integer scalar: entry `i` is
`low + i * ((high - low) / (size - 1))` with integer division, and a vector of
size 1 holds `high`.  (The variant that divides the index is used only when
`|high - low| + 1 < size`, which never is the case for `LinSpaced(n, 0, n)`.) -/
def eigenLinSpaced (size : Nat) (low high : Int) : List Int :=
  if size = 1 then [high]
  else (List.range size).map
    (fun (i : Nat) => low + (i : Int) * ((high - low) / ((size : Int) - 1)))

/-- Line 645, the read `scene_pts_in.col(indices[i])`: `none` when `i` is past
the end of `indices` or the index is not a column of `scene_pts_in`. -/
def pickColumn (scene_pts_in : List Vec3) (indices : List Int) (i : Nat) : Option Vec3 :=
  match indices[i]? with
  | none => none
  | some idx => if idx < 0 then none else scene_pts_in[idx.toNat]?

/-- Lines 633-647: the downsampling.  A negative count copies the input;
otherwise the first `M` entries of the shuffled `LinSpaced(n, 0, n)` select
the columns. -/
def downsample (lib : SceneLib) (est : Estimator) (scene_pts_in : List Vec3) :
    Option (List Vec3) :=
  if est.optDownsampleToThisManyPoints_ < 0 then some scene_pts_in
  else
    let indices := lib.shuffle (lib.linSpaced scene_pts_in.length 0 scene_pts_in.length)
    (List.range est.optDownsampleToThisManyPoints_.toNat).foldlM
      (pushResult (pickColumn scene_pts_in indices)) []

/-- Lines 659-661, one pass of the outlier loop: the three entries of column
`i` are replaced by draws between `optOutlierMin_[j]` and `optOutlierMax_[j]`. -/
def corruptColumn (lib : SceneLib) (est : Estimator) (out : List Vec3) (i : Nat) :
    Option (List Vec3) :=
  if i < out.length then
    match est.optOutlierMin_[0]?, est.optOutlierMin_[1]?, est.optOutlierMin_[2]?,
          est.optOutlierMax_[0]?, est.optOutlierMax_[1]?, est.optOutlierMax_[2]? with
    | some l0, some l1, some l2, some h0, some h1, some h2 =>
      some (out.set i (fun j => lib.randrange (![l0, l1, l2] j) (![h0, h1, h2] j) i j))
    | _, _, _, _, _, _ => none
  else none

/-- Lines 651-663: with a positive outlier count the first columns of the
output are overwritten (the shuffled indices of lines 656-657 are not used). -/
def corruptOutliers (lib : SceneLib) (est : Estimator) (out : List Vec3) : Option (List Vec3) :=
  if est.optNumOutliers_ > 0 then
    (List.range est.optNumOutliers_.toNat).foldlM (corruptColumn lib est) out
  else some out

/-- Lines 664-672: with a positive noise level a normal draw is added to every
entry of the output. -/
def addSceneNoise (lib : SceneLib) (est : Estimator) (out : List Vec3) : List Vec3 :=
  if est.optAddedSceneNoise_ > 0 then
    (List.range out.length).map
      (fun i => fun k => col out i k + lib.noise est.optAddedSceneNoise_ i k)
  else out

/-- Lines 631-676, `doScenePointPreprocessing`: the output cloud, or `none`
where a read or write falls outside a matrix.  Publishing to the viewer is not
represented. -/
def doScenePointPreprocessing (lib : SceneLib) (est : Estimator) (scene_pts_in : List Vec3) :
    Option (List Vec3) :=
  match downsample lib est scene_pts_in with
  | none => none
  | some out =>
    match corruptOutliers lib est out with
    | none => none
    | some out2 => some (addSceneNoise lib est out2)

/-! ## Model point sampling -/

/-- Lines 691-694: the area `((b - a).cross(c - a)).norm() / 2` of a face;
`none` when a vertex index is not a column of `all_vertices`. -/
def faceArea (norm : Vec3 → ℚ) (all_vertices : List Vec3) (face : Face) : Option ℚ :=
  match all_vertices[face 0]?, all_vertices[face 1]?, all_vertices[face 2]? with
  | some a, some b, some c => some (norm (cross (vsub b a) (vsub c a)) / 2)
  | _, _, _ => none

/-- Lines 687-696: `face_cumulative_area`, starting from `{0.0}` and extended by
one entry per face. -/
def cumulativeAreas (norm : Vec3 → ℚ) (all_vertices : List Vec3) (all_faces : List Face) :
    Option (List ℚ) :=
  all_faces.foldlM
    (fun cum face =>
      match faceArea norm all_vertices face with
      | none => none
      | some area => some (cum ++ [cum.getLastD 0 + area]))
    [0]

/-- Lines 699-701: every entry is divided by the last one.  With a total area
of 0 the entries become NaN, every later comparison fails and the face read
falls past the end of `all_faces`: `none`. -/
def normalizeAreas (cum : List ℚ) : Option (List ℚ) :=
  if cum.getLastD 0 = 0 then none else some (cum.map (fun x => x / cum.getLastD 0))

/-- Lines 713-719: the first `k` with `face_cumulative_area[k] >= sample` (the
size of the vector when there is none), minus one. -/
def pickFace (cum : List ℚ) (sample : ℚ) : Int :=
  ((cum.findIdx (fun x => decide (x ≥ sample)) : Nat) : Int) - 1

/-- Lines 729-734: the rejection loop.  Starting from `s1 = s2 = 1`, pairs are
drawn until `s1 + s2 < 1`; the draws are taken from the stream, and `none`
means the stream ended before a pair was accepted. -/
def rejectionLoop : List ℚ → Option ((ℚ × ℚ) × List ℚ)
  | s1 :: s2 :: rest => if s1 + s2 ≥ 1 then rejectionLoop rest else some ((s1, s2), rest)
  | _ => none

/-- The state of the sampling loop: the columns of `pts` written so far, the
matrix `B`, and the draws not yet consumed. -/
structure SamplerState where
  pts : List Vec3
  B : Mat
  stream : List ℚ

/-- Lines 710-741, one pass of the sampling loop (sample `i`): a draw picks the
face, the rejection loop picks `(s1, s2)`, the point
`a + s1 * (b - a) + s2 * (c - a)` is stored in column `i` and
`B(face_body_map[k] - 1, i)` is set to 1.  `cum` is the normalised cumulative
area.  Reads and writes outside a vector or matrix give `none`. -/
def sampleStep (all_vertices : List Vec3) (all_faces : List Face) (face_body_map : List Nat)
    (cum : Option (List ℚ)) (st : SamplerState) (i : Nat) : Option SamplerState :=
  match st.stream, cum with
  | sample :: rest, some cum =>
    let k := pickFace cum sample
    if k < 0 then none
    else
      match all_faces[k.toNat]?, face_body_map[k.toNat]?, rejectionLoop rest with
      | some face, some tag, some (s, rest2) =>
        match all_vertices[face 0]?, all_vertices[face 1]?, all_vertices[face 2]? with
        | some a, some b, some c =>
          if 1 ≤ tag ∧ tag - 1 < st.B.rows ∧ i < st.B.cols then
            some { pts := st.pts ++ [fun j => a j + s.1 * (b j - a j) + s.2 * (c j - a j)]
                   B := st.B.set (tag - 1) i 1
                   stream := rest2 }
          else none
        | _, _, _ => none
      | _, _, _ => none
  | _, _ => none

/-- Lines 678-746, `doModelPointSampling`: the sampled points and the
body-membership matrix of the samples.  `bodies` are the bodies of `robot_`
other than the world, `stream` lists the results of the successive calls of
`randrange`.  A negative `optModelSampleRays_` cannot be a matrix size. -/
def doModelPointSampling (norm : Vec3 → ℚ) (bodies : List Body) (est : Estimator)
    (stream : List ℚ) : Option (List Vec3 × Mat) :=
  let mesh := collectBodyMeshesFromRBT bodies ([], [], [])
  match cumulativeAreas norm mesh.1 mesh.2.1 with
  | none => none
  | some cum =>
    if est.optModelSampleRays_ < 0 then none
    else
      match (List.range est.optModelSampleRays_.toNat).foldlM
          (sampleStep mesh.1 mesh.2.1 mesh.2.2 (normalizeAreas cum))
          { pts := [], B := Mat.zeros (est.numBodies - 1) est.optModelSampleRays_.toNat,
            stream := stream } with
      | none => none
      | some st => some (st.pts, st.B)

/-- Sample `i` is a point of a face of the mesh, written as
`a + s1 * (b - a) + s2 * (c - a)` with `s1, s2 >= 0` and `s1 + s2 < 1`, and
column `i` of `B` has its only 1 in the row of the body that owns the face. -/
def SampleGood (all_vertices : List Vec3) (all_faces : List Face) (face_body_map : List Nat)
    (pts : List Vec3) (B : Mat) (i : Nat) : Prop :=
  ∃ (k : Nat) (face : Face) (a b c : Vec3) (tag : Nat) (s1 s2 : ℚ),
    all_faces[k]? = some face ∧ face_body_map[k]? = some tag ∧
    all_vertices[face 0]? = some a ∧ all_vertices[face 1]? = some b ∧
    all_vertices[face 2]? = some c ∧
    1 ≤ tag ∧ tag - 1 < B.rows ∧ 0 ≤ s1 ∧ 0 ≤ s2 ∧ s1 + s2 < 1 ∧
    pts[i]? = some (fun j => a j + s1 * (b j - a j) + s2 * (c j - a j)) ∧
    pts[i]? = some (fun j => (1 - s1 - s2) * a j + s1 * b j + s2 * c j) ∧
    ∀ r, B.data r i = if r = tag - 1 then 1 else 0

/-! ## Formulations B and C -/

/-- Lines 1511-1515 and 1809-1813: the mesh members are cleared and collected
again from the tree, and the scene is stored. -/
def recollect (bodies : List Body) (est : Estimator) (scene_pts : List Vec3) : Estimator :=
  let mesh := collectBodyMeshesFromRBT bodies ([], [], [])
  { est with
    all_vertices_ := mesh.1
    all_faces_ := mesh.2.1
    face_body_map_ := mesh.2.2
    scene_pts_ := scene_pts }

/-- Lines 1506-1526 of
`doObjectPoseEstimationWithWorldToBodyFormulationSampledModelPoints`: the
estimator as the function has it when it goes on to build the program and run
the solver, and the constraints of `addTransformationVarsAndConstraints`.  The
mesh is collected again, and `doModelPointSampling(all_vertices_, B_)` stores
the sampled points in the member `all_vertices_`.  The result is `none` where
the sampling has undefined behaviour. -/
def sampledFormulationSetup (ext : External) (bodies : List Body) (stream : List ℚ)
    (est : Estimator) (scene_pts : List Vec3) :
    Except String (Option (Estimator × List Constraint)) :=
  let est1 := recollect bodies est scene_pts
  match addTransformationVarsAndConstraints ext est1 false with
  | .error e => .error e
  | .ok tfCons =>
    match doModelPointSampling ext.norm bodies est1 stream with
    | none => .ok none
    | some (pts, B) => .ok (some ({ est1 with all_vertices_ := pts, B_ := B }, tfCons))

/-- Lines 1804-1826 of `doObjectPoseEstimationWithBodyToWorldFormulation`: the
estimator as the function has it when it goes on to build the program and run
the solver, the sampled model points and the constraints of
`addTransformationVarsAndConstraints`.  The mesh is collected again, and
`doModelPointSampling(model_pts, B_)` stores the sampled points in the local
matrix `model_pts`. -/
def bodyToWorldFormulationSetup (ext : External) (bodies : List Body) (stream : List ℚ)
    (est : Estimator) (scene_pts : List Vec3) :
    Except String (Option (Estimator × List Vec3 × List Constraint)) :=
  let est1 := recollect bodies est scene_pts
  match addTransformationVarsAndConstraints ext est1 true with
  | .error e => .error e
  | .ok tfCons =>
    match doModelPointSampling ext.norm bodies est1 stream with
    | none => .ok none
    | some (model_pts, B) => .ok (some ({ est1 with B_ := B }, model_pts, tfCons))

open LinExpr in
/-- Line 1583: `optBigNumber_ * (1 - B_.row(b) * C_.row(i)^T)`, the selector of
formulation B, where `B_` has one column per sampled model point. -/
def selectorB (bigM : ℚ) (B : Mat) (Nv : Nat) (b i : Nat) : LinExpr :=
  smul bigM (sub (cst 1) (sumOver Nv (fun v => smul (B.data b v) (var (.C i v)))))

open LinExpr in
/-- Lines 1563-1588: for scene point `i` of formulation B, the equality defining
`phi_(i)` and, for every body, the six lower bounds on the `alpha` slacks. -/
def residualConstraintsB (est : Estimator) (aK : Fin 3 → Nat) (scene_pts : List Vec3)
    (i : Nat) : List Constraint :=
  let nb := est.numBodies - 1
  let Nv := est.all_vertices_.length
  [ Constraint.eq (var (.phi i))
      (add (add (add (sumOver nb (fun b => var (.alpha (aK 0) b i)))
                     (sumOver nb (fun b => var (.alpha (aK 1) b i))))
                (sumOver nb (fun b => var (.alpha (aK 2) b i))))
           (smul est.optPhiMax_ (var (.f_outlier i)))) ]
  ++ (List.range nb).flatMap (fun b =>
      ([0, 1, 2] : List (Fin 3)).flatMap (fun k =>
        [ Constraint.ge (var (.alpha (aK k) b i))
            (sub (l1ErrorPos est.all_vertices_ (col scene_pts i) b i k)
                 (selectorB est.optBigNumber_ est.B_ Nv b i)),
          Constraint.ge (var (.alpha (aK k) b i))
            (sub (neg (l1ErrorPos est.all_vertices_ (col scene_pts i) b i k))
                 (selectorB est.optBigNumber_ est.B_ Nv b i)) ]))

open LinExpr in
/-- Lines 1523-1588 of
`doObjectPoseEstimationWithWorldToBodyFormulationSampledModelPoints`: the
program of formulation B for the estimator as line 1526 leaves it
(`all_vertices_` holds the sampled model points, `B_` their body matrix), with
the constraints in the order the code adds them.  `tfCons` are the constraints
of `addTransformationVarsAndConstraints`, `extra` those of the feature costs
of lines 1590-1700; the cost is the linear cost of line 1551. -/
def programB (est : Estimator) (scene_pts : List Vec3) (tfCons extra : List Constraint) : Prog :=
  let Ns := scene_pts.length
  let Nv := est.all_vertices_.length
  let nb := est.numBodies - 1
  let aK := alphaHandle est.alpha_
  { constraints :=
      tfCons
        ++ noOutlierConstraints est Ns
        ++ (List.range Ns).map (fun k => cRowSumConstraint Nv k)
        ++ slackBoxConstraints Ns nb aK
        ++ (List.range Ns).flatMap (fun i => residualConstraintsB est aK scene_pts i)
        ++ extra
    binaries :=
      (List.range Ns).flatMap (fun i => (List.range Nv).map (fun v => Var.C i v))
        ++ (List.range Ns).map (fun i => Var.f_outlier i)
    cost := smul (1 / (Ns : ℚ)) (sumOver Ns (fun i => var (.phi i))) }

/-- The gate `B_.row(b) * C_.row(i)^T` of body `b` for scene point `i` in
formulation B. -/
def bodyGateB (est : Estimator) (σ : Var → ℚ) (b i : Nat) : ℚ :=
  ∑ v in Finset.range est.all_vertices_.length, est.B_.data b v * σ (.C i v)

/-- What the solver hands back after `Solve` in formulation C: the values of
the local assignment matrix `C` of line 1829 (one row per sampled model point,
one column per scene point) and of the transform variables of each body (index
`body_i - 1`), the optimal cost, the lower bound and the elapsed wall time. -/
structure SolveResultC where
  C : Mat
  T : Nat → Vec3
  R : Nat → Mat3
  optimal_cost : ℚ
  lower_bound : ℚ
  elapsed : ℚ

/-- Line 1823 of formulation C: `addTransformationVarsAndConstraints` refills
the member `transform_by_object_`.  The assignment matrix of line 1829 is the
local `C`; the members `C_`, `f_` and `f_outlier_` are not assigned anywhere in
formulation C and stay as `prev` has them. -/
def declareVarsC (prev : DecisionVars) (est : Estimator) : DecisionVars :=
  { prev with transform_by_object_ := est.numBodies - 1 }

/-- Lines 188 and 1953 during formulation C: `prog.GetSolution(C_)` on the
member `C_`.  An empty matrix of variables gives an empty matrix of values.
Entries of a matrix that is not empty were declared by the program of an
earlier call, and `GetSolution` throws for a variable that the program does
not hold. -/
def getSolutionMemberC (dv : DecisionVars) : Except String Mat :=
  if dv.C_.1 = 0 ∨ dv.C_.2 = 0 then .ok ⟨dv.C_.1, dv.C_.2, fun _ _ => 0⟩
  else .error "C_ is not a decision variable of the program"

/-- The values `prog.GetSolution` returns inside a solution callback of
formulation C: the transform values are the solver's, and `GetSolution(C_)`
(line 188) reads the member `C_`.  `GetSolution(f_)` is not called under this
detector type (line 189), so the entry for `f_` is not read. -/
def callbackValuesC (prev : DecisionVars) (est : Estimator) (res : SolveResultC) :
    Except String SolverValues :=
  match getSolutionMemberC (declareVarsC prev est) with
  | .error e => .error e
  | .ok C_est => .ok { T := res.T, R := res.R, C := C_est, f := Mat.empty }

/-- Lines 1983-1993: the correspondences of formulation C, one for every pair
with `C_est(model_i, scene_i) > 0.5`.  A read outside `C_est` is undefined
behaviour (`none`).  The fields the code leaves unset are 0 or empty here. -/
def correspondencesC (C_est : Mat) (model_pts scene_pts : List Vec3) :
    Option (List PointCorrespondence) :=
  (List.range model_pts.length).foldlM
    (fun acc model_i =>
      (List.range scene_pts.length).foldlM
        (fun (acc : List PointCorrespondence) scene_i =>
          if model_i < C_est.rows ∧ scene_i < C_est.cols then
            if C_est.data model_i scene_i > 1 / 2 then
              some (acc ++
                [{ scene_pt := col scene_pts scene_i
                   model_pt := col model_pts model_i
                   face_ind := 0
                   scene_ind := scene_i
                   model_verts := []
                   vert_weights := []
                   vert_inds := [] }])
            else some acc
          else none)
        acc)
    []

/-- Lines 1959-1999 of formulation C, one pass of the loop over bodies: the
estimate carries the solver's transform and is pushed only when it has
correspondences.  `R_fit` and `T_fit` are left unset by the code (0 here). -/
def extractBodyC (C_est : Mat) (model_pts scene_pts : List Vec3) (res : SolveResultC)
    (pose_estimates : List ObjectPoseEstimation) (body_i : Nat) :
    Option (List ObjectPoseEstimation) :=
  match correspondencesC C_est model_pts scene_pts with
  | none => none
  | some correspondences =>
    let new_estimate : ObjectPoseEstimation :=
      { est_tf := ⟨res.R (body_i - 1), res.T (body_i - 1)⟩
        R_fit := fun _ _ => 0
        T_fit := fun _ => 0
        correspondences := correspondences
        obj_ind := body_i }
    some (if correspondences.length > 0 then pose_estimates ++ [new_estimate]
          else pose_estimates)

/-- Lines 1947-2004 of `doObjectPoseEstimationWithBodyToWorldFormulation`: the
solutions returned after the solve.  `prev` holds the decision-variable members
as they were when the call started.  The result is an error where
`GetSolution` throws and `none` where a read has undefined behaviour. -/
def extractSolutionC (prev : DecisionVars) (est : Estimator) (model_pts scene_pts : List Vec3)
    (res : SolveResultC) : Except String (Option (List Solution)) :=
  match getSolutionMemberC (declareVarsC prev est) with
  | .error e => .error e
  | .ok C_est =>
    match (List.range' 1 (est.numBodies - 1)).foldlM
        (extractBodyC C_est model_pts scene_pts res) [] with
    | none => .ok none
    | some pose_estimates =>
      .ok (some [{ pose_estimates := pose_estimates
                   objective := (res.optimal_cost : WithTop ℚ)
                   lower_bound := res.lower_bound
                   solve_time := res.elapsed }])

/-- Every vertex index of every face is a column of the vertex matrix. -/
def IndicesInRange (all_vertices : List Vec3) (all_faces : List Face) : Prop :=
  ∀ face ∈ all_faces, ∀ k : Fin 3, face k < all_vertices.length

/-- The faces of every mesh of the body index the points of that mesh. -/
def Body.WellFormed (body : Body) : Prop :=
  ∀ g, some g ∈ body.elements → ∀ face ∈ g.faces, ∀ k : Fin 3, face k < g.points.length

/-! ## Concrete instances -/

/-- A norm that agrees with the Euclidean norm on vectors along a coordinate
axis; the concrete instances below only measure such vectors. -/
def axisNorm (v : Vec3) : ℚ := |v 0| + |v 1| + |v 2|

/-- Concrete library parameters: no envelope constraints, identity ground truth. -/
def triExt : External :=
  { norm := axisNorm
    sqrt3 := 2
    gtRot := fun _ _ => Mat3.id3
    rotVarCons := fun _ => []
    envelope := fun _ _ _ => [] }

/-- An estimator with one body whose mesh is the triangle `(0,0,0)`, `(3,0,0)`,
`(0,3,0)`, with unconstrained rotation and the header's other defaults. -/
def triEst : Estimator :=
  { numBodies := 2
    numPositions := 6
    detector_type := .scalar "world_to_body_transforms"
    optRotationConstraint_ := 1
    all_vertices_ := [![0, 0, 0], ![3, 0, 0], ![0, 3, 0]]
    all_faces_ := [![0, 1, 2]]
    face_body_map_ := [1] }

/-- One scene point, at the centroid of the triangle. -/
def triPts : List Vec3 := [![1, 1, 0]]

/-- The assignment `R = I`, `T = 0`, `f(0,0) = 1`, `C(0,:) = (1/3, 1/3, 1/3)`,
all slacks 0. -/
def triSigma : Var → ℚ
  | .R _ r c => if r = c then 1 else 0
  | .C 0 _ => 1 / 3
  | .f 0 0 => 1
  | _ => 0

/-- The assignment that declares the scene point an outlier: `f_outlier(0) = 1`,
`phi(0) = optPhiMax_`, everything else 0. -/
def triSigmaOutlier : Var → ℚ
  | .f_outlier 0 => 1
  | .phi 0 => 1 / 10
  | _ => 0

/-- The triangle estimator with the same-face gate configured at distance 5. -/
def gateEst : Estimator := { triEst with optMaxDistToSameFace := 5 }

/-- Eleven scene points on the x-axis, 5 apart, the first at vertex 0 of the triangle. -/
def gatePts : List Vec3 := (List.range 11).map (fun k => ![5 * (k : ℚ), 0, 0])

/-- The first point sits on vertex 0 of face 0, the other ten are outliers. -/
def gateSigma : Var → ℚ
  | .R _ r c => if r = c then 1 else 0
  | .C 0 0 => 1
  | .f 0 0 => 1
  | .f_outlier i => if 1 ≤ i then 1 else 0
  | .phi i => if 1 ≤ i then 1 / 10 else 0
  | _ => 0

/-- Concrete rotation helpers for the instances below, all of which use the
identity rotation: `rotation()` of a pure translation-plus-identity transform
is its linear part, and the roll/pitch/yaw of the identity is 0. -/
def triLib : RotationLib :=
  { rotation := fun tf => tf.linear
    rotmat2rpy := fun _ => fun _ => 0 }

/-- Solver values with identity rotation, translation `(1, 2, 3)`, the scene
point assigned to the face and the weights `(1/3, 1/3, 1/3)`. -/
def triVals : SolverValues :=
  { T := fun _ => ![1, 2, 3]
    R := fun _ => Mat3.id3
    C := ⟨1, 3, fun _ _ => 1 / 3⟩
    f := ⟨1, 1, fun _ _ => 1⟩ }

/-- A status report with current objective 0. -/
def triInfo : SolveStatusInfo :=
  { reported_runtime := 1
    current_objective := 0
    best_objective := 0
    best_bound := 0
    explored_node_count := 1
    feasible_solutions_count := 1 }

/-- The triangle estimator configured for the body-to-world formulation. -/
def b2wEst : Estimator := { triEst with detector_type := .scalar "body_to_world_transforms" }

/-- The triangle estimator as `buildFormulationA` leaves it for `triPts`, before
any callback has run (no incumbent). -/
def triEstBuilt : Estimator :=
  match buildFormulationA triExt triEst triPts with
  | .ok (_, est1) => est1
  | .error _ => triEst

/-- A solver outcome that reports a solution: the scene point on face 0. -/
def triRes : SolveResult :=
  { sol_good := true
    f := ⟨1, 1, fun _ _ => 1⟩
    C := ⟨1, 3, fun _ _ => 1 / 3⟩
    T := fun _ => fun _ => 0
    R := fun _ => Mat3.id3
    optimal_cost := 0
    lower_bound := 0
    elapsed := 1 }

/-- A solver outcome that reports no solution (infeasible, or stopped early). -/
def triNoSolution : SolveResult := { triRes with sol_good := false }

/-- A tetrahedron corner: four vertices and two faces that share vertex 0. -/
def cornerVertices : List Vec3 := [![0, 0, 0], ![3, 0, 0], ![0, 3, 0], ![0, 0, 3]]

/-- The two faces of the corner mesh, both of body 1. -/
def cornerFaces : List Face := [![0, 1, 2], ![0, 2, 3]]

/-- The triangle estimator with rotation mode 2 (L1 ball of radius 1/10 around
the ground truth). -/
def mode2Est : Estimator := { triEst with optRotationConstraint_ := 2 }

/-- The assignment of the transform variables with `R = I`, `T = 0`,
`R_abs = |I|` and `R_diff = 0`. -/
def mode2Sigma : Var → ℚ
  | .R _ r c => if r = c then 1 else 0
  | .R_abs _ r c => if r = c then 1 else 0
  | _ => 0

/-- The tags of an aggregated mesh: one per face, each a body index in `1..n`. -/
def TagInv (n : Nat) (acc : List Vec3 × List Face × List Nat) : Prop :=
  acc.2.2.length = acc.2.1.length ∧ ∀ t ∈ acc.2.2, 1 ≤ t ∧ t ≤ n

/-- A tree with two bodies besides the world: the first carries one triangle,
the second an element without geometry and a two-triangle mesh. -/
def twoBodies : List Body :=
  [⟨[some ⟨true, [![0, 0, 0], ![3, 0, 0], ![0, 3, 0]], [![0, 1, 2]], Affine3.identity⟩]⟩,
   ⟨[none, some ⟨true, cornerVertices, cornerFaces, Affine3.identity⟩]⟩]

/-- An estimator whose mesh is aggregated from `twoBodies`, as the constructor
does. -/
def twoBodyEst : Estimator :=
  let mesh := collectBodyMeshesFromRBT twoBodies ([], [], [])
  { numBodies := 3
    numPositions := 12
    detector_type := .scalar "world_to_body_transforms"
    optRotationConstraint_ := 1
    all_vertices_ := mesh.1
    all_faces_ := mesh.2.1
    face_body_map_ := mesh.2.2 }

/-- The assignment `R = I`, `T = 0`, `f = 1`, `f_outlier = 0`,
`C = (1/3, 1/3, 1/3)` with all slacks 0; the auxiliary variables of the
rotation constraints take their values from `base`. -/
def centroidSigma (base : Var → ℚ) : Var → ℚ
  | .R _ r c => if r = c then 1 else 0
  | .T _ _ => 0
  | .C _ _ => 1 / 3
  | .f _ _ => 1
  | .f_outlier _ => 0
  | .phi _ => 0
  | .alpha _ _ _ => 0
  | v => base v

/-- The triangle estimator with outliers disallowed and the rotation fixed to
the ground truth (mode 0); translations are boxed by the big-M of 100. -/
def noOutlierEst : Estimator :=
  { triEst with optAllowOutliers_ := false, optRotationConstraint_ := 0 }

/-- One scene point far from the triangle: no translation within the box
brings it onto the mesh. -/
def farPts : List Vec3 := [![1000, 0, 0]]

/-- The assignment `R = I`, `T = 0`, the scene point matched to vertex 0 of
face 0, with the residual of 1000 along x carried by `alpha_[0]` and `phi`. -/
def farSigma : Var → ℚ
  | .R _ r c => if r = c then 1 else 0
  | .C 0 0 => 1
  | .f 0 0 => 1
  | .alpha 0 0 0 => 1000
  | .phi 0 => 1000
  | _ => 0

/-- The decision variables a constraint refers to. -/
def Constraint.vars : Constraint → List Var
  | .le a b => a.terms.map Prod.snd ++ b.terms.map Prod.snd
  | .ge a b => a.terms.map Prod.snd ++ b.terms.map Prod.snd
  | .eq a b => a.terms.map Prod.snd ++ b.terms.map Prod.snd
  | .box _ _ v => [v]

/-- The decision variables the constraints of a program refer to. -/
def Prog.vars (P : Prog) : List Var := P.constraints.flatMap Constraint.vars

/-- A solve during which the solution callback reports one solution of
objective 0, at time 1. -/
def triSolve (_ : Prog) (est : Estimator) : SolveResult × Estimator :=
  match handleMipSolCallbackFunction triLib est triVals triInfo 1 with
  | .ok e => (triRes, e)
  | .error _ => (triNoSolution, est)

/-- The triangle estimator after a first call of formulation A. -/
def afterFirstCall : Estimator :=
  match doObjectPoseEstimationWithWorldToBodyFormulation triExt triLib triSolve triEst triPts with
  | .ok (_, e) => e
  | .error _ => triEst

/-- The triangle estimator with the ICP heuristic enabled, two seeds on the
stack (the top one first) and two packets in the heuristic queue (the oldest
first). -/
def icpEst : Estimator :=
  { triEst with
    optUseICPHeuristic_ := true
    icp_search_seeds_ := [[1, 1, 1, 0, 0, 0], [2, 2, 2, 0, 0, 0]]
    new_heuristic_sols_ := [⟨[1], [.phi 0]⟩, ⟨[2], [.phi 0]⟩] }

/-- An ICP run that leaves the seed as it is and reports objective 0. -/
def icpKeep (_ : Estimator) (q : List ℚ) : List ℚ × ℚ := (q, 0)

/-- A packet that carries the state itself as values, for no variables. -/
def guessOf (q : List ℚ) : NewHeuristicSol := ⟨q, []⟩

/-- Library parameters for the scene preprocessing with Eigen's integer
`LinSpaced` and the given shuffle; no random draw is used by the instances. -/
def sceneLib (shuffle : List Int → List Int) : SceneLib :=
  { linSpaced := eigenLinSpaced
    shuffle := shuffle
    randrange := fun lo _ _ _ => lo
    noise := fun _ _ _ => 0 }

/-- An estimator that downsamples the scene to `M` points, with no outliers and
no noise. -/
def downsampleEst (M : Int) : Estimator := { triEst with optDownsampleToThisManyPoints_ := M }

/-- A scene of two points. -/
def twoPts : List Vec3 := [![0, 0, 0], ![1, 0, 0]]

/-- A scene of four points. -/
def fourPts : List Vec3 := [![0, 0, 0], ![1, 0, 0], ![2, 0, 0], ![3, 0, 0]]

/-- An estimator for `twoBodies` that samples three model points. -/
def sampleEst : Estimator := { twoBodyEst with optModelSampleRays_ := 3 }

/-- A stream of draws: each sample takes a face draw and then pairs until one
is accepted (the pair `(3/4, 1/2)` of the second sample is rejected). -/
def sampleStream : List ℚ :=
  [1 / 10, 1 / 4, 1 / 4, 1 / 2, 3 / 4, 1 / 2, 1 / 2, 1 / 4, 9 / 10, 0, 1 / 3]

/-- The two-body estimator configured for the formulation with sampled model
points, with three samples. -/
def sampledEst : Estimator :=
  { sampleEst with
    detector_type := .scalar "world_to_body_transforms_with_sampled_model_points" }

/-- The two-body estimator configured for the body-to-world formulation, with
three samples. -/
def b2wTwoEst : Estimator :=
  { sampleEst with detector_type := .scalar "body_to_world_transforms" }

/-- The triangle `(3,0,0)`, `(0,4,0)`, `(0,0,0)` (right angle at vertex 2, hence
legs along the axes and a hypotenuse of length 5 between vertices 0 and 1),
with `max_dist_to_same_face` configured as exactly 0 and outliers allowed. -/
def rightEst : Estimator :=
  { triEst with
    optMaxDistToSameFace := 0
    all_vertices_ := [![3, 0, 0], ![0, 4, 0], ![0, 0, 0]] }

/-- A mesh whose only triangle has its three vertices at one point, with
`max_dist_to_same_face` configured as exactly 0, outliers allowed and
`phi_max = 1/10`. -/
def pointEst : Estimator :=
  { triEst with
    optMaxDistToSameFace := 0
    all_vertices_ := [![1, 1, 0], ![1, 1, 0], ![1, 1, 0]] }

/-- An ICP run that leaves the seed as it is and reports the given objective. -/
def icpWith (objective : ℚ) (_ : Estimator) (q : List ℚ) : List ℚ × ℚ := (q, objective)

/-- The triangle estimator with the ICP heuristic enabled, no heuristic
supplied yet, and three seeds of the right length on the stack. -/
def seededEst : Estimator :=
  { triEst with
    optUseICPHeuristic_ := true
    icp_search_seeds_ := [[0, 0, 0, 0, 0, 0], [0, 0, 0, 0, 0, 0], [0, 0, 0, 0, 0, 0]] }

/-- The estimator after ICP runs with the given final objectives, in order. -/
def afterRuns (objectives : List ℚ) : Estimator :=
  objectives.foldl (fun e obj => doICPProcessing (icpWith obj) guessOf e) seededEst

/-- The area of face `f` of a mesh as `doModelPointSampling` computes it, 0
where the face or one of its vertices does not exist. -/
def areaOf (norm : Vec3 → ℚ) (all_vertices : List Vec3) (all_faces : List Face) (f : Nat) : ℚ :=
  match all_faces[f]? with
  | none => 0
  | some face => (faceArea norm all_vertices face).getD 0

/-- The triangle estimator with one scene point stored (so that the ICP loop
starts from `last_error = 3 * 1/10`) and at most 100 ICP passes. -/
def icpLoopEst : Estimator := { triEst with scene_pts_ := triPts, optICPIters_ := 100 }

/-- A solve step that adds 1 to every entry of the state. -/
def stepUp (q : List ℚ) : Option (List ℚ) := some (q.map (fun x => x + 1))

/-- The triangle estimator after formulation A has been built, with two scene
points stored, both at the centroid of the triangle. -/
def guessEst : Estimator := { triEstBuilt with scene_pts_ := [![1, 1, 0], ![1, 1, 0]] }

/-- A collision query that reports every scene point at distance 0 from body 1. -/
def onBodyOne (_ : List ℚ) (pts : List Vec3) : List (WithTop ℚ) × List Nat :=
  (pts.map (fun _ => 0), pts.map (fun _ => 1))

/-- The guess built for `guessEst` at the identity pose. -/
def guessAtIdentity : Option (List (Option ℚ) × List (Option Var)) :=
  getInitialGuessFromRobotState triLib (fun _ _ _ => Affine3.identity) onBodyOne (fun _ s => s)
    (declareVarsA guessEst guessEst.scene_pts_) guessEst [0, 0, 0, 0, 0, 0] [] []

/-! ## Evaluation of linear expressions -/

namespace LinExpr

@[simp] theorem eval_var (σ : Var → ℚ) (v : Var) : (var v).eval σ = σ v := by
  simp [eval, var]

@[simp] theorem eval_cst (σ : Var → ℚ) (c : ℚ) : (cst c).eval σ = c := by
  simp [eval, cst]

@[simp] theorem eval_add (σ : Var → ℚ) (a b : LinExpr) :
    (add a b).eval σ = a.eval σ + b.eval σ := by
  simp [eval, add]
  ring

@[simp] theorem eval_smul (σ : Var → ℚ) (c : ℚ) (a : LinExpr) :
    (smul c a).eval σ = c * a.eval σ := by
  have h : ∀ l : List (ℚ × Var),
      (List.map (fun t => t.1 * σ t.2) (List.map (fun t => (c * t.1, t.2)) l)).sum
        = c * (List.map (fun t => t.1 * σ t.2) l).sum := by
    intro l
    induction l with
    | nil => simp
    | cons x xs ih => simp only [List.map_cons, List.sum_cons, ih]; ring
  simp only [eval, smul, h]
  ring

@[simp] theorem eval_neg (σ : Var → ℚ) (a : LinExpr) : (neg a).eval σ = - a.eval σ := by
  simp [neg]

@[simp] theorem eval_sub (σ : Var → ℚ) (a b : LinExpr) :
    (sub a b).eval σ = a.eval σ - b.eval σ := by
  simp [sub]
  ring

@[simp] theorem eval_sumOver (σ : Var → ℚ) (n : Nat) (g : Nat → LinExpr) :
    (sumOver n g).eval σ = ∑ j in Finset.range n, (g j).eval σ := by
  have h : ∀ l : List Nat,
      (l.foldr (fun j acc => add (g j) acc) (cst 0)).eval σ = (l.map (fun j => (g j).eval σ)).sum := by
    intro l
    induction l with
    | nil => simp
    | cons x xs ih => simp [ih]
  rw [sumOver, h]
  induction n with
  | zero => simp
  | succ n ih => rw [List.range_succ, List.map_append, List.sum_append, ih, Finset.sum_range_succ]; simp

end LinExpr

/-! ## Formulation A: the program that is built -/

theorem buildFormulationA_ok {ext : External} {est : Estimator} {scene_pts : List Vec3}
    {P : Prog} {est1 : Estimator} (h : buildFormulationA ext est scene_pts = .ok (P, est1)) :
    ∃ tfCons, addTransformationVarsAndConstraints ext est false = .ok tfCons
      ∧ P = programA ext est scene_pts tfCons := by
  unfold buildFormulationA at h
  cases htf : addTransformationVarsAndConstraints ext est false with
  | error e => rw [htf] at h; cases h
  | ok tfCons =>
    rw [htf] at h
    refine ⟨tfCons, rfl, ?_⟩
    have h2 := Except.ok.inj h
    exact (congrArg Prod.fst h2).symm

theorem fRowSum_mem (ext : External) (est : Estimator) (scene_pts : List Vec3)
    (tfCons : List Constraint) {i : Nat} (hi : i < scene_pts.length) :
    fRowSumConstraint est.all_faces_.length i ∈ (programA ext est scene_pts tfCons).constraints := by
  simp only [programA, List.mem_append, List.mem_map, List.mem_range]
  exact Or.inl (Or.inl (Or.inl (Or.inr ⟨i, hi, rfl⟩)))

theorem f_binary_mem (ext : External) (est : Estimator) (scene_pts : List Vec3)
    (tfCons : List Constraint) {i j : Nat} (hi : i < scene_pts.length)
    (hj : j < est.all_faces_.length) :
    Var.f i j ∈ (programA ext est scene_pts tfCons).binaries := by
  simp only [programA, List.mem_append, List.mem_map, List.mem_range, List.mem_flatMap]
  exact Or.inl ⟨i, hi, j, hj, rfl⟩

theorem f_outlier_binary_mem (ext : External) (est : Estimator) (scene_pts : List Vec3)
    (tfCons : List Constraint) {i : Nat} (hi : i < scene_pts.length) :
    Var.f_outlier i ∈ (programA ext est scene_pts tfCons).binaries := by
  simp only [programA, List.mem_append, List.mem_map, List.mem_range, List.mem_flatMap]
  exact Or.inr ⟨i, hi, rfl⟩

/-- Row sum of `f` plus the outlier flag is 1 at every point satisfying the constraints. -/
theorem fRowSum_eq {ext : External} {est : Estimator} {scene_pts : List Vec3} {σ : Var → ℚ}
    (h : SatisfiesA ext est scene_pts σ) {i : Nat} (hi : i < scene_pts.length) :
    (∑ j in Finset.range est.all_faces_.length, σ (.f i j)) + σ (.f_outlier i) = 1 := by
  obtain ⟨P, est1, hb, hs⟩ := h
  obtain ⟨tfCons, -, rfl⟩ := buildFormulationA_ok hb
  have := hs _ (fRowSum_mem ext est scene_pts tfCons hi)
  simpa [fRowSumConstraint, Constraint.holds] using this

theorem triSigma_feasible : FeasibleA triExt triEst triPts triSigma := by
  refine ⟨_, _, rfl, ?_, ?_⟩
  · unfold Prog.SatisfiesConstraints
    decide!
  · unfold Prog.Binary
    decide!

theorem triSigmaOutlier_feasible : FeasibleA triExt triEst triPts triSigmaOutlier := by
  refine ⟨_, _, rfl, ?_, ?_⟩
  · unfold Prog.SatisfiesConstraints
    decide!
  · unfold Prog.Binary
    decide!

/-! ## Sums of 0/1 values -/

theorem binary_sum_eq_zero {n : Nat} {x : Nat → ℚ} (hb : ∀ j < n, x j = 0 ∨ x j = 1)
    (hs : ∑ j in Finset.range n, x j = 0) : ∀ j < n, x j = 0 := by
  have hnn : ∀ j ∈ Finset.range n, 0 ≤ x j := by
    intro j hj
    rcases hb j (Finset.mem_range.mp hj) with h | h <;> simp [h]
  intro j hj
  exact (Finset.sum_eq_zero_iff_of_nonneg hnn).mp hs j (Finset.mem_range.mpr hj)

theorem binary_sum_eq_one {n : Nat} {x : Nat → ℚ} (hb : ∀ j < n, x j = 0 ∨ x j = 1)
    (hs : ∑ j in Finset.range n, x j = 1) :
    ∃ j < n, x j = 1 ∧ ∀ j2 < n, j2 ≠ j → x j2 = 0 := by
  have hex : ∃ j < n, x j = 1 := by
    by_contra hne
    have hz : ∀ j ∈ Finset.range n, x j = 0 := by
      intro j hj
      have hj2 := Finset.mem_range.mp hj
      rcases hb j hj2 with h | h
      · exact h
      · exact absurd ⟨j, hj2, h⟩ hne
    rw [Finset.sum_eq_zero hz] at hs
    norm_num at hs
  obtain ⟨j, hj, hj1⟩ := hex
  refine ⟨j, hj, hj1, ?_⟩
  have hsplit := Finset.add_sum_erase (Finset.range n) x (Finset.mem_range.mpr hj)
  rw [hs, hj1] at hsplit
  have hrest : ∑ k in (Finset.range n).erase j, x k = 0 := by linarith
  have hnn : ∀ k ∈ (Finset.range n).erase j, 0 ≤ x k := by
    intro k hk
    have hk2 := Finset.mem_range.mp (Finset.mem_of_mem_erase hk)
    rcases hb k hk2 with h | h <;> simp [h]
  intro j2 hj2 hne
  exact (Finset.sum_eq_zero_iff_of_nonneg hnn).mp hrest j2
    (Finset.mem_erase.mpr ⟨hne, Finset.mem_range.mpr hj2⟩)

/-- At a feasible point of formulation A every scene point is either an outlier
with no face, or a non-outlier with exactly one face. -/
theorem rowAssignment_of_feasible {ext : External} {est : Estimator} {scene_pts : List Vec3}
    {σ : Var → ℚ} (h : FeasibleA ext est scene_pts σ) {i : Nat} (hi : i < scene_pts.length) :
    (σ (.f_outlier i) = 1 ∧ ∀ j < est.all_faces_.length, σ (.f i j) = 0) ∨
    (σ (.f_outlier i) = 0 ∧ ∃ j < est.all_faces_.length, σ (.f i j) = 1 ∧
        ∀ j2 < est.all_faces_.length, j2 ≠ j → σ (.f i j2) = 0) := by
  obtain ⟨P, est1, hb, hs, hbin⟩ := h
  have hsum := fRowSum_eq (σ := σ) ⟨P, est1, hb, hs⟩ hi
  obtain ⟨tfCons, -, rfl⟩ := buildFormulationA_ok hb
  have hfb : ∀ j < est.all_faces_.length, σ (.f i j) = 0 ∨ σ (.f i j) = 1 :=
    fun j hj => hbin _ (f_binary_mem ext est scene_pts tfCons hi hj)
  rcases hbin _ (f_outlier_binary_mem ext est scene_pts tfCons hi) with ho | ho
  · right
    rw [ho, add_zero] at hsum
    exact ⟨ho, binary_sum_eq_one hfb hsum⟩
  · left
    rw [ho] at hsum
    have hz : ∑ j in Finset.range est.all_faces_.length, σ (.f i j) = 0 := by linarith
    exact ⟨ho, binary_sum_eq_zero hfb hz⟩

/-! ## C1: every scene point is an outlier or on exactly one face -/

/-- C1: in formulation A, every assignment that satisfies the constraints added
to the program has, for every scene point `i`, the sum over all faces `j` of
`f[i,j]` plus `f_outlier[i]` equal to 1; and at a feasible point (binary
values) the scene point is either an outlier with no face assigned, or not an
outlier and assigned to exactly one face. -/
theorem formulationA_row_sum (ext : External) (est : Estimator) (scene_pts : List Vec3)
    (σ : Var → ℚ) (h : SatisfiesA ext est scene_pts σ) (i : Nat) (hi : i < scene_pts.length) :
    (∑ j in Finset.range est.all_faces_.length, σ (.f i j)) + σ (.f_outlier i) = 1 ∧
    (FeasibleA ext est scene_pts σ →
      (σ (.f_outlier i) = 1 ∧ ∀ j < est.all_faces_.length, σ (.f i j) = 0) ∨
      (σ (.f_outlier i) = 0 ∧ ∃ j < est.all_faces_.length, σ (.f i j) = 1 ∧
          ∀ j2 < est.all_faces_.length, j2 ≠ j → σ (.f i j2) = 0)) :=
  ⟨fRowSum_eq h hi, fun hf => rowAssignment_of_feasible hf hi⟩

theorem feasibleA_satisfies {ext : External} {est : Estimator} {scene_pts : List Vec3}
    {σ : Var → ℚ} (h : FeasibleA ext est scene_pts σ) : SatisfiesA ext est scene_pts σ := by
  obtain ⟨P, est1, hb, hs, -⟩ := h
  exact ⟨P, est1, hb, hs⟩

/-- Witness for C1 on the single-triangle instance with the scene point assigned to the face. -/
theorem formulationA_row_sum_witness :
    FeasibleA triExt triEst triPts triSigma ∧
    ((∑ j in Finset.range triEst.all_faces_.length, triSigma (.f 0 j)) + triSigma (.f_outlier 0) = 1 ∧
    (FeasibleA triExt triEst triPts triSigma →
      (triSigma (.f_outlier 0) = 1 ∧ ∀ j < triEst.all_faces_.length, triSigma (.f 0 j) = 0) ∨
      (triSigma (.f_outlier 0) = 0 ∧ ∃ j < triEst.all_faces_.length, triSigma (.f 0 j) = 1 ∧
          ∀ j2 < triEst.all_faces_.length, j2 ≠ j → triSigma (.f 0 j2) = 0))) :=
  ⟨triSigma_feasible,
   formulationA_row_sum triExt triEst triPts triSigma (feasibleA_satisfies triSigma_feasible) 0
     (by decide)⟩

/-! ## The membership matrices -/

theorem Mat.set_rows (m : Mat) (i j : Nat) (x : ℚ) : (m.set i j x).rows = m.rows := by
  unfold Mat.set; split <;> rfl

theorem Mat.set_cols (m : Mat) (i j : Nat) (x : ℚ) : (m.set i j x).cols = m.cols := by
  unfold Mat.set; split <;> rfl

theorem Mat.set_data (m : Mat) (i j : Nat) (x : ℚ) (a b : Nat) :
    (m.set i j x).data a b
      = if a = i ∧ b = j ∧ i < m.rows ∧ j < m.cols then x else m.data a b := by
  unfold Mat.set
  by_cases h : i < m.rows ∧ j < m.cols
  · rw [if_pos h]
    by_cases h2 : a = i ∧ b = j
    · simp [h2, h.1, h.2]
    · have : ¬ (a = i ∧ b = j ∧ i < m.rows ∧ j < m.cols) := fun hh => h2 ⟨hh.1, hh.2.1⟩
      simp only [if_neg h2, if_neg this]
  · rw [if_neg h]
    have : ¬ (a = i ∧ b = j ∧ i < m.rows ∧ j < m.cols) := fun hh => h hh.2.2
    rw [if_neg this]

theorem three_ite (p2 p1 p0 q : Prop) [Decidable p2] [Decidable p1] [Decidable p0]
    [Decidable q] (h : q ↔ (p0 ∨ p1 ∨ p2)) :
    (if p2 then (1 : ℚ) else if p1 then 1 else if p0 then 1 else 0) = if q then 1 else 0 := by
  by_cases h2 : p2
  · simp [h2, h.mpr (Or.inr (Or.inr h2))]
  · by_cases h1 : p1
    · simp [h2, h1, h.mpr (Or.inr (Or.inl h1))]
    · by_cases h0 : p0
      · simp [h2, h1, h0, h.mpr (Or.inl h0)]
      · have : ¬ q := fun hq => by rcases h.mp hq with x | x | x <;> contradiction
        simp [h2, h1, h0, this]

theorem buildFB_fold (est : Estimator) (n : Nat) (hn : n ≤ est.all_faces_.length) :
    ∀ FB, FB = (List.range n).foldl (buildFBStep est)
        (Mat.zeros est.all_faces_.length est.all_vertices_.length,
         Mat.zeros (est.numBodies - 1) est.all_faces_.length) →
      FB.1.rows = est.all_faces_.length ∧ FB.1.cols = est.all_vertices_.length ∧
      ∀ i v, FB.1.data i v
        = if i < n ∧ v < est.all_vertices_.length ∧ (est.face i).hasVertex v then 1 else 0 := by
  induction n with
  | zero =>
    intro FB hFB
    subst hFB
    simp [Mat.zeros]
  | succ n ih =>
    intro FB hFB
    rw [List.range_succ, List.foldl_append] at hFB
    obtain ⟨hr, hc, hd⟩ := ih (by omega) _ rfl
    subst hFB
    simp only [List.foldl_cons, List.foldl_nil]
    generalize (List.range n).foldl (buildFBStep est)
        (Mat.zeros est.all_faces_.length est.all_vertices_.length,
         Mat.zeros (est.numBodies - 1) est.all_faces_.length) = FB0 at hr hc hd
    refine ⟨?_, ?_, ?_⟩
    · simp [buildFBStep, Mat.set_rows, hr]
    · simp [buildFBStep, Mat.set_cols, hc]
    · intro i v
      simp only [buildFBStep, Mat.set_data, Mat.set_rows, Mat.set_cols, hr, hc, hd]
      have hnlt : n < est.all_faces_.length := by omega
      by_cases hin : i = n
      · subst hin
        simp only [lt_irrefl, false_and, if_false, Estimator.face, Face.hasVertex]
        refine three_ite _ _ _ _ ?_
        constructor
        · rintro ⟨-, hv, h0 | h1 | h2⟩
          · exact Or.inl ⟨trivial, h0, hnlt, by omega⟩
          · exact Or.inr (Or.inl ⟨trivial, h1, hnlt, by omega⟩)
          · exact Or.inr (Or.inr ⟨trivial, h2, hnlt, by omega⟩)
        · rintro (⟨-, h0, -, hlt⟩ | ⟨-, h1, -, hlt⟩ | ⟨-, h2, -, hlt⟩)
          · exact ⟨by omega, by omega, Or.inl h0⟩
          · exact ⟨by omega, by omega, Or.inr (Or.inl h1)⟩
          · exact ⟨by omega, by omega, Or.inr (Or.inr h2)⟩
      · have hlt : (i < n + 1) ↔ (i < n) := by omega
        simp [hin, hlt]

theorem buildFB_F_data (est : Estimator) (i v : Nat) :
    (buildFB est).1.data i v
      = if i < est.all_faces_.length ∧ v < est.all_vertices_.length ∧ (est.face i).hasVertex v
        then 1 else 0 :=
  (buildFB_fold est est.all_faces_.length le_rfl _ rfl).2.2 i v

/-! ## C2: the weights of a scene point live on its face -/

theorem cRowSum_mem (ext : External) (est : Estimator) (scene_pts : List Vec3)
    (tfCons : List Constraint) {i : Nat} (hi : i < scene_pts.length) :
    cRowSumConstraint est.all_vertices_.length i
      ∈ (programA ext est scene_pts tfCons).constraints := by
  simp only [programA, List.mem_append, List.mem_map, List.mem_range]
  exact Or.inl (Or.inl (Or.inl (Or.inl (Or.inr ⟨i, hi, rfl⟩))))

theorem cBox_mem (ext : External) (est : Estimator) (scene_pts : List Vec3)
    (tfCons : List Constraint) {i v : Nat} (hi : i < scene_pts.length)
    (hv : v < est.all_vertices_.length) :
    cBoxConstraint i v ∈ (programA ext est scene_pts tfCons).constraints := by
  simp only [programA, List.mem_append, List.mem_map, List.mem_range, List.mem_flatMap]
  exact Or.inl (Or.inl (Or.inr ⟨i, hi, v, hv, rfl⟩))

theorem cFace_mem (ext : External) (est : Estimator) (scene_pts : List Vec3)
    (tfCons : List Constraint) {i v : Nat} (hi : i < scene_pts.length)
    (hv : v < est.all_vertices_.length) :
    cFaceConstraint (buildFB est).1 est.all_faces_.length i v
      ∈ (programA ext est scene_pts tfCons).constraints := by
  simp only [programA, List.mem_append, List.mem_map, List.mem_range, List.mem_flatMap]
  exact Or.inl (Or.inr ⟨i, hi, v, hv, rfl⟩)

/-- Entries of `C` lie in `[0, 1]` at every point satisfying the constraints. -/
theorem C_bounds {ext : External} {est : Estimator} {scene_pts : List Vec3} {σ : Var → ℚ}
    (h : SatisfiesA ext est scene_pts σ) {i v : Nat} (hi : i < scene_pts.length)
    (hv : v < est.all_vertices_.length) : 0 ≤ σ (.C i v) ∧ σ (.C i v) ≤ 1 := by
  obtain ⟨P, est1, hb, hs⟩ := h
  obtain ⟨tfCons, -, rfl⟩ := buildFormulationA_ok hb
  have := hs _ (cBox_mem ext est scene_pts tfCons hi hv)
  simpa [cBoxConstraint, Constraint.holds] using this

/-- The face bound on `C`: `C(i, v) <= sum over faces r of F(r, v) * f(i, r)`. -/
theorem C_le_face {ext : External} {est : Estimator} {scene_pts : List Vec3} {σ : Var → ℚ}
    (h : SatisfiesA ext est scene_pts σ) {i v : Nat} (hi : i < scene_pts.length)
    (hv : v < est.all_vertices_.length) :
    σ (.C i v) ≤ ∑ r in Finset.range est.all_faces_.length,
      (buildFB est).1.data r v * σ (.f i r) := by
  obtain ⟨P, est1, hb, hs⟩ := h
  obtain ⟨tfCons, -, rfl⟩ := buildFormulationA_ok hb
  have := hs _ (cFace_mem ext est scene_pts tfCons hi hv)
  simpa [cFaceConstraint, Constraint.holds] using this

/-- Row sum of `C` plus the outlier flag is 1 at every point satisfying the constraints. -/
theorem cRowSum_eq {ext : External} {est : Estimator} {scene_pts : List Vec3} {σ : Var → ℚ}
    (h : SatisfiesA ext est scene_pts σ) {i : Nat} (hi : i < scene_pts.length) :
    (∑ v in Finset.range est.all_vertices_.length, σ (.C i v)) + σ (.f_outlier i) = 1 := by
  obtain ⟨P, est1, hb, hs⟩ := h
  obtain ⟨tfCons, -, rfl⟩ := buildFormulationA_ok hb
  have := hs _ (cRowSum_mem ext est scene_pts tfCons hi)
  simpa [cRowSumConstraint, Constraint.holds] using this

/-- With a single face `j` selected in row `i`, a vertex outside that face carries no weight. -/
theorem C_zero_off_face {ext : External} {est : Estimator} {scene_pts : List Vec3} {σ : Var → ℚ}
    (h : SatisfiesA ext est scene_pts σ) {i j v : Nat} (hi : i < scene_pts.length)
    (hv : v < est.all_vertices_.length) (hj : j < est.all_faces_.length)
    (hothers : ∀ j2 < est.all_faces_.length, j2 ≠ j → σ (.f i j2) = 0)
    (hnot : ¬ (est.face j).hasVertex v) : σ (.C i v) = 0 := by
  have hle := C_le_face h hi hv
  have hsum : ∑ r in Finset.range est.all_faces_.length,
      (buildFB est).1.data r v * σ (.f i r) = 0 := by
    apply Finset.sum_eq_zero
    intro r hr
    by_cases hrj : r = j
    · subst hrj
      rw [buildFB_F_data]
      simp [hnot]
    · rw [hothers r (Finset.mem_range.mp hr) hrj, mul_zero]
  rw [hsum] at hle
  exact le_antisymm hle (C_bounds h hi hv).1

theorem sum_filter_of_zero {n : Nat} (p : Nat → Prop) [DecidablePred p] (x w : Nat → ℚ)
    (hz : ∀ v < n, ¬ p v → x v = 0) :
    ∑ v in (Finset.range n).filter p, w v * x v = ∑ v in Finset.range n, w v * x v := by
  rw [Finset.sum_filter]
  apply Finset.sum_congr rfl
  intro v hv
  by_cases hp : p v
  · simp [hp]
  · simp [hp, hz v (Finset.mem_range.mp hv) hp]

/-- C2: in formulation A, at every feasible point (binary `f`), for a scene
point `i` that is not an outlier there is a single face `j` with `f[i,j] = 1`;
`C[i,v] = 0` for every vertex `v` that is not a vertex of face `j`, every
`C[i,v]` lies in `[0,1]`, the weights over the vertices of face `j` sum to 1,
and `V·C[i,:]^T` equals the combination of the vertices of face `j` alone (a
convex combination of them).  For an outlier row every `C[i,v]` is 0. -/
theorem formulationA_C_convex_on_face (ext : External) (est : Estimator)
    (scene_pts : List Vec3) (σ : Var → ℚ) (h : FeasibleA ext est scene_pts σ) (i : Nat)
    (hi : i < scene_pts.length) :
    (σ (.f_outlier i) = 0 →
      ∃ j < est.all_faces_.length, σ (.f i j) = 1 ∧
        (∀ j2 < est.all_faces_.length, j2 ≠ j → σ (.f i j2) = 0) ∧
        (∀ v < est.all_vertices_.length, ¬ (est.face j).hasVertex v → σ (.C i v) = 0) ∧
        (∀ v < est.all_vertices_.length, 0 ≤ σ (.C i v) ∧ σ (.C i v) ≤ 1) ∧
        (∑ v in (Finset.range est.all_vertices_.length).filter (fun v => (est.face j).hasVertex v),
            σ (.C i v) = 1) ∧
        (∀ k : Fin 3,
          ∑ v in Finset.range est.all_vertices_.length, col est.all_vertices_ v k * σ (.C i v)
            = ∑ v in (Finset.range est.all_vertices_.length).filter
                (fun v => (est.face j).hasVertex v), col est.all_vertices_ v k * σ (.C i v))) ∧
    (σ (.f_outlier i) = 1 → ∀ v < est.all_vertices_.length, σ (.C i v) = 0) := by
  have hsat := feasibleA_satisfies h
  constructor
  · intro ho
    rcases rowAssignment_of_feasible h hi with ⟨h1, -⟩ | ⟨-, j, hj, hj1, hothers⟩
    · rw [ho] at h1; norm_num at h1
    · have hoff : ∀ v < est.all_vertices_.length, ¬ (est.face j).hasVertex v → σ (.C i v) = 0 :=
        fun v hv hnot => C_zero_off_face hsat hi hv hj hothers hnot
      refine ⟨j, hj, hj1, hothers, hoff, fun v hv => C_bounds hsat hi hv, ?_, ?_⟩
      · have hrow := cRowSum_eq hsat hi
        rw [ho, add_zero] at hrow
        have := sum_filter_of_zero (fun v => (est.face j).hasVertex v)
          (fun v => σ (.C i v)) (fun _ => 1) hoff
        simp only [one_mul] at this
        rw [this, hrow]
      · intro k
        exact (sum_filter_of_zero (fun v => (est.face j).hasVertex v)
          (fun v => σ (.C i v)) (fun v => col est.all_vertices_ v k) hoff).symm
  · intro ho v hv
    rcases rowAssignment_of_feasible h hi with ⟨-, hz⟩ | ⟨h0, -⟩
    · have hle := C_le_face hsat hi hv
      have hsum : ∑ r in Finset.range est.all_faces_.length,
          (buildFB est).1.data r v * σ (.f i r) = 0 := by
        apply Finset.sum_eq_zero
        intro r hr
        rw [hz r (Finset.mem_range.mp hr), mul_zero]
      rw [hsum] at hle
      exact le_antisymm hle (C_bounds hsat hi hv).1
    · rw [ho] at h0; norm_num at h0

/-- Witness for C2 on the single-triangle instance: both the assigned and the outlier
assignment are feasible, and the theorem applies to the assigned one. -/
theorem formulationA_C_convex_on_face_witness :
    FeasibleA triExt triEst triPts triSigma ∧ (0 : Nat) < triPts.length ∧
    triSigma (.f_outlier 0) = 0 ∧
    ∃ j < triEst.all_faces_.length, triSigma (.f 0 j) = 1 ∧
      (∑ v in (Finset.range triEst.all_vertices_.length).filter
          (fun v => (triEst.face j).hasVertex v), triSigma (.C 0 v) = 1) := by
  have hw := formulationA_C_convex_on_face triExt triEst triPts triSigma triSigma_feasible 0
    (by decide)
  obtain ⟨j, hj, hj1, -, -, -, hsum, -⟩ := hw.1 rfl
  exact ⟨triSigma_feasible, by decide, rfl, j, hj, hj1, hsum⟩

/-! ## C3: the slack bounds the L1 residual -/

theorem residual_mem (ext : External) (est : Estimator) (scene_pts : List Vec3)
    (tfCons : List Constraint) {i : Nat} (hi : i < scene_pts.length) {c : Constraint}
    (hc : c ∈ residualConstraints est (buildFB est).2 (alphaHandle est.alpha_) scene_pts i) :
    c ∈ (programA ext est scene_pts tfCons).constraints := by
  simp only [programA, List.mem_append, List.mem_map, List.mem_range, List.mem_flatMap]
  exact Or.inr ⟨i, hi, hc⟩

theorem slackBox_mem (ext : External) (est : Estimator) (scene_pts : List Vec3)
    (tfCons : List Constraint) {i b : Nat} (k : Fin 3) (hi : i < scene_pts.length)
    (hb : b < est.numBodies - 1) :
    Constraint.box 0 none (.alpha (alphaHandle est.alpha_ k) b i)
      ∈ (programA ext est scene_pts tfCons).constraints := by
  simp only [programA, slackBoxConstraints, List.mem_append, List.mem_map, List.mem_range,
    List.mem_flatMap]
  refine Or.inl (Or.inl (Or.inl (Or.inl (Or.inl (Or.inr (Or.inr ⟨k, ?_, b, hb, i, hi, rfl⟩))))))
  fin_cases k <;> simp

/-- The `alpha` slacks used by the program are nonnegative. -/
theorem alpha_nonneg {ext : External} {est : Estimator} {scene_pts : List Vec3} {σ : Var → ℚ}
    (h : SatisfiesA ext est scene_pts σ) {i b : Nat} (k : Fin 3) (hi : i < scene_pts.length)
    (hb : b < est.numBodies - 1) : 0 ≤ σ (.alpha (alphaHandle est.alpha_ k) b i) := by
  obtain ⟨P, est1, hbuild, hs⟩ := h
  obtain ⟨tfCons, -, rfl⟩ := buildFormulationA_ok hbuild
  have := hs _ (slackBox_mem ext est scene_pts tfCons k hi hb)
  simpa [Constraint.holds] using this

/-- The equality that defines `phi_(i)`. -/
theorem phi_eq {ext : External} {est : Estimator} {scene_pts : List Vec3} {σ : Var → ℚ}
    (h : SatisfiesA ext est scene_pts σ) {i : Nat} (hi : i < scene_pts.length) :
    σ (.phi i)
      = (∑ b in Finset.range (est.numBodies - 1), σ (.alpha (alphaHandle est.alpha_ 0) b i))
        + (∑ b in Finset.range (est.numBodies - 1), σ (.alpha (alphaHandle est.alpha_ 1) b i))
        + (∑ b in Finset.range (est.numBodies - 1), σ (.alpha (alphaHandle est.alpha_ 2) b i))
        + est.optPhiMax_ * σ (.f_outlier i) := by
  obtain ⟨P, est1, hbuild, hs⟩ := h
  obtain ⟨tfCons, -, rfl⟩ := buildFormulationA_ok hbuild
  have := hs _ (residual_mem ext est scene_pts tfCons hi (c := _)
    (by simp only [residualConstraints, List.mem_append, List.mem_singleton]; exact Or.inl rfl))
  simpa [Constraint.holds] using this

theorem eval_l1ErrorPos (est : Estimator) (σ : Var → ℚ) (s : Vec3) (b i : Nat) (k : Fin 3) :
    (l1ErrorPos est.all_vertices_ s b i k).eval σ = residual est σ s b i k := by
  simp [l1ErrorPos, residual, Mat3.mulVec3]
  ring

theorem eval_selector (est : Estimator) (σ : Var → ℚ) (b i : Nat) :
    (selector est.optBigNumber_ (buildFB est).2 est.all_faces_.length b i).eval σ
      = est.optBigNumber_ * (1 - bodyGate est σ b i) := by
  simp [selector, bodyGate]

/-- The two big-M lower bounds on `alpha_[k](b, i)`. -/
theorem alpha_ge_residual {ext : External} {est : Estimator} {scene_pts : List Vec3}
    {σ : Var → ℚ} (h : SatisfiesA ext est scene_pts σ) {i b : Nat} (k : Fin 3)
    (hi : i < scene_pts.length) (hb : b < est.numBodies - 1) :
    σ (.alpha (alphaHandle est.alpha_ k) b i)
        ≥ residual est σ (col scene_pts i) b i k
          - est.optBigNumber_ * (1 - bodyGate est σ b i) ∧
    σ (.alpha (alphaHandle est.alpha_ k) b i)
        ≥ - residual est σ (col scene_pts i) b i k
          - est.optBigNumber_ * (1 - bodyGate est σ b i) := by
  obtain ⟨P, est1, hbuild, hs⟩ := h
  obtain ⟨tfCons, -, rfl⟩ := buildFormulationA_ok hbuild
  have hk : k ∈ ([0, 1, 2] : List (Fin 3)) := by fin_cases k <;> simp
  constructor
  · have := hs _ (residual_mem ext est scene_pts tfCons hi (c := _)
      (by
        simp only [residualConstraints, List.mem_append, List.mem_flatMap, List.mem_range]
        exact Or.inr ⟨b, hb, k, hk, List.mem_cons_self _ _⟩))
    simpa [Constraint.holds, eval_l1ErrorPos, eval_selector] using this
  · have := hs _ (residual_mem ext est scene_pts tfCons hi (c := _)
      (by
        simp only [residualConstraints, List.mem_append, List.mem_flatMap, List.mem_range]
        exact Or.inr ⟨b, hb, k, hk, List.mem_cons_of_mem _ (List.mem_cons_self _ _)⟩))
    simpa [Constraint.holds, eval_l1ErrorPos, eval_selector] using this

/-- A nonnegative family dominates each of its members. -/
theorem single_le_sum_range {n : Nat} {x : Nat → ℚ} (hnn : ∀ b < n, 0 ≤ x b) {b : Nat}
    (hb : b < n) : x b ≤ ∑ c in Finset.range n, x c :=
  Finset.single_le_sum (f := x) (fun c hc => hnn c (Finset.mem_range.mp hc))
    (Finset.mem_range.mpr hb)

/-- A scene point gated onto a body is not an outlier. -/
theorem not_outlier_of_gate {ext : External} {est : Estimator} {scene_pts : List Vec3}
    {σ : Var → ℚ} (h : FeasibleA ext est scene_pts σ) {i b : Nat} (hi : i < scene_pts.length)
    (hg : bodyGate est σ b i = 1) : σ (.f_outlier i) = 0 := by
  rcases rowAssignment_of_feasible h hi with ⟨-, hz⟩ | ⟨h0, -⟩
  · exfalso
    have : bodyGate est σ b i = 0 := by
      unfold bodyGate
      apply Finset.sum_eq_zero
      intro j hj
      rw [hz j (Finset.mem_range.mp hj), mul_zero]
    rw [this] at hg
    norm_num at hg
  · exact h0

/-- C3: in formulation A, at every feasible point (binary `f`), for every scene
point `i` and body `b` with `Bm[b,:]·f[i,:]^T = 1`, each `alpha_k(b,i)` is at
least the absolute value of component `k` of the residual
`R_b·s_i + T_b − V·C[i,:]^T`, and `phi_i` is at least the L1 norm of that
residual; and for every outlier point `phi_i >= phi_max`. -/
theorem formulationA_phi_bounds_residual (ext : External) (est : Estimator)
    (scene_pts : List Vec3) (σ : Var → ℚ) (h : FeasibleA ext est scene_pts σ) (i : Nat)
    (hi : i < scene_pts.length) :
    (∀ b < est.numBodies - 1, bodyGate est σ b i = 1 →
      (∀ k : Fin 3, |residual est σ (col scene_pts i) b i k|
          ≤ σ (.alpha (alphaHandle est.alpha_ k) b i)) ∧
      l1norm (residual est σ (col scene_pts i) b i) ≤ σ (.phi i)) ∧
    (σ (.f_outlier i) = 1 → est.optPhiMax_ ≤ σ (.phi i)) := by
  have hsat := feasibleA_satisfies h
  have hphi := phi_eq hsat hi
  have hsum_nn : ∀ k : Fin 3,
      0 ≤ ∑ b in Finset.range (est.numBodies - 1), σ (.alpha (alphaHandle est.alpha_ k) b i) :=
    fun k => Finset.sum_nonneg (fun b hb => alpha_nonneg hsat k hi (Finset.mem_range.mp hb))
  constructor
  · intro b hb hg
    have habs : ∀ k : Fin 3, |residual est σ (col scene_pts i) b i k|
        ≤ σ (.alpha (alphaHandle est.alpha_ k) b i) := by
      intro k
      obtain ⟨h1, h2⟩ := alpha_ge_residual hsat k hi hb
      rw [hg] at h1 h2
      rw [abs_le]
      constructor <;> linarith
    refine ⟨habs, ?_⟩
    have hle : ∀ k : Fin 3, σ (.alpha (alphaHandle est.alpha_ k) b i)
        ≤ ∑ c in Finset.range (est.numBodies - 1), σ (.alpha (alphaHandle est.alpha_ k) c i) :=
      fun k => single_le_sum_range (x := fun c => σ (.alpha (alphaHandle est.alpha_ k) c i))
        (fun c hc => alpha_nonneg hsat k hi hc) hb
    have ho := not_outlier_of_gate h hi hg
    rw [hphi, ho, mul_zero, add_zero]
    unfold l1norm
    have a0 := habs 0
    have a1 := habs 1
    have a2 := habs 2
    have b0 := hle 0
    have b1 := hle 1
    have b2 := hle 2
    linarith
  · intro ho
    rw [hphi, ho, mul_one]
    have c0 := hsum_nn 0
    have c1 := hsum_nn 1
    have c2 := hsum_nn 2
    linarith

/-- Witness for C3: on the single-triangle instance the assigned point has its
gate on body 1 equal to 1, and the outlier assignment has `f_outlier = 1`. -/
theorem formulationA_phi_bounds_residual_witness :
    (FeasibleA triExt triEst triPts triSigma ∧ bodyGate triEst triSigma 0 0 = 1 ∧
      l1norm (residual triEst triSigma (col triPts 0) 0 0) ≤ triSigma (.phi 0)) ∧
    (FeasibleA triExt triEst triPts triSigmaOutlier ∧ triSigmaOutlier (.f_outlier 0) = 1 ∧
      triEst.optPhiMax_ ≤ triSigmaOutlier (.phi 0)) :=
  ⟨⟨triSigma_feasible, by decide!,
    ((formulationA_phi_bounds_residual triExt triEst triPts triSigma triSigma_feasible 0
      (by decide)).1 0 (by decide) (by decide!)).2⟩,
   ⟨triSigmaOutlier_feasible, rfl,
    (formulationA_phi_bounds_residual triExt triEst triPts triSigmaOutlier
      triSigmaOutlier_feasible 0 (by decide)).2 rfl⟩⟩

/-! ## C4: the same-face gate -/

theorem gateSigma_feasible : FeasibleA triExt gateEst gatePts gateSigma := by
  refine ⟨_, _, rfl, ?_, ?_⟩
  · unfold Prog.SatisfiesConstraints
    decide!
  · unfold Prog.Binary
    decide!

theorem sameFace_mem (ext : External) (est : Estimator) (scene_pts : List Vec3)
    (tfCons : List Constraint) {c : Constraint}
    (hD : 0 < maxDistToSameFace ext est (buildFB est).1)
    (hc : c ∈ sameFaceConstraints ext scene_pts est.all_faces_.length
      (maxDistToSameFace ext est (buildFB est).1)) :
    c ∈ (programA ext est scene_pts tfCons).constraints := by
  simp only [programA, gateConstraints, if_pos hD, List.mem_append]
  exact Or.inl (Or.inl (Or.inl (Or.inl (Or.inl (Or.inl (Or.inr (Or.inl hc)))))))

theorem vsub_self (a : Vec3) : vsub a a = fun _ => 0 := by
  funext k
  simp [vsub]

/-- C4: in formulation A with the same-face gate active (`D_max > 0`), for every
pair of scene points `i1`, `i2` at distance at least `D_max` and every face `j`
the program contains the constraint `f[i1,j] + f[i2,j] <= 1`, so no feasible
point assigns both points to face `j`; and the loop adds nothing for a point
paired with itself, so no constraint `f[k,j] + f[k,j] <= 1` is among the
same-face constraints. -/
theorem formulationA_same_face_gate (ext : External) (est : Estimator)
    (scene_pts : List Vec3) (P : Prog) (est1 : Estimator)
    (hbuild : buildFormulationA ext est scene_pts = .ok (P, est1))
    (hD : 0 < maxDistToSameFace ext est (buildFB est).1)
    (hnorm0 : ext.norm (fun _ => 0) = 0)
    (i1 i2 j : Nat) (hi1 : i1 < scene_pts.length) (hi2 : i2 < scene_pts.length)
    (hj : j < est.all_faces_.length)
    (hdist : ext.norm (vsub (col scene_pts i1) (col scene_pts i2))
      ≥ maxDistToSameFace ext est (buildFB est).1) :
    Constraint.le (LinExpr.add (LinExpr.var (.f i1 j)) (LinExpr.var (.f i2 j))) (LinExpr.cst 1)
      ∈ P.constraints ∧
    (∀ σ, P.Feasible σ → ¬ (σ (.f i1 j) = 1 ∧ σ (.f i2 j) = 1)) ∧
    (∀ k j2 : Nat,
      sameFacePair ext scene_pts est.all_faces_.length
        (maxDistToSameFace ext est (buildFB est).1) k k = [] ∧
      Constraint.le (LinExpr.add (LinExpr.var (.f k j2)) (LinExpr.var (.f k j2))) (LinExpr.cst 1)
        ∉ sameFaceConstraints ext scene_pts est.all_faces_.length
            (maxDistToSameFace ext est (buildFB est).1)) := by
  obtain ⟨tfCons, -, rfl⟩ := buildFormulationA_ok hbuild
  have hmem : Constraint.le (LinExpr.add (LinExpr.var (.f i1 j)) (LinExpr.var (.f i2 j)))
      (LinExpr.cst 1) ∈ (programA ext est scene_pts tfCons).constraints := by
    apply sameFace_mem ext est scene_pts tfCons hD
    simp only [sameFaceConstraints, List.mem_flatMap, List.mem_range]
    refine ⟨i1, hi1, i2, hi2, ?_⟩
    simp only [sameFacePair, if_pos hdist, List.mem_map, List.mem_range]
    exact ⟨j, hj, rfl⟩
  have hself : ∀ k : Nat, sameFacePair ext scene_pts est.all_faces_.length
      (maxDistToSameFace ext est (buildFB est).1) k k = [] := by
    intro k
    have : ¬ (ext.norm (vsub (col scene_pts k) (col scene_pts k))
        ≥ maxDistToSameFace ext est (buildFB est).1) := by
      rw [vsub_self, hnorm0]
      exact not_le.mpr hD
    simp only [sameFacePair, if_neg this]
  refine ⟨hmem, ?_, ?_⟩
  · intro σ hσ hboth
    have := hσ.1 _ hmem
    simp only [Constraint.holds, LinExpr.eval_add, LinExpr.eval_var, LinExpr.eval_cst,
      hboth.1, hboth.2] at this
    norm_num at this
  · intro k j2
    refine ⟨hself k, ?_⟩
    intro hin
    simp only [sameFaceConstraints, List.mem_flatMap, List.mem_range] at hin
    obtain ⟨k1, -, k2, -, hc⟩ := hin
    by_cases hcond : ext.norm (vsub (col scene_pts k1) (col scene_pts k2))
        ≥ maxDistToSameFace ext est (buildFB est).1
    · simp only [sameFacePair, if_pos hcond, List.mem_map, List.mem_range] at hc
      obtain ⟨j3, -, heq⟩ := hc
      simp only [LinExpr.add, LinExpr.var, Constraint.le.injEq, LinExpr.mk.injEq,
        List.cons_append, List.nil_append, List.cons.injEq, Prod.mk.injEq, Var.f.injEq] at heq
      obtain ⟨⟨⟨⟨-, hk1, -⟩, ⟨-, hk2, -⟩, -⟩, -⟩, -⟩ := heq
      subst hk1 hk2
      rw [vsub_self, hnorm0] at hcond
      exact absurd hcond (not_le.mpr hD)
    · simp only [sameFacePair, if_neg hcond, List.not_mem_nil] at hc

/-- Witness for C4: eleven points on a line, 5 apart, with the gate at distance 5;
the instance has a feasible point. -/
theorem formulationA_same_face_gate_witness :
    FeasibleA triExt gateEst gatePts gateSigma ∧
    ∃ P est1, buildFormulationA triExt gateEst gatePts = .ok (P, est1) ∧
      Constraint.le (LinExpr.add (LinExpr.var (.f 0 0)) (LinExpr.var (.f 1 0))) (LinExpr.cst 1)
        ∈ P.constraints ∧
      (∀ σ, P.Feasible σ → ¬ (σ (.f 0 0) = 1 ∧ σ (.f 1 0) = 1)) :=
  ⟨gateSigma_feasible, _, _, rfl,
    (formulationA_same_face_gate triExt gateEst gatePts _ _ rfl (by decide!) (by decide!)
      0 1 0 (by decide) (by decide) (by decide) (by decide!)).1,
    (formulationA_same_face_gate triExt gateEst gatePts _ _ rfl (by decide!) (by decide!)
      0 1 0 (by decide) (by decide) (by decide) (by decide!)).2.1⟩

/-! ## C5: the correspondences that are listed -/

theorem foldlM_option_some {α β : Type} (l : List α) (f : β → α → Option β) (g : β → α → β)
    (h : ∀ b, ∀ a ∈ l, f b a = some (g b a)) (b0 : β) :
    l.foldlM f b0 = some (l.foldl g b0) := by
  induction l generalizing b0 with
  | nil => rfl
  | cons x xs ih =>
    rw [List.foldlM_cons, h b0 x (List.mem_cons_self _ _)]
    exact ih (fun b a ha => h b a (List.mem_cons_of_mem _ ha)) (g b0 x)

theorem foldl_append_flatMap {α β : Type} (l : List α) (g : α → List β) (acc : List β) :
    l.foldl (fun acc a => acc ++ g a) acc = acc ++ l.flatMap g := by
  induction l generalizing acc with
  | nil => simp
  | cons x xs ih => simp [ih, List.flatMap_cons]

theorem flatMap_ite_singleton_map {α β γ : Type} (l : List α) (p : α → Prop) [DecidablePred p]
    (c : α → β) (h : β → γ) :
    (l.flatMap (fun j => if p j then [c j] else [])).map h
      = (l.filter (fun j => decide (p j))).map (fun j => h (c j)) := by
  induction l with
  | nil => rfl
  | cons x xs ih =>
    rw [List.flatMap_cons, List.map_append, ih]
    by_cases hp : p x
    · simp [hp]
    · simp [hp]

/-- The (scene index, face index) pairs of the correspondences built for a body
are the pairs the specification lists. -/
theorem correspondencesFor_pairs (est : Estimator) (scene_pts : List Vec3) (f_est C_est : Mat)
    (est_tf : Affine3) (body_i : Nat) :
    (correspondencesFor est scene_pts f_est C_est est_tf body_i).map
        (fun c => (c.scene_ind, c.face_ind))
      = specPairs est scene_pts.length f_est body_i := by
  unfold correspondencesFor specPairs
  rw [List.map_flatMap]
  congr 1
  funext scene_i
  exact flatMap_ite_singleton_map (List.range f_est.cols)
    (fun face_i => f_est.data scene_i face_i > 1 / 2 ∧ est.B_.data (body_i - 1) face_i > 1 / 2)
    (fun face_i : Nat =>
      ({ scene_pt := col scene_pts scene_i
         model_pt := est_tf.apply (col scene_pts scene_i)
         scene_ind := scene_i
         face_ind := face_i
         model_verts := (vertexWeights est.all_vertices_ C_est scene_i).map (fun t => t.1)
         vert_weights := (vertexWeights est.all_vertices_ C_est scene_i).map (fun t => t.2.1)
         vert_inds := (vertexWeights est.all_vertices_ C_est scene_i).map (fun t => t.2.2) } :
        PointCorrespondence))
    (fun c : PointCorrespondence => (c.scene_ind, c.face_ind))

theorem mem_specPairs (est : Estimator) (Ns : Nat) (f_est : Mat) (body_i i j : Nat) :
    (i, j) ∈ specPairs est Ns f_est body_i
      ↔ i < Ns ∧ j < f_est.cols ∧ f_est.data i j > 1 / 2 ∧ est.B_.data (body_i - 1) j > 1 / 2 := by
  simp only [specPairs, List.mem_flatMap, List.mem_range, List.mem_map, List.mem_filter,
    decide_eq_true_eq, Prod.mk.injEq]
  constructor
  · rintro ⟨a, ha, b, ⟨hb, hcond⟩, rfl, rfl⟩
    exact ⟨ha, hb, hcond⟩
  · rintro ⟨hi, hj, hcond⟩
    exact ⟨i, hi, j, ⟨hj, hcond⟩, rfl, rfl⟩

theorem specPairs_sorted (est : Estimator) (Ns : Nat) (f_est : Mat) (body_i : Nat) :
    (specPairs est Ns f_est body_i).Pairwise
      (fun p q => p.1 < q.1 ∨ (p.1 = q.1 ∧ p.2 < q.2)) := by
  unfold specPairs
  rw [List.pairwise_flatMap]
  constructor
  · intro i _
    rw [List.pairwise_map]
    exact ((List.pairwise_lt_range f_est.cols).filter _).imp (fun h => Or.inr ⟨rfl, h⟩)
  · refine (List.pairwise_lt_range Ns).imp ?_
    intro a b hab x hx y hy
    simp only [List.mem_map] at hx hy
    obtain ⟨_, _, rfl⟩ := hx
    obtain ⟨_, _, rfl⟩ := hy
    exact Or.inl hab

theorem bodyFit_eq_fitOf (lib : RotationLib) (est : Estimator) (res : SolveResult)
    (hok : res.sol_good = true ∨ est.numBodies - 1 ≤ est.tfs_incumbent_.length)
    {body_i : Nat} (hb : body_i ∈ List.range' 1 (est.numBodies - 1)) :
    bodyFit lib est res body_i = some (fitOf lib est res body_i) := by
  unfold bodyFit fitOf
  rcases hok with hg | hlen
  · simp [hg]
  · by_cases hg : res.sol_good = true
    · simp [hg]
    · have hlt : body_i - 1 < est.tfs_incumbent_.length := by
        rw [List.mem_range'] at hb
        obtain ⟨i, hi, rfl⟩ := hb
        omega
      simp only [hg, if_false, Bool.false_eq_true]
      rw [List.getD_eq_getElem?_getD, List.getElem?_eq_getElem hlt]
      rfl

/-- With the reads of `tfs_incumbent_` in range, the body loop of the extraction
returns the estimates of the bodies that have correspondences, in body order. -/
theorem extract_fold (lib : RotationLib) (est : Estimator) (scene_pts : List Vec3)
    (res : SolveResult) (f_est C_est : Mat)
    (hok : res.sol_good = true ∨ est.numBodies - 1 ≤ est.tfs_incumbent_.length) :
    (List.range' 1 (est.numBodies - 1)).foldlM
        (extractBody lib est scene_pts res f_est C_est) []
      = some ((List.range' 1 (est.numBodies - 1)).flatMap (fun body_i =>
          if (newEstimate est scene_pts f_est C_est (fitOf lib est res body_i)
                body_i).correspondences.length > 0
          then [newEstimate est scene_pts f_est C_est (fitOf lib est res body_i) body_i]
          else [])) := by
  rw [foldlM_option_some _ _
    (fun acc body_i => acc ++
      (if (newEstimate est scene_pts f_est C_est (fitOf lib est res body_i)
            body_i).correspondences.length > 0
       then [newEstimate est scene_pts f_est C_est (fitOf lib est res body_i) body_i]
       else []))]
  · rw [foldl_append_flatMap, List.nil_append]
  · intro acc body_i hb
    unfold extractBody
    rw [bodyFit_eq_fitOf lib est res hok hb]
    by_cases hc : (newEstimate est scene_pts f_est C_est (fitOf lib est res body_i)
        body_i).correspondences.length > 0
    · simp [hc]
    · simp [hc]

theorem newEstimate_pairs (est : Estimator) (scene_pts : List Vec3) (f_est C_est : Mat)
    (TR : Vec3 × Mat3) (body_i : Nat) :
    (newEstimate est scene_pts f_est C_est TR body_i).correspondences.map
        (fun c => (c.scene_ind, c.face_ind))
      = specPairs est scene_pts.length f_est body_i := by
  unfold newEstimate
  exact correspondencesFor_pairs est scene_pts f_est C_est _ body_i

/-- With the reads of `tfs_incumbent_` in range, the extraction returns exactly
one solution, spelled out here. -/
theorem extractSolutionA_eq (lib : RotationLib) (est : Estimator) (scene_pts : List Vec3)
    (res : SolveResult)
    (hok : res.sol_good = true ∨ est.numBodies - 1 ≤ est.tfs_incumbent_.length) :
    extractSolutionA lib est scene_pts res
      = some [{ pose_estimates := (List.range' 1 (est.numBodies - 1)).flatMap (fun body_i =>
                  if (newEstimate est scene_pts (if res.sol_good then res.f else est.f_incumbent_)
                        (if res.sol_good then res.C else est.C_incumbent_)
                        (fitOf lib est res body_i) body_i).correspondences.length > 0
                  then [newEstimate est scene_pts
                        (if res.sol_good then res.f else est.f_incumbent_)
                        (if res.sol_good then res.C else est.C_incumbent_)
                        (fitOf lib est res body_i) body_i]
                  else [])
                objective := if res.sol_good then (res.optimal_cost : WithTop ℚ)
                             else est.best_sol_objective_yet_
                lower_bound := res.lower_bound
                solve_time := res.elapsed }] := by
  unfold extractSolutionA
  simp only [extract_fold lib est scene_pts res _ _ hok]

/-- C5: in formulation A's solution extraction (with every read of the incumbent
transforms in range), one solution is returned; its pose estimates are, in body
order, those of the bodies `b` that have at least one pair, and the
correspondences listed for `b` record, in order, exactly the pairs
(scene point `i`, face `j`) with `f_est[i,j] > 0.5` and `Bm[b,j] > 0.5`,
sorted by `i` then `j`; a body with no such pair is left out. -/
theorem extractSolutionA_correspondences (lib : RotationLib) (est : Estimator)
    (scene_pts : List Vec3) (res : SolveResult)
    (hok : res.sol_good = true ∨ est.numBodies - 1 ≤ est.tfs_incumbent_.length) :
    ∃ sol, extractSolutionA lib est scene_pts res = some [sol] ∧
      sol.pose_estimates.map
          (fun e => (e.obj_ind, e.correspondences.map (fun c => (c.scene_ind, c.face_ind))))
        = ((List.range' 1 (est.numBodies - 1)).map (fun b =>
            (b, specPairs est scene_pts.length
                  (if res.sol_good then res.f else est.f_incumbent_) b))).filter
            (fun p => !p.2.isEmpty) ∧
      (∀ b i j, (i, j) ∈ specPairs est scene_pts.length
            (if res.sol_good then res.f else est.f_incumbent_) b
          ↔ i < scene_pts.length ∧ j < (if res.sol_good then res.f else est.f_incumbent_).cols
            ∧ (if res.sol_good then res.f else est.f_incumbent_).data i j > 1 / 2
            ∧ est.B_.data (b - 1) j > 1 / 2) ∧
      (∀ b, (specPairs est scene_pts.length
            (if res.sol_good then res.f else est.f_incumbent_) b).Pairwise
          (fun p q => p.1 < q.1 ∨ (p.1 = q.1 ∧ p.2 < q.2))) := by
  refine ⟨_, extractSolutionA_eq lib est scene_pts res hok, ?_,
    fun b i j => mem_specPairs est _ _ b i j, fun b => specPairs_sorted est _ _ b⟩
  · simp only
    induction (List.range' 1 (est.numBodies - 1)) with
    | nil => rfl
    | cons b bs ih =>
      rw [List.flatMap_cons, List.map_append, ih, List.map_cons, List.filter_cons]
      have hlen : (newEstimate est scene_pts (if res.sol_good then res.f else est.f_incumbent_)
          (if res.sol_good then res.C else est.C_incumbent_) (fitOf lib est res b)
          b).correspondences.length
          = (specPairs est scene_pts.length
              (if res.sol_good then res.f else est.f_incumbent_) b).length := by
        rw [← newEstimate_pairs est scene_pts _
          (if res.sol_good then res.C else est.C_incumbent_) (fitOf lib est res b) b,
          List.length_map]
      by_cases hc : (specPairs est scene_pts.length
          (if res.sol_good then res.f else est.f_incumbent_) b).length > 0
      · have hne : (specPairs est scene_pts.length
            (if res.sol_good then res.f else est.f_incumbent_) b).isEmpty = false := by
          cases hsp : specPairs est scene_pts.length
            (if res.sol_good then res.f else est.f_incumbent_) b with
          | nil => rw [hsp] at hc; simp at hc
          | cons _ _ => rfl
        rw [if_pos (by rw [hlen]; exact hc)]
        simp only [hne, Bool.not_false, if_true, List.map_cons, List.map_nil,
          List.singleton_append, newEstimate_pairs]
        rfl
      · have he : (specPairs est scene_pts.length
            (if res.sol_good then res.f else est.f_incumbent_) b).isEmpty = true := by
          cases hsp : specPairs est scene_pts.length
            (if res.sol_good then res.f else est.f_incumbent_) b with
          | nil => rfl
          | cons _ _ => rw [hsp] at hc; simp at hc
        rw [if_neg (by rw [hlen]; exact hc)]
        simp [he]

/-! ## Rigid transforms -/

theorem Mat3.inv3_mul (A : Mat3) (hd : A.det3 ≠ 0) : A.inv3.mul3 A = Mat3.id3 := by
  funext r c
  fin_cases r <;> fin_cases c <;>
    simp [Mat3.mul3, Mat3.inv3, Mat3.adj3, Mat3.id3] <;>
    field_simp <;> (try simp only [Mat3.det3]) <;> ring

theorem Mat3.mul_inv3 (A : Mat3) (hd : A.det3 ≠ 0) : A.mul3 A.inv3 = Mat3.id3 := by
  funext r c
  fin_cases r <;> fin_cases c <;>
    simp [Mat3.mul3, Mat3.inv3, Mat3.adj3, Mat3.id3] <;>
    field_simp <;> (try simp only [Mat3.det3]) <;> ring

theorem Mat3.mulVec3_mul3 (A B : Mat3) (v : Vec3) :
    (A.mul3 B).mulVec3 v = A.mulVec3 (B.mulVec3 v) := by
  funext k
  simp only [Mat3.mulVec3, Mat3.mul3]
  ring

theorem Mat3.id3_mulVec3 (v : Vec3) : Mat3.id3.mulVec3 v = v := by
  funext k
  fin_cases k <;> simp [Mat3.mulVec3, Mat3.id3]

/-- The affine inverse composed with the transform is the identity, on either
side, when the linear part is invertible. -/
theorem Affine3.inverse_comp (tf : Affine3) (hd : tf.linear.det3 ≠ 0) :
    tf.inverse.comp tf = Affine3.identity ∧ tf.comp tf.inverse = Affine3.identity := by
  constructor
  · unfold Affine3.comp Affine3.inverse Affine3.identity
    simp only [Mat3.inv3_mul tf.linear hd]
    congr 1
    funext k
    ring
  · unfold Affine3.comp Affine3.inverse Affine3.identity
    simp only [Mat3.mul_inv3 tf.linear hd]
    congr 1
    funext k
    have h := congrFun (Mat3.mulVec3_mul3 tf.linear tf.linear.inv3 tf.translation) k
    rw [Mat3.mul_inv3 tf.linear hd, Mat3.id3_mulVec3] at h
    have hneg : tf.linear.mulVec3 (fun k => -tf.linear.inv3.mulVec3 tf.translation k) k
        = - tf.linear.mulVec3 (tf.linear.inv3.mulVec3 tf.translation) k := by
      simp only [Mat3.mulVec3]
      ring
    rw [hneg, ← h]
    ring

/-! ## Reconstruction of the generalized coordinates in the callbacks -/

theorem foldlM_except_ok {α β : Type} (l : List α) (f : β → α → Except String β)
    (g : β → α → β) (h : ∀ b, ∀ a ∈ l, f b a = .ok (g b a)) (b0 : β) :
    l.foldlM f b0 = .ok (l.foldl g b0) := by
  induction l generalizing b0 with
  | nil => rfl
  | cons x xs ih =>
    rw [List.foldlM_cons, h b0 x (List.mem_cons_self _ _)]
    exact ih (fun b a ha => h b a (List.mem_cons_of_mem _ ha)) (g b0 x)

theorem setBlock3_length (q : List ℚ) (off : Nat) (v : Vec3) :
    (setBlock3 q off v).length = q.length := by
  simp [setBlock3]

theorem setBlock3_getD_in (q : List ℚ) (off : Nat) (v : Vec3) (h : off + 3 ≤ q.length)
    (k : Fin 3) : (setBlock3 q off v).getD (off + k.val) 0 = v k := by
  have h0 : off < q.length := by omega
  have h1 : off + 1 < q.length := by omega
  have h2 : off + 2 < q.length := by omega
  fin_cases k <;>
    simp [setBlock3, List.getD_eq_getElem?_getD, List.getElem?_set, h0, h1, h2]

theorem setBlock3_getD_out (q : List ℚ) (off : Nat) (v : Vec3) (j : Nat)
    (h : j < off ∨ off + 3 ≤ j) : (setBlock3 q off v).getD j 0 = q.getD j 0 := by
  have e0 : ¬ off = j := by omega
  have e1 : ¬ off + 1 = j := by omega
  have e2 : ¬ off + 2 = j := by omega
  simp [setBlock3, List.getD_eq_getElem?_getD, List.getElem?_set, e0, e1, e2]

theorem writeBody_length (lib : RotationLib) (dt : String) (vals : SolverValues)
    (q : List ℚ) (b : Nat) : (writeBody lib dt vals q b).length = q.length := by
  simp [writeBody, setBlock3_length]

theorem writeBody_translation (lib : RotationLib) (dt : String) (vals : SolverValues)
    (q : List ℚ) (b : Nat) (h : 6 * b + 6 ≤ q.length) (k : Fin 3) :
    (writeBody lib dt vals q b).getD (6 * b + k.val) 0
      = (callbackTransform dt vals b).translation k := by
  unfold writeBody
  rw [setBlock3_getD_out _ _ _ _ (Or.inl (by have := k.isLt; omega))]
  exact setBlock3_getD_in q (6 * b) _ (by omega) k

theorem writeBody_rpy (lib : RotationLib) (dt : String) (vals : SolverValues)
    (q : List ℚ) (b : Nat) (h : 6 * b + 6 ≤ q.length) (k : Fin 3) :
    (writeBody lib dt vals q b).getD (6 * b + 3 + k.val) 0
      = lib.rotmat2rpy (lib.rotation (callbackTransform dt vals b)) k := by
  unfold writeBody
  exact setBlock3_getD_in _ (6 * b + 3) _ (by rw [setBlock3_length]; omega) k

theorem writeBody_other (lib : RotationLib) (dt : String) (vals : SolverValues)
    (q : List ℚ) (b j : Nat) (h : j < 6 * b ∨ 6 * b + 6 ≤ j) :
    (writeBody lib dt vals q b).getD j 0 = q.getD j 0 := by
  unfold writeBody
  rw [setBlock3_getD_out _ _ _ _ (by omega), setBlock3_getD_out _ _ _ _ (by omega)]

/-- After the body loop has run over bodies `0 .. n-1`, the block of every such
body holds its translation and roll/pitch/yaw. -/
theorem writeBody_fold (lib : RotationLib) (dt : String) (vals : SolverValues)
    (q0 : List ℚ) (n : Nat) :
    ((List.range n).foldl (writeBody lib dt vals) q0).length = q0.length ∧
    ∀ b < n, 6 * b + 6 ≤ q0.length → ∀ k : Fin 3,
      ((List.range n).foldl (writeBody lib dt vals) q0).getD (6 * b + k.val) 0
          = (callbackTransform dt vals b).translation k ∧
      ((List.range n).foldl (writeBody lib dt vals) q0).getD (6 * b + 3 + k.val) 0
          = lib.rotmat2rpy (lib.rotation (callbackTransform dt vals b)) k := by
  induction n with
  | zero => exact ⟨rfl, fun b hb => absurd hb (Nat.not_lt_zero b)⟩
  | succ n ih =>
    rw [List.range_succ, List.foldl_append]
    simp only [List.foldl_cons, List.foldl_nil]
    obtain ⟨hlen, hent⟩ := ih
    refine ⟨by rw [writeBody_length, hlen], ?_⟩
    intro b hb hfit k
    by_cases hbn : b = n
    · subst hbn
      exact ⟨writeBody_translation lib dt vals _ b (by rw [hlen]; exact hfit) k,
        writeBody_rpy lib dt vals _ b (by rw [hlen]; exact hfit) k⟩
    · have hlt : b < n := by omega
      have hk := k.isLt
      rw [writeBody_other lib dt vals _ n _ (Or.inl (by omega)),
        writeBody_other lib dt vals _ n _ (Or.inl (by omega))]
      exact hent b hlt hfit k

/-- Storing the transform of body `b` at position `b` for every body fills the
preallocated vector with the transforms in body order. -/
theorem setTfs_fold (g : Nat → Affine3) (nb n : Nat) (hn : n ≤ nb) :
    ((List.range n).foldl (fun (t : List Affine3) b => t.set b (g b))
        (List.replicate nb Affine3.identity)).length = nb ∧
    ∀ b < nb, ((List.range n).foldl (fun (t : List Affine3) b => t.set b (g b))
        (List.replicate nb Affine3.identity))[b]?
      = some (if b < n then g b else Affine3.identity) := by
  induction n with
  | zero =>
    refine ⟨by simp, fun b hb => ?_⟩
    simp [List.getElem?_replicate, hb]
  | succ n ih =>
    rw [List.range_succ, List.foldl_append]
    simp only [List.foldl_cons, List.foldl_nil]
    obtain ⟨hlen, hent⟩ := ih (by omega)
    refine ⟨by rw [List.length_set, hlen], fun b hb => ?_⟩
    rw [List.getElem?_set, hlen]
    by_cases hbn : n = b
    · subst hbn
      simp [hb]
    · have : (b < n + 1) ↔ (b < n) := by omega
      simp only [hbn, if_false, hent b hb, this]

theorem setTfs_fold_eq (g : Nat → Affine3) (nb : Nat) :
    (List.range nb).foldl (fun (t : List Affine3) b => t.set b (g b))
        (List.replicate nb Affine3.identity) = (List.range nb).map g := by
  obtain ⟨hlen, hent⟩ := setTfs_fold g nb nb le_rfl
  apply List.ext_getElem?
  intro b
  by_cases hb : b < nb
  · rw [hent b hb, if_pos hb]
    simp [hb]
  · rw [List.getElem?_eq_none (by rw [hlen]; omega), List.getElem?_eq_none (by simp; omega)]

theorem fold_pair_split {α β γ : Type} (l : List γ) (f : α → γ → α) (g : β → γ → β)
    (a : α) (b : β) :
    l.foldl (fun (p : α × β) c => (f p.1 c, g p.2 c)) (a, b) = (l.foldl f a, l.foldl g b) := by
  induction l generalizing a b with
  | nil => rfl
  | cons x xs ih => simp only [List.foldl_cons, ih]

/-- With a scalar detector type the solution callback's reconstruction succeeds,
with `q_robot` the fold of the block writes and `tfs` the transforms in body order. -/
theorem solReconstruct_scalar (lib : RotationLib) (est : Estimator) (vals : SolverValues)
    {dt : String} (hdt : est.detector_type = .scalar dt) :
    solReconstruct lib est vals
      = .ok ((List.range (est.numBodies - 1)).foldl (writeBody lib dt vals)
              (List.replicate est.numPositions 0),
            (List.range (est.numBodies - 1)).map (callbackTransform dt vals)) := by
  unfold solReconstruct
  rw [foldlM_except_ok _ _
    (fun (p : List ℚ × List Affine3) b =>
      (writeBody lib dt vals p.1 b, p.2.set b (callbackTransform dt vals b)))]
  · rw [fold_pair_split (List.range (est.numBodies - 1)) (writeBody lib dt vals)
      (fun (t : List Affine3) b => t.set b (callbackTransform dt vals b)), setTfs_fold_eq]
  · intro acc b _
    simp only [solBodyStep, hdt, YamlNode.asString, writeBody]
    rfl

theorem nodeReconstruct_scalar (lib : RotationLib) (est : Estimator) (vals : SolverValues)
    {dt : String} (hdt : est.detector_type = .scalar dt) :
    nodeReconstruct lib est vals
      = .ok ((List.range (est.numBodies - 1)).foldl (writeBody lib dt vals)
              (List.replicate est.numPositions 0)) := by
  unfold nodeReconstruct
  rw [foldlM_except_ok _ _ (fun (q : List ℚ) b => writeBody lib dt vals q b)]
  intro acc b _
  simp only [nodeBodyStep, hdt, YamlNode.asString, writeBody]
  rfl

theorem publishSol_fields (est : Estimator) (q : List ℚ) (now : ℚ) :
    (publishSol est q now).detector_type = est.detector_type ∧
    (publishSol est q now).numBodies = est.numBodies ∧
    (publishSol est q now).numPositions = est.numPositions ∧
    (publishSol est q now).best_sol_objective_yet_ = est.best_sol_objective_yet_ ∧
    (publishSol est q now).q_incumbent_ = est.q_incumbent_ ∧
    (publishSol est q now).C_incumbent_ = est.C_incumbent_ ∧
    (publishSol est q now).f_incumbent_ = est.f_incumbent_ ∧
    (publishSol est q now).tfs_incumbent_ = est.tfs_incumbent_ := by
  unfold publishSol
  split <;> exact ⟨rfl, rfl, rfl, rfl, rfl, rfl, rfl, rfl⟩

theorem pushSeed_fields (est : Estimator) (q : List ℚ) :
    (pushSeed est q).detector_type = est.detector_type ∧
    (pushSeed est q).numBodies = est.numBodies ∧
    (pushSeed est q).numPositions = est.numPositions ∧
    (pushSeed est q).best_sol_objective_yet_ = est.best_sol_objective_yet_ ∧
    (pushSeed est q).q_incumbent_ = est.q_incumbent_ ∧
    (pushSeed est q).C_incumbent_ = est.C_incumbent_ ∧
    (pushSeed est q).f_incumbent_ = est.f_incumbent_ ∧
    (pushSeed est q).tfs_incumbent_ = est.tfs_incumbent_ := by
  unfold pushSeed
  split <;> exact ⟨rfl, rfl, rfl, rfl, rfl, rfl, rfl, rfl⟩

theorem recordHistory_fields (est : Estimator) (info : SolveStatusInfo) (now : ℚ) :
    (recordHistory est info now).detector_type = est.detector_type ∧
    (recordHistory est info now).numBodies = est.numBodies ∧
    (recordHistory est info now).numPositions = est.numPositions ∧
    (recordHistory est info now).best_sol_objective_yet_ = est.best_sol_objective_yet_ ∧
    (recordHistory est info now).q_incumbent_ = est.q_incumbent_ ∧
    (recordHistory est info now).C_incumbent_ = est.C_incumbent_ ∧
    (recordHistory est info now).f_incumbent_ = est.f_incumbent_ ∧
    (recordHistory est info now).tfs_incumbent_ = est.tfs_incumbent_ :=
  ⟨rfl, rfl, rfl, rfl, rfl, rfl, rfl, rfl⟩

theorem updateIncumbent_spec (e : Estimator) (vals : SolverValues) (info : SolveStatusInfo)
    (q : List ℚ) (tfs : List Affine3) {dt : String} (hdt : e.detector_type = .scalar dt) :
    ∃ e2, updateIncumbent e vals info q tfs = .ok e2 ∧
      e2.detector_type = e.detector_type ∧ e2.numBodies = e.numBodies ∧
      e2.numPositions = e.numPositions ∧
      ((info.current_objective : WithTop ℚ) < e.best_sol_objective_yet_ →
        e2.best_sol_objective_yet_ = (info.current_objective : WithTop ℚ) ∧
        e2.q_incumbent_ = q ∧ e2.C_incumbent_ = vals.C ∧
        e2.f_incumbent_ = (if dt = "world_to_body_transforms" then vals.f else e.f_incumbent_) ∧
        e2.tfs_incumbent_ = tfs) ∧
      (¬ (info.current_objective : WithTop ℚ) < e.best_sol_objective_yet_ → e2 = e) := by
  have has : e.detector_type.asString = .ok dt := by rw [hdt]; rfl
  unfold updateIncumbent
  by_cases himp : (info.current_objective : WithTop ℚ) < e.best_sol_objective_yet_
  · rw [if_pos himp, has]
    exact ⟨_, rfl, rfl, rfl, rfl, fun _ => ⟨rfl, rfl, rfl, rfl, rfl⟩, fun hn => absurd himp hn⟩
  · rw [if_neg himp]
    exact ⟨_, rfl, rfl, rfl, rfl, fun h => absurd h himp, fun _ => rfl⟩

/-- What one invocation of the solution callback does to the incumbent, for a
scalar detector type. -/
theorem solCallback_spec (lib : RotationLib) (est : Estimator) (vals : SolverValues)
    (info : SolveStatusInfo) (now : ℚ) {dt : String} (hdt : est.detector_type = .scalar dt) :
    ∃ est1, handleMipSolCallbackFunction lib est vals info now = .ok est1 ∧
      est1.detector_type = est.detector_type ∧ est1.numBodies = est.numBodies ∧
      est1.numPositions = est.numPositions ∧
      ((info.current_objective : WithTop ℚ) < est.best_sol_objective_yet_ →
        est1.best_sol_objective_yet_ = (info.current_objective : WithTop ℚ) ∧
        est1.q_incumbent_ = (List.range (est.numBodies - 1)).foldl (writeBody lib dt vals)
            (List.replicate est.numPositions 0) ∧
        est1.C_incumbent_ = vals.C ∧
        est1.f_incumbent_
          = (if dt = "world_to_body_transforms" then vals.f else est.f_incumbent_) ∧
        est1.tfs_incumbent_ = (List.range (est.numBodies - 1)).map (callbackTransform dt vals)) ∧
      (¬ (info.current_objective : WithTop ℚ) < est.best_sol_objective_yet_ →
        est1.best_sol_objective_yet_ = est.best_sol_objective_yet_ ∧
        est1.q_incumbent_ = est.q_incumbent_ ∧
        est1.C_incumbent_ = est.C_incumbent_ ∧
        est1.f_incumbent_ = est.f_incumbent_ ∧
        est1.tfs_incumbent_ = est.tfs_incumbent_) := by
  unfold handleMipSolCallbackFunction
  rw [solReconstruct_scalar lib est vals hdt]
  simp only
  obtain ⟨p1, p2, p3, p4, p5, p6, p7, p8⟩ := publishSol_fields est
    ((List.range (est.numBodies - 1)).foldl (writeBody lib dt vals)
      (List.replicate est.numPositions 0)) now
  obtain ⟨e2, he2, u1, u2, u3, uimp, unot⟩ := updateIncumbent_spec
    (publishSol est ((List.range (est.numBodies - 1)).foldl (writeBody lib dt vals)
      (List.replicate est.numPositions 0)) now) vals info
    ((List.range (est.numBodies - 1)).foldl (writeBody lib dt vals)
      (List.replicate est.numPositions 0))
    ((List.range (est.numBodies - 1)).map (callbackTransform dt vals)) (p1.trans hdt)
  rw [he2]
  simp only
  obtain ⟨r1, r2, r3, r4, r5, r6, r7, r8⟩ := recordHistory_fields
    (pushSeed e2 ((List.range (est.numBodies - 1)).foldl (writeBody lib dt vals)
      (List.replicate est.numPositions 0))) info now
  obtain ⟨s1, s2, s3, s4, s5, s6, s7, s8⟩ := pushSeed_fields e2
    ((List.range (est.numBodies - 1)).foldl (writeBody lib dt vals)
      (List.replicate est.numPositions 0))
  refine ⟨_, rfl, ?_, ?_, ?_, ?_, ?_⟩
  · rw [r1, s1, u1, p1]
  · rw [r2, s2, u2, p2]
  · rw [r3, s3, u3, p3]
  · intro himp
    rw [← p4] at himp
    obtain ⟨a1, a2, a3, a4, a5⟩ := uimp himp
    rw [r4, s4, r5, s5, r6, s6, r7, s7, r8, s8]
    refine ⟨a1, a2, a3, ?_, a5⟩
    rw [a4, p7]
  · intro hn
    rw [← p4] at hn
    have := unot hn
    subst this
    rw [r4, s4, r5, s5, r6, s6, r7, s7, r8, s8]
    exact ⟨p4, p5, p6, p7, p8⟩

/-! ## C8: direction of the transforms in the callbacks -/

/-- C8: in both solver callbacks the per-body transform used to reconstruct the
generalized coordinates is the solver's `(R_b, T_b)` unchanged when the detector
type is `body_to_world_transforms` and its affine inverse for every other
detector type; the solution callback stores these transforms, in body order, in
`tfs_incumbent_` when it updates the incumbent; for any other detector type the
transform composed with `(R_b, T_b)` is the identity whenever `R_b` is
invertible; and the translation and roll/pitch/yaw of body `b` are written to
entries `6(b−1) .. 6(b−1)+5` of `q`. -/
theorem callbacks_transform_direction (lib : RotationLib) (est : Estimator)
    (vals : SolverValues) (dt : String) (hdt : est.detector_type = .scalar dt) :
    ∃ q tfs, solReconstruct lib est vals = .ok (q, tfs) ∧
      nodeReconstruct lib est vals = .ok q ∧
      tfs = (List.range (est.numBodies - 1)).map (callbackTransform dt vals) ∧
      (∀ b, callbackTransform dt vals b
          = if dt = "body_to_world_transforms" then Affine3.mk (vals.R b) (vals.T b)
            else (Affine3.mk (vals.R b) (vals.T b)).inverse) ∧
      (∀ b, dt ≠ "body_to_world_transforms" → (vals.R b).det3 ≠ 0 →
          (callbackTransform dt vals b).comp (Affine3.mk (vals.R b) (vals.T b))
              = Affine3.identity ∧
          (Affine3.mk (vals.R b) (vals.T b)).comp (callbackTransform dt vals b)
              = Affine3.identity) ∧
      (∀ body_i, 1 ≤ body_i → body_i < est.numBodies →
          6 * (body_i - 1) + 6 ≤ est.numPositions → ∀ k : Fin 3,
            q.getD (6 * (body_i - 1) + k.val) 0
                = (callbackTransform dt vals (body_i - 1)).translation k ∧
            q.getD (6 * (body_i - 1) + 3 + k.val) 0
                = lib.rotmat2rpy (lib.rotation (callbackTransform dt vals (body_i - 1))) k) ∧
      (∀ info now, (info.current_objective : WithTop ℚ) < est.best_sol_objective_yet_ →
          ∃ est1, handleMipSolCallbackFunction lib est vals info now = .ok est1 ∧
            est1.tfs_incumbent_ = tfs ∧ est1.q_incumbent_ = q) := by
  refine ⟨_, _, solReconstruct_scalar lib est vals hdt, nodeReconstruct_scalar lib est vals hdt,
    rfl, ?_, ?_, ?_, ?_⟩
  · intro b
    unfold callbackTransform
    by_cases h : dt = "body_to_world_transforms"
    · simp [h]
    · simp [h]
  · intro b hne hdet
    have hct : callbackTransform dt vals b = (Affine3.mk (vals.R b) (vals.T b)).inverse := by
      unfold callbackTransform
      simp [hne]
    rw [hct]
    exact Affine3.inverse_comp (Affine3.mk (vals.R b) (vals.T b)) hdet
  · intro body_i h1 hlt hfit k
    have hfold := (writeBody_fold lib dt vals (List.replicate est.numPositions 0)
      (est.numBodies - 1)).2 (body_i - 1) (by omega) (by simpa using hfit) k
    exact hfold
  · intro info now himp
    obtain ⟨est1, h1, -, -, -, hyes, -⟩ := solCallback_spec lib est vals info now hdt
    obtain ⟨-, hq, -, -, htfs⟩ := hyes himp
    exact ⟨est1, h1, htfs, hq⟩

/-- Witness for C8: the triangle estimator (world-to-body) with solver values
`R = I`, `T = (1, 2, 3)`; the first entry of `q` is the inverse translation. -/
theorem callbacks_transform_direction_witness :
    triEst.detector_type = .scalar "world_to_body_transforms" ∧
    ∃ q tfs, solReconstruct triLib triEst triVals = .ok (q, tfs) ∧
      nodeReconstruct triLib triEst triVals = .ok q ∧ q.getD 0 0 = -1 := by
  obtain ⟨q, tfs, hs, hn, -, -, -, hq, -⟩ :=
    callbacks_transform_direction triLib triEst triVals "world_to_body_transforms" rfl
  refine ⟨rfl, q, tfs, hs, hn, ?_⟩
  have h := (hq 1 (by decide) (by decide) (by decide) 0).1
  simp only [Nat.sub_self, Nat.mul_zero, Nat.zero_add, Fin.val_zero] at h
  rw [h]
  decide!

/-! ## C9: the incumbent kept by the solution callback -/

theorem runSolCallbacks_best (lib : RotationLib)
    (calls : List (SolverValues × SolveStatusInfo × ℚ)) :
    ∀ (est : Estimator) (dt : String), est.detector_type = .scalar dt →
      ∃ est2, runSolCallbacks lib est calls = .ok est2 ∧
        est2.best_sol_objective_yet_
          = calls.foldl (fun m c => min m (c.2.1.current_objective : WithTop ℚ))
              est.best_sol_objective_yet_ := by
  induction calls with
  | nil => intro est dt _; exact ⟨est, rfl, rfl⟩
  | cons c cs ih =>
    intro est dt hdt
    obtain ⟨est1, h1, hd1, -, -, hyes, hno⟩ := solCallback_spec lib est c.1 c.2.1 c.2.2 hdt
    obtain ⟨est2, h2, hbest⟩ := ih est1 dt (hd1.trans hdt)
    refine ⟨est2, ?_, ?_⟩
    · unfold runSolCallbacks at h2 ⊢
      rw [List.foldlM_cons, h1]
      exact h2
    · rw [hbest, List.foldl_cons]
      congr 1
      by_cases himp : (c.2.1.current_objective : WithTop ℚ) < est.best_sol_objective_yet_
      · rw [(hyes himp).1, min_eq_right (le_of_lt himp)]
      · rw [(hno himp).1, min_eq_left (not_lt.mp himp)]

/-- C9 (failing input): the solution callback of formulation C on a freshly
constructed estimator with one body, for every objective the solver reports and
whatever values it holds for the assignment matrix of this solve.  The
invocation improves on `+infinity`, and line 188 reads the member `C_`, which
formulation C never assigns and which is empty: the stored `C_incumbent_` is
the empty matrix, not the assignment matrix of this invocation. -/
theorem solCallback_stores_empty_C_incumbent (res : SolveResultC) (info : SolveStatusInfo)
    (now : ℚ) :
    b2wEst.best_sol_objective_yet_ = ⊤ ∧
    ∃ vals est1, callbackValuesC {} b2wEst res = .ok vals ∧
      handleMipSolCallbackFunction triLib b2wEst vals info now = .ok est1 ∧
      est1.best_sol_objective_yet_ = (info.current_objective : WithTop ℚ) ∧
      est1.C_incumbent_.rows = 0 ∧ est1.C_incumbent_.cols = 0 := by
  refine ⟨rfl, ?_⟩
  have hv : callbackValuesC {} b2wEst res
      = .ok { T := res.T, R := res.R, C := ⟨0, 0, fun _ _ => 0⟩, f := Mat.empty } := rfl
  obtain ⟨est1, h1, -, -, -, hyes, -⟩ :=
    solCallback_spec triLib b2wEst
      { T := res.T, R := res.R, C := ⟨0, 0, fun _ _ => 0⟩, f := Mat.empty } info now
      (show b2wEst.detector_type = .scalar "body_to_world_transforms" from rfl)
  have himp : ((info.current_objective : ℚ) : WithTop ℚ) < b2wEst.best_sol_objective_yet_ :=
    WithTop.coe_lt_top _
  obtain ⟨a1, -, a3, -, -⟩ := hyes himp
  exact ⟨_, est1, hv, h1, a1, by rw [a3], by rw [a3]⟩

/-! ## C10: the closest face -/

/-- Witness for C5: with a reported solution on the triangle instance, body 1
gets the single correspondence (scene point 0, face 0). -/
theorem extractSolutionA_correspondences_witness :
    (triRes.sol_good = true ∨ triEstBuilt.numBodies - 1 ≤ triEstBuilt.tfs_incumbent_.length) ∧
    ∃ sol, extractSolutionA triLib triEstBuilt triPts triRes = some [sol] ∧
      sol.pose_estimates.map
          (fun e => (e.obj_ind, e.correspondences.map (fun c => (c.scene_ind, c.face_ind))))
        = [(1, [(0, 0)])] := by
  obtain ⟨sol, hsol, hmap, -, -⟩ :=
    extractSolutionA_correspondences triLib triEstBuilt triPts triRes (Or.inl rfl)
  refine ⟨Or.inl rfl, sol, hsol, ?_⟩
  rw [hmap]
  decide!

/-- Without a reported solution and with no transform recorded by the solution
callback, the extraction reads `tfs_incumbent_[0]` of an empty vector as soon as
there is one body. -/
theorem extractSolutionA_no_incumbent (lib : RotationLib) (est : Estimator)
    (scene_pts : List Vec3) (res : SolveResult) (hbad : res.sol_good = false)
    (hnone : est.tfs_incumbent_ = []) (hbody : 2 ≤ est.numBodies) :
    extractSolutionA lib est scene_pts res = none := by
  obtain ⟨n, hn⟩ : ∃ n, est.numBodies - 1 = n + 1 := ⟨est.numBodies - 2, by omega⟩
  unfold extractSolutionA
  simp only [hn, List.range'_succ, List.foldlM_cons]
  unfold extractBody bodyFit
  simp [hbad, hnone]

/-- C6 (evaluation at the failing input): on the triangle estimator (one body),
when the solver reports no solution and the solution callback never ran, the
extraction performs an out-of-range read of `tfs_incumbent_` and returns no
solution at all, instead of a solution with objective `+infinity` and no
correspondences; so does the whole call on the newly built estimator. -/
theorem extractSolutionA_fails_without_incumbent :
    triEstBuilt.best_sol_objective_yet_ = ⊤ ∧ triEstBuilt.tfs_incumbent_ = [] ∧
    triEstBuilt.f_incumbent_.cols = 0 ∧
    extractSolutionA triLib triEstBuilt triPts triNoSolution = none ∧
    ∃ est1, doObjectPoseEstimationWithWorldToBodyFormulation triExt triLib
      (fun _ e => (triNoSolution, e)) triEst triPts = .ok (none, est1) :=
  ⟨rfl, rfl, rfl,
    extractSolutionA_no_incumbent triLib triEstBuilt triPts triNoSolution rfl rfl (by decide),
    triEstBuilt,
    congrArg (fun o => Except.ok (o, triEstBuilt))
      (extractSolutionA_no_incumbent triLib triEstBuilt triPts triNoSolution rfl rfl
        (by decide))⟩

/-- A detector type that is a string other than the three recognised ones makes
`doObjectPoseEstimation` return an empty list of solutions. -/
theorem doObjectPoseEstimation_unrecognised
    (doScenePointPreprocessing : Estimator → List Vec3 → List Vec3)
    (formulationA formulationB formulationC :
      Estimator → List Vec3 → Except String (List Solution × Estimator))
    (est : Estimator) (scene_pts_in : List Vec3) (s : String)
    (hdt : est.detector_type = .scalar s)
    (h1 : s ≠ "world_to_body_transforms")
    (h2 : s ≠ "world_to_body_transforms_with_sampled_model_points")
    (h3 : s ≠ "body_to_world_transforms") :
    doObjectPoseEstimation doScenePointPreprocessing formulationA formulationB formulationC
        est scene_pts_in = .ok ([], est) := by
  unfold doObjectPoseEstimation
  simp [hdt, YamlNode.asString, h1, h2, h3]

/-- C7 (evaluation at the failing inputs): `doObjectPoseEstimation` with a
missing detector type, or with a string that is none of the three recognised
ones, returns normally with an empty list of solutions; and the constructor
applied to a model configuration without a `models` entry completes normally,
with a tree that holds only the world body. -/
theorem configuration_errors_do_not_fail
    (doScenePointPreprocessing : Estimator → List Vec3 → List Vec3)
    (formulationA formulationB formulationC :
      Estimator → List Vec3 → Except String (List Solution × Estimator))
    (est : Estimator) (scene_pts_in : List Vec3)
    (loadUrdf : String → UrdfModel) (quat2rpy : ℚ → ℚ → ℚ → ℚ → Vec3) (config : Config) :
    doObjectPoseEstimation doScenePointPreprocessing formulationA formulationB formulationC
        { est with detector_type := .undefined } scene_pts_in
      = .ok ([], { est with detector_type := .undefined }) ∧
    doObjectPoseEstimation doScenePointPreprocessing formulationA formulationB formulationC
        { est with detector_type := .scalar "not_a_detector_type" } scene_pts_in
      = .ok ([], { est with detector_type := .scalar "not_a_detector_type" }) ∧
    ∃ e, construct loadUrdf quat2rpy config ⟨none⟩ = .ok e ∧ e.numBodies = 1 ∧
      e.all_faces_ = [] := by
  refine ⟨rfl, ?_, _, rfl, rfl, rfl⟩
  unfold doObjectPoseEstimation
  simp [YamlNode.asString]

/-! ## C14: rotation mode 2 keeps the rotation near the ground truth -/

theorem transformFold_mem (ext : External) (est : Estimator) (w2b : Bool) (l : List Nat) :
    ∀ (acc cons : List Constraint), l.foldlM (transformStep ext est w2b) acc = .ok cons →
      (∀ c ∈ acc, c ∈ cons) ∧
      ∀ b ∈ l, ∃ rc, rotationConstraints ext est w2b b = .ok rc ∧
        (∀ c ∈ rc, c ∈ cons) ∧ (∀ c ∈ ext.rotVarCons b, c ∈ cons) ∧
        ∀ k : Fin 3,
          Constraint.box (-est.optBigNumber_) (some est.optBigNumber_) (.T b k) ∈ cons := by
  induction l with
  | nil =>
    intro acc cons h
    have : acc = cons := Except.ok.inj h
    subst this
    exact ⟨fun c hc => hc, fun b hb => absurd hb (List.not_mem_nil b)⟩
  | cons x xs ih =>
    intro acc cons h
    rw [List.foldlM_cons] at h
    cases hrc : rotationConstraints ext est w2b x with
    | error e =>
      simp only [transformStep, hrc] at h
      cases h
    | ok rc =>
      have hstep : transformStep ext est w2b acc x
          = .ok (acc ++ ([0, 1, 2] : List (Fin 3)).map
              (fun k => Constraint.box (-est.optBigNumber_) (some est.optBigNumber_) (.T x k))
            ++ ext.rotVarCons x ++ rc) := by
        simp only [transformStep, hrc]
      rw [hstep] at h
      obtain ⟨hacc, htail⟩ := ih _ cons h
      refine ⟨fun c hc => hacc c (by simp [hc]), ?_⟩
      intro b hb
      rcases List.mem_cons.mp hb with rfl | hb
      · refine ⟨rc, hrc, fun c hc => hacc c (by simp [hc]),
          fun c hc => hacc c (by simp [hc]), fun k => hacc _ ?_⟩
        simp only [List.mem_append, List.mem_map]
        refine Or.inl (Or.inl (Or.inr ⟨k, ?_, rfl⟩))
        fin_cases k <;> simp
      · exact htail b hb

/-- Every body's rotation constraints are among the constraints added by
`addTransformationVarsAndConstraints`. -/
theorem addTransformation_mem {ext : External} {est : Estimator} {w2b : Bool}
    {cons : List Constraint} (h : addTransformationVarsAndConstraints ext est w2b = .ok cons)
    {b : Nat} (hb : b < est.numBodies - 1) :
    ∃ rc, rotationConstraints ext est w2b b = .ok rc ∧
      (∀ c ∈ rc, c ∈ cons) ∧ (∀ c ∈ ext.rotVarCons b, c ∈ cons) ∧
      ∀ k : Fin 3,
        Constraint.box (-est.optBigNumber_) (some est.optBigNumber_) (.T b k) ∈ cons :=
  (transformFold_mem ext est w2b _ [] cons h).2 b (List.mem_range.mpr hb)

theorem mode2_constraints {ext : External} {est : Estimator} {w2b : Bool} {b : Nat}
    (hmode : est.optRotationConstraint_ = 2) {rc : List Constraint}
    (hrc : rotationConstraints ext est w2b b = .ok rc) (r c : Fin 3) :
    Constraint.ge (LinExpr.var (.R_diff b r c))
        (LinExpr.sub (LinExpr.var (.R b r c)) (LinExpr.cst (ext.gtRot w2b b r c))) ∈ rc ∧
    Constraint.ge (LinExpr.var (.R_diff b r c))
        (LinExpr.neg (LinExpr.sub (LinExpr.var (.R b r c))
          (LinExpr.cst (ext.gtRot w2b b r c)))) ∈ rc ∧
    Constraint.le (LinExpr.add (LinExpr.var (.R_diff b 0 c))
        (LinExpr.add (LinExpr.var (.R_diff b 1 c)) (LinExpr.var (.R_diff b 2 c))))
        (LinExpr.cst est.optRotationConstraintL1Bound_) ∈ rc ∧
    Constraint.le (LinExpr.add (LinExpr.var (.R_diff b r 0))
        (LinExpr.add (LinExpr.var (.R_diff b r 1)) (LinExpr.var (.R_diff b r 2))))
        (LinExpr.cst est.optRotationConstraintL1Bound_) ∈ rc := by
  unfold rotationConstraints at hrc
  simp only [hmode] at hrc
  have hrc2 := Except.ok.inj hrc
  subst hrc2
  refine ⟨?_, ?_, ?_, ?_⟩
  · fin_cases r <;> fin_cases c <;> simp
  · fin_cases r <;> fin_cases c <;> simp
  · fin_cases c <;> simp
  · fin_cases r <;> simp

theorem le_of_three_nonneg {a b c e : ℚ} (ha : 0 ≤ a) (hb : 0 ≤ b) (hc : 0 ≤ c)
    (h : a + (b + c) ≤ e) : a ≤ e ∧ b ≤ e ∧ c ≤ e :=
  ⟨by linarith, by linarith, by linarith⟩

/-- C14: with rotation mode 2 and bound `epsilon`, every assignment satisfying
the constraints added by `addTransformationVarsAndConstraints` has, for each
body, every entry of `R_b` within `epsilon` of the corresponding entry of the
ground-truth rotation, and the L1 distance between `R_b` and the ground truth
is at most `epsilon` on every column and on every row. -/
theorem rotation_mode2_within_epsilon (ext : External) (est : Estimator) (w2b : Bool)
    (cons : List Constraint) (σ : Var → ℚ) (hmode : est.optRotationConstraint_ = 2)
    (h : addTransformationVarsAndConstraints ext est w2b = .ok cons)
    (hσ : ∀ c ∈ cons, c.holds σ) (b : Nat) (hb : b < est.numBodies - 1) :
    (∀ r c : Fin 3, |σ (.R b r c) - ext.gtRot w2b b r c| ≤ est.optRotationConstraintL1Bound_) ∧
    (∀ c : Fin 3, |σ (.R b 0 c) - ext.gtRot w2b b 0 c| + |σ (.R b 1 c) - ext.gtRot w2b b 1 c|
        + |σ (.R b 2 c) - ext.gtRot w2b b 2 c| ≤ est.optRotationConstraintL1Bound_) ∧
    (∀ r : Fin 3, |σ (.R b r 0) - ext.gtRot w2b b r 0| + |σ (.R b r 1) - ext.gtRot w2b b r 1|
        + |σ (.R b r 2) - ext.gtRot w2b b r 2| ≤ est.optRotationConstraintL1Bound_) := by
  obtain ⟨rc, hrc, hsub, -, -⟩ := addTransformation_mem h hb
  have habs : ∀ r c : Fin 3, |σ (.R b r c) - ext.gtRot w2b b r c| ≤ σ (.R_diff b r c) := by
    intro r c
    obtain ⟨m1, m2, -, -⟩ := mode2_constraints hmode hrc r c
    have h1 := hσ _ (hsub _ m1)
    have h2 := hσ _ (hsub _ m2)
    simp only [Constraint.holds, LinExpr.eval_var, LinExpr.eval_sub, LinExpr.eval_cst,
      LinExpr.eval_neg] at h1 h2
    rw [abs_le]
    constructor <;> linarith
  have hcol : ∀ c : Fin 3, σ (.R_diff b 0 c) + (σ (.R_diff b 1 c) + σ (.R_diff b 2 c))
      ≤ est.optRotationConstraintL1Bound_ := by
    intro c
    obtain ⟨-, -, m3, -⟩ := mode2_constraints hmode hrc 0 c
    have h3 := hσ _ (hsub _ m3)
    simpa only [Constraint.holds, LinExpr.eval_var, LinExpr.eval_add, LinExpr.eval_cst] using h3
  have hrow : ∀ r : Fin 3, σ (.R_diff b r 0) + (σ (.R_diff b r 1) + σ (.R_diff b r 2))
      ≤ est.optRotationConstraintL1Bound_ := by
    intro r
    obtain ⟨-, -, -, m4⟩ := mode2_constraints hmode hrc r 0
    have h4 := hσ _ (hsub _ m4)
    simpa only [Constraint.holds, LinExpr.eval_var, LinExpr.eval_add, LinExpr.eval_cst] using h4
  have hnn : ∀ r c : Fin 3, 0 ≤ σ (.R_diff b r c) :=
    fun r c => le_trans (abs_nonneg _) (habs r c)
  refine ⟨?_, ?_, ?_⟩
  · intro r c
    have hc := le_of_three_nonneg (hnn 0 c) (hnn 1 c) (hnn 2 c) (hcol c)
    have := habs r c
    fin_cases r
    · exact le_trans this hc.1
    · exact le_trans this hc.2.1
    · exact le_trans this hc.2.2
  · intro c
    have a0 := habs 0 c
    have a1 := habs 1 c
    have a2 := habs 2 c
    have := hcol c
    linarith
  · intro r
    have a0 := habs r 0
    have a1 := habs r 1
    have a2 := habs r 2
    have := hrow r
    linarith

/-- Witness for C14: the triangle estimator in mode 2 with identity ground
truth, at the identity assignment. -/
theorem rotation_mode2_within_epsilon_witness :
    mode2Est.optRotationConstraint_ = 2 ∧
    (∃ cons, addTransformationVarsAndConstraints triExt mode2Est false = .ok cons ∧
      (∀ c ∈ cons, c.holds mode2Sigma)) ∧
    ∀ r c : Fin 3, |mode2Sigma (.R 0 r c) - triExt.gtRot false 0 r c|
      ≤ mode2Est.optRotationConstraintL1Bound_ :=
  ⟨rfl, ⟨_, rfl, by decide!⟩,
    (rotation_mode2_within_epsilon triExt mode2Est false _ mode2Sigma rfl rfl (by decide!) 0
      (by decide)).1⟩
/-! ## C16: the face-membership matrix -/

theorem buildFormulationA_est {ext : External} {est : Estimator} {scene_pts : List Vec3}
    {P : Prog} {est1 : Estimator} (h : buildFormulationA ext est scene_pts = .ok (P, est1)) :
    est1 = { est with scene_pts_ := scene_pts, F_ := (buildFB est).1, B_ := (buildFB est).2,
                      alpha_ := alphaAfterPush est.alpha_,
                      optMaxDistToSameFace := maxDistToSameFace ext est (buildFB est).1 } := by
  unfold buildFormulationA at h
  cases htf : addTransformationVarsAndConstraints ext est false with
  | error e => rw [htf] at h; cases h
  | ok tfCons =>
    rw [htf] at h
    have h2 := Except.ok.inj h
    exact (congrArg Prod.snd h2).symm

theorem filter_three_length (n a b c : Nat) (ha : a < n) (hb : b < n) (hc : c < n)
    (hab : a ≠ b) (hac : a ≠ c) (hbc : b ≠ c) :
    ((List.range n).filter (fun v => decide (v = a ∨ v = b ∨ v = c))).length = 3 := by
  have hnd : ((List.range n).filter (fun v => decide (v = a ∨ v = b ∨ v = c))).Nodup :=
    (List.nodup_range n).filter _
  rw [← List.toFinset_card_of_nodup hnd]
  have : ((List.range n).filter (fun v => decide (v = a ∨ v = b ∨ v = c))).toFinset
      = {a, b, c} := by
    ext v
    simp only [List.mem_toFinset, List.mem_filter, List.mem_range, decide_eq_true_eq,
      Finset.mem_insert, Finset.mem_singleton]
    constructor
    · rintro ⟨-, h⟩; exact h
    · rintro (h | h | h) <;> subst h
      · exact ⟨ha, Or.inl rfl⟩
      · exact ⟨hb, Or.inr (Or.inl rfl)⟩
      · exact ⟨hc, Or.inr (Or.inr rfl)⟩
  rw [this]
  rw [Finset.card_insert_of_not_mem, Finset.card_insert_of_not_mem, Finset.card_singleton]
  · simpa using hbc
  · simp [hab, hac]

/-- C16: the face-membership matrix `F_` that formulation A builds has, for
every face `i` and vertex `j` of the mesh, `F_(i, j) = 1` if `j` is one of the
three vertex indices of face `i` and `0` otherwise; and when the three indices
of face `i` are valid and pairwise distinct (a triangle of the mesh), row `i`
of `F_` contains exactly three ones. -/
theorem formulationA_F_membership (ext : External) (est est1 : Estimator)
    (scene_pts : List Vec3) (P : Prog)
    (h : buildFormulationA ext est scene_pts = .ok (P, est1)) (i : Nat)
    (hi : i < est.all_faces_.length) :
    est1.F_.rows = est.all_faces_.length ∧ est1.F_.cols = est.all_vertices_.length ∧
    (∀ j, j < est.all_vertices_.length →
      est1.F_.data i j = if (est.face i).hasVertex j then 1 else 0) ∧
    ((∀ k, est.face i k < est.all_vertices_.length) →
      est.face i 0 ≠ est.face i 1 → est.face i 0 ≠ est.face i 2 → est.face i 1 ≠ est.face i 2 →
      ((List.range est1.F_.cols).filter (fun j => decide (est1.F_.data i j = 1))).length = 3) := by
  have hF : est1.F_ = (buildFB est).1 := by rw [buildFormulationA_est h]
  obtain ⟨hr, hc, -⟩ := buildFB_fold est est.all_faces_.length le_rfl _ rfl
  change (buildFB est).1.rows = _ at hr
  change (buildFB est).1.cols = _ at hc
  rw [hF]
  refine ⟨hr, hc, ?_, ?_⟩
  · intro j hj
    rw [buildFB_F_data]
    simp [hi, hj]
  · intro hrange h01 h02 h12
    rw [hc, ← filter_three_length est.all_vertices_.length _ _ _ (hrange 0) (hrange 1) (hrange 2)
      h01 h02 h12]
    congr 1
    apply List.filter_congr
    intro j hj
    rw [List.mem_range] at hj
    rw [buildFB_F_data]
    simp [hi, hj, Face.hasVertex]

/-- Witness for C16: the triangle estimator, whose only face has the vertex
indices 0, 1, 2. -/
theorem formulationA_F_membership_witness :
    (∃ P est1, buildFormulationA triExt triEst triPts = .ok (P, est1) ∧
      ((List.range est1.F_.cols).filter (fun j => decide (est1.F_.data 0 j = 1))).length = 3) :=
  ⟨_, _, rfl,
    (formulationA_F_membership triExt triEst _ triPts _ rfl 0 (by decide)).2.2.2
      (by decide) (by decide) (by decide) (by decide)⟩

/-! ## C17: the face-to-body map and the body-membership matrix -/

theorem tagStep_data (B : Mat) (t n b j : Nat) (hn : n < B.cols) :
    (if t = 0 then B else B.set (t - 1) n 1).data b j
      = if j = n ∧ b < B.rows ∧ t = b + 1 then 1 else B.data b j := by
  by_cases ht : t = 0
  · have : ¬ (j = n ∧ b < B.rows ∧ t = b + 1) := by omega
    rw [if_pos ht, if_neg this]
  · rw [if_neg ht, Mat.set_data]
    by_cases h : j = n ∧ b < B.rows ∧ t = b + 1
    · have h2 : b = t - 1 ∧ j = n ∧ t - 1 < B.rows ∧ n < B.cols := by omega
      rw [if_pos h, if_pos h2]
    · have h2 : ¬ (b = t - 1 ∧ j = n ∧ t - 1 < B.rows ∧ n < B.cols) := by omega
      rw [if_neg h, if_neg h2]

theorem tagStep_dims (B : Mat) (t n : Nat) :
    (if t = 0 then B else B.set (t - 1) n 1).rows = B.rows
      ∧ (if t = 0 then B else B.set (t - 1) n 1).cols = B.cols := by
  split
  · exact ⟨rfl, rfl⟩
  · exact ⟨Mat.set_rows _ _ _ _, Mat.set_cols _ _ _ _⟩

theorem buildFB_fold_B (est : Estimator) (n : Nat) (hn : n ≤ est.all_faces_.length) :
    ∀ FB, FB = (List.range n).foldl (buildFBStep est)
        (Mat.zeros est.all_faces_.length est.all_vertices_.length,
         Mat.zeros (est.numBodies - 1) est.all_faces_.length) →
      FB.2.rows = est.numBodies - 1 ∧ FB.2.cols = est.all_faces_.length ∧
      ∀ b j, FB.2.data b j
        = if j < n ∧ b < est.numBodies - 1 ∧ est.face_body_map_.getD j 0 = b + 1 then 1 else 0 := by
  induction n with
  | zero =>
    intro FB hFB
    subst hFB
    simp [Mat.zeros]
  | succ n ih =>
    intro FB hFB
    rw [List.range_succ, List.foldl_append] at hFB
    obtain ⟨hr, hc, hd⟩ := ih (by omega) _ rfl
    subst hFB
    simp only [List.foldl_cons, List.foldl_nil]
    generalize (List.range n).foldl (buildFBStep est)
        (Mat.zeros est.all_faces_.length est.all_vertices_.length,
         Mat.zeros (est.numBodies - 1) est.all_faces_.length) = FB0 at hr hc hd
    have hnlt : n < FB0.2.cols := by omega
    refine ⟨?_, ?_, ?_⟩
    · exact (tagStep_dims FB0.2 _ n).1.trans hr
    · exact (tagStep_dims FB0.2 _ n).2.trans hc
    · intro b j
      change (if est.face_body_map_.getD n 0 = 0 then FB0.2
        else FB0.2.set (est.face_body_map_.getD n 0 - 1) n 1).data b j = _
      rw [tagStep_data _ _ _ _ _ hnlt, hd, hr]
      by_cases hjn : j = n
      · subst hjn
        split_ifs <;> first | rfl | (exfalso; omega)
      · split_ifs <;> first | rfl | (exfalso; omega)

theorem buildFB_B_data (est : Estimator) (b j : Nat) :
    (buildFB est).2.data b j
      = if j < est.all_faces_.length ∧ b < est.numBodies - 1
          ∧ est.face_body_map_.getD j 0 = b + 1
        then 1 else 0 :=
  (buildFB_fold_B est est.all_faces_.length le_rfl _ rfl).2.2 b j

theorem buildFB_B_dims (est : Estimator) :
    (buildFB est).2.rows = est.numBodies - 1 ∧ (buildFB est).2.cols = est.all_faces_.length :=
  ⟨(buildFB_fold_B est est.all_faces_.length le_rfl _ rfl).1,
   (buildFB_fold_B est est.all_faces_.length le_rfl _ rfl).2.1⟩

theorem collectBody_tagInv (n body_i : Nat) (h1 : 1 ≤ body_i) (h2 : body_i ≤ n) (body : Body)
    (acc : List Vec3 × List Face × List Nat) (hacc : TagInv n acc) :
    TagInv n (collectBody acc body_i body) := by
  unfold collectBody
  generalize body.elements = els
  induction els generalizing acc with
  | nil => exact hacc
  | cons el els ih =>
    rw [List.foldl_cons]
    apply ih
    cases el with
    | none => exact hacc
    | some g =>
      by_cases hf : g.hasFaces
      · simp only [hf, if_true]
        refine ⟨?_, ?_⟩
        · simp [hacc.1]
        · intro t ht
          rw [List.mem_append] at ht
          rcases ht with ht | ht
          · exact hacc.2 t ht
          · obtain ⟨_, -, rfl⟩ := List.mem_map.mp ht
            exact ⟨h1, h2⟩
      · simp only [hf]
        exact hacc

theorem collectBodies_tagInv (bodies : List Body) (n : Nat) (hn : n ≤ bodies.length) :
    TagInv bodies.length
      ((List.range n).foldl
        (fun acc idx => collectBody acc (idx + 1) (bodies.getD idx ⟨[]⟩)) ([], [], [])) := by
  induction n with
  | zero => exact ⟨rfl, by simp⟩
  | succ n ih =>
    rw [List.range_succ, List.foldl_append]
    exact collectBody_tagInv _ _ (by omega) (by omega) _ _ (ih (by omega))

theorem collect_tagInv (bodies : List Body) :
    TagInv bodies.length (collectBodyMeshesFromRBT bodies ([], [], [])) :=
  collectBodies_tagInv bodies bodies.length le_rfl

theorem filter_one_length (n a : Nat) (ha : a < n) :
    ((List.range n).filter (fun v => decide (v = a))).length = 1 := by
  have hnd : ((List.range n).filter (fun v => decide (v = a))).Nodup :=
    (List.nodup_range n).filter _
  rw [← List.toFinset_card_of_nodup hnd]
  have : ((List.range n).filter (fun v => decide (v = a))).toFinset = {a} := by
    ext v
    simp only [List.mem_toFinset, List.mem_filter, List.mem_range, decide_eq_true_eq,
      Finset.mem_singleton]
    constructor
    · rintro ⟨-, h⟩; exact h
    · rintro rfl; exact ⟨ha, rfl⟩
  rw [this, Finset.card_singleton]

/-- C17: for an estimator whose mesh was aggregated by
`collectBodyMeshesFromRBT` from the `B` bodies of its tree, the face-to-body
map has one entry per face, every entry is a body index in `1..B`, the
body-membership matrix has `Bm(b - 1, f) = 1` exactly when face `f` is tagged
with body `b` (and `0` otherwise), and every column of it contains exactly one
`1`. -/
theorem collected_mesh_body_membership (bodies : List Body) (est : Estimator)
    (hmesh : (est.all_vertices_, est.all_faces_, est.face_body_map_)
      = collectBodyMeshesFromRBT bodies ([], [], []))
    (hnb : est.numBodies = bodies.length + 1) :
    est.face_body_map_.length = est.all_faces_.length ∧
    (∀ t ∈ est.face_body_map_, 1 ≤ t ∧ t ≤ bodies.length) ∧
    (buildFB est).2.rows = bodies.length ∧ (buildFB est).2.cols = est.all_faces_.length ∧
    (∀ b f, 1 ≤ b → b ≤ bodies.length → f < est.all_faces_.length →
      (buildFB est).2.data (b - 1) f = if est.face_body_map_.getD f 0 = b then 1 else 0) ∧
    (∀ f, f < est.all_faces_.length →
      ((List.range (buildFB est).2.rows).filter
        (fun r => decide ((buildFB est).2.data r f = 1))).length = 1) := by
  have hinv := collect_tagInv bodies
  rw [← hmesh] at hinv
  obtain ⟨hlen, htags⟩ := hinv
  change est.face_body_map_.length = est.all_faces_.length at hlen
  change ∀ t ∈ est.face_body_map_, 1 ≤ t ∧ t ≤ bodies.length at htags
  have hrows : (buildFB est).2.rows = bodies.length := by
    rw [(buildFB_B_dims est).1, hnb]; rfl
  refine ⟨hlen, htags, hrows, (buildFB_B_dims est).2, ?_, ?_⟩
  · intro b f hb1 hb2 hf
    rw [buildFB_B_data]
    have h1 : b - 1 < est.numBodies - 1 := by omega
    have h2 : b - 1 + 1 = b := by omega
    simp [hf, h1, h2]
  · intro f hf
    have hmem : est.face_body_map_.getD f 0 ∈ est.face_body_map_ := by
      rw [List.getD_eq_getElem _ _ (by omega)]
      exact List.getElem_mem _
    obtain ⟨ht1, ht2⟩ := htags _ hmem
    rw [hrows, ← filter_one_length bodies.length (est.face_body_map_.getD f 0 - 1) (by omega)]
    congr 1
    apply List.filter_congr
    intro r hr
    rw [List.mem_range] at hr
    rw [buildFB_B_data]
    have h3 : (f < est.all_faces_.length ∧ r < est.numBodies - 1
        ∧ est.face_body_map_.getD f 0 = r + 1) ↔ (r = est.face_body_map_.getD f 0 - 1) := by
      omega
    by_cases h4 : r = est.face_body_map_.getD f 0 - 1
    · rw [if_pos (h3.mpr h4), decide_eq_true rfl, decide_eq_true h4]
    · rw [if_neg (fun h => h4 (h3.mp h)), decide_eq_false (by norm_num : ¬ (0 : ℚ) = 1),
        decide_eq_false h4]

/-- Witness for C17: the mesh aggregated from a tree with two bodies. -/
theorem collected_mesh_body_membership_witness :
    twoBodyEst.numBodies = twoBodies.length + 1 ∧
    twoBodyEst.face_body_map_ = [1, 2, 2] ∧
    ((List.range (buildFB twoBodyEst).2.rows).filter
        (fun r => decide ((buildFB twoBodyEst).2.data r 2 = 1))).length = 1 :=
  ⟨rfl, rfl,
    (collected_mesh_body_membership twoBodies twoBodyEst rfl rfl).2.2.2.2.2 2 (by decide)⟩

/-! ## C11: one triangle and a scene point at its centroid -/

theorem buildFormulationA_of_tf {ext : External} {est : Estimator} {tfCons : List Constraint}
    (htf : addTransformationVarsAndConstraints ext est false = .ok tfCons)
    (scene_pts : List Vec3) :
    ∃ est1, buildFormulationA ext est scene_pts = .ok (programA ext est scene_pts tfCons, est1) := by
  unfold buildFormulationA
  rw [htf]
  exact ⟨_, rfl⟩

theorem maxDistToSameFace_neg (ext : External) (est : Estimator) (F : Mat)
    (h : est.optMaxDistToSameFace < 0) : ¬ maxDistToSameFace ext est F > 0 := by
  unfold maxDistToSameFace
  rw [if_neg (ne_of_lt h)]
  exact not_lt.mpr (le_of_lt h)

theorem cost_eval_one (ext : External) (est : Estimator) (s : Vec3) (tfCons : List Constraint)
    (σ : Var → ℚ) : (programA ext est [s] tfCons).cost.eval σ = σ (.phi 0) := by
  simp [programA]

theorem phi_box_mem (ext : External) (est : Estimator) (scene_pts : List Vec3)
    (tfCons : List Constraint) {i : Nat} (hi : i < scene_pts.length) :
    Constraint.box 0 none (.phi i) ∈ (programA ext est scene_pts tfCons).constraints := by
  simp only [programA, slackBoxConstraints, List.mem_append, List.mem_map, List.mem_range,
    List.mem_flatMap]
  exact Or.inl (Or.inl (Or.inl (Or.inl (Or.inl (Or.inr (Or.inl ⟨i, hi, rfl⟩))))))

theorem centroid_satisfies (ext : External) (est : Estimator) (v0 v1 v2 s : Vec3)
    (base : Var → ℚ) (tfCons : List Constraint)
    (hnb : est.numBodies = 2) (hV : est.all_vertices_ = [v0, v1, v2])
    (hF : est.all_faces_ = [![0, 1, 2]]) (hmap : est.face_body_map_ = [1])
    (hs : ∀ k, s k = (v0 k + v1 k + v2 k) / 3)
    (hgate : est.optMaxDistToSameFace < 0)
    (hadm : ∀ c ∈ tfCons, c.holds (centroidSigma base)) :
    (programA ext est [s] tfCons).SatisfiesConstraints (centroidSigma base) := by
  have hB : (buildFB est).2.data 0 0 = 1 := by
    rw [buildFB_B_data]; simp [hnb, hF, hmap]
  have hFd : ∀ j, j < 3 → (buildFB est).1.data 0 j = 1 := by
    intro j hj
    rw [buildFB_F_data]
    have : (est.face 0).hasVertex j := by
      unfold Estimator.face Face.hasVertex
      rw [hF]
      interval_cases j <;> simp
    simp [hF, hV, hj, this]
  intro c hc
  simp only [programA, List.mem_append] at hc
  rcases hc with (((((((hc | hc) | hc) | hc) | hc) | hc) | hc) | hc) | hc
  · exact hadm c hc
  · unfold noOutlierConstraints at hc
    split at hc
    · cases hc
    · rw [List.mem_singleton] at hc
      subst hc
      simp [Constraint.holds, centroidSigma]
  · unfold gateConstraints at hc
    rw [if_neg (maxDistToSameFace_neg ext est _ hgate)] at hc
    cases hc
  · simp only [slackBoxConstraints, List.mem_append, List.mem_map, List.mem_flatMap] at hc
    rcases hc with ⟨i, -, rfl⟩ | ⟨k, -, b, -, i, -, rfl⟩ <;> simp [Constraint.holds, centroidSigma]
  · simp only [List.mem_map] at hc
    obtain ⟨i, -, rfl⟩ := hc
    simp [cRowSumConstraint, Constraint.holds, centroidSigma, hV, Finset.sum_range_succ]
  · simp only [List.mem_map] at hc
    obtain ⟨i, -, rfl⟩ := hc
    simp [fRowSumConstraint, Constraint.holds, centroidSigma, hF]
  · simp only [List.mem_flatMap, List.mem_map] at hc
    obtain ⟨i, -, j, -, rfl⟩ := hc
    simp [cBoxConstraint, Constraint.holds, centroidSigma]
    norm_num
  · simp only [List.mem_flatMap, List.mem_map, List.mem_range] at hc
    obtain ⟨i, hi, j, hj, rfl⟩ := hc
    rw [hV] at hj
    have hi0 : i = 0 := by simpa using hi
    subst hi0
    simp [cFaceConstraint, Constraint.holds, centroidSigma, hF, hFd j hj]
    norm_num
  · simp only [List.mem_flatMap, List.mem_range, List.length_singleton] at hc
    obtain ⟨i, hi, hc⟩ := hc
    have hi0 : i = 0 := by omega
    subst hi0
    simp only [residualConstraints, hnb, List.mem_append, List.mem_singleton, List.mem_flatMap,
      List.mem_range] at hc
    rcases hc with rfl | ⟨b, hb, k, -, hc⟩
    · simp [Constraint.holds, centroidSigma]
    · have hb0 : b = 0 := by omega
      subst hb0
      have hres : residual est (centroidSigma base) (col [s] 0) 0 0 k = 0 := by
        simp [residual, Mat3.mulVec3, centroidSigma, hV, col, Finset.sum_range_succ, hs]
        fin_cases k <;> simp <;> ring
      have hsel : (selector est.optBigNumber_ (buildFB est).2 est.all_faces_.length 0 0).eval
          (centroidSigma base) = 0 := by
        rw [eval_selector]
        simp [bodyGate, hF, hB, centroidSigma]
      simp only [List.mem_cons, List.mem_singleton, List.not_mem_nil, or_false] at hc
      rcases hc with rfl | rfl
      · simp [Constraint.holds, eval_l1ErrorPos, hsel, hres, centroidSigma]
      · simp [Constraint.holds, eval_l1ErrorPos, hsel, hres, centroidSigma]

/-- C11: formulation A with one body whose mesh is a single triangle, one scene
point at the centroid of that triangle, the same-face gate disabled and
transform constraints that admit `R = I`, `T = 0`: the program is built, the
point `R = I`, `T = 0`, `f = 1`, `f_outlier = 0`, `C = (1/3, 1/3, 1/3)` is
feasible with cost 0, and no feasible point has negative cost; so the optimal
cost is 0. -/
theorem formulationA_centroid_optimum (ext : External) (est : Estimator) (v0 v1 v2 s : Vec3)
    (base : Var → ℚ) (tfCons : List Constraint)
    (hnb : est.numBodies = 2) (hV : est.all_vertices_ = [v0, v1, v2])
    (hF : est.all_faces_ = [![0, 1, 2]]) (hmap : est.face_body_map_ = [1])
    (hs : ∀ k, s k = (v0 k + v1 k + v2 k) / 3)
    (hgate : est.optMaxDistToSameFace < 0)
    (htf : addTransformationVarsAndConstraints ext est false = .ok tfCons)
    (hadm : ∀ c ∈ tfCons, c.holds (centroidSigma base)) :
    ∃ P est1, buildFormulationA ext est [s] = .ok (P, est1) ∧
      P.Feasible (centroidSigma base) ∧ P.cost.eval (centroidSigma base) = 0 ∧
      ∀ σ, P.Feasible σ → 0 ≤ P.cost.eval σ := by
  obtain ⟨est1, hbuild⟩ := buildFormulationA_of_tf htf [s]
  refine ⟨_, est1, hbuild, ⟨?_, ?_⟩, ?_, ?_⟩
  · exact centroid_satisfies ext est v0 v1 v2 s base tfCons hnb hV hF hmap hs hgate hadm
  · intro v hv
    simp only [programA, List.mem_append, List.mem_flatMap, List.mem_map] at hv
    rcases hv with ⟨i, -, j, -, rfl⟩ | ⟨i, -, rfl⟩
    · exact Or.inr rfl
    · exact Or.inl rfl
  · rw [cost_eval_one]; rfl
  · intro σ hσ
    rw [cost_eval_one]
    have := hσ.1 _ (phi_box_mem ext est [s] tfCons (i := 0) (by simp))
    exact this.1

/-- Witness for C11: the triangle `(0,0,0)`, `(3,0,0)`, `(0,3,0)` with the scene
point `(1,1,0)`, unconstrained rotation. -/
theorem formulationA_centroid_optimum_witness :
    ∃ P est1, buildFormulationA triExt triEst triPts = .ok (P, est1) ∧
      P.Feasible (centroidSigma (fun _ => 0)) ∧ P.cost.eval (centroidSigma (fun _ => 0)) = 0 ∧
      ∀ σ, P.Feasible σ → 0 ≤ P.cost.eval σ :=
  formulationA_centroid_optimum triExt triEst ![0, 0, 0] ![3, 0, 0] ![0, 3, 0] ![1, 1, 0]
    (fun _ => 0) _ rfl rfl rfl rfl (by decide!) (by decide!) rfl (by decide!)

/-! ## C12: outliers disallowed -/

theorem noOutlier_mem (ext : External) (est : Estimator) (scene_pts : List Vec3)
    (tfCons : List Constraint) (hno : est.optAllowOutliers_ = false) :
    Constraint.eq (LinExpr.sumOver scene_pts.length (fun i => LinExpr.var (.f_outlier i)))
        (LinExpr.cst 0)
      ∈ (programA ext est scene_pts tfCons).constraints := by
  simp only [programA, noOutlierConstraints, hno, List.mem_append]
  exact Or.inl (Or.inl (Or.inl (Or.inl (Or.inl (Or.inl (Or.inl (Or.inr
    (List.mem_singleton.mpr rfl))))))))

/-- With outliers disallowed no scene point is an outlier at a feasible point. -/
theorem f_outlier_zero {ext : External} {est : Estimator} {scene_pts : List Vec3}
    {σ : Var → ℚ} (hno : est.optAllowOutliers_ = false) (h : FeasibleA ext est scene_pts σ)
    {i : Nat} (hi : i < scene_pts.length) : σ (.f_outlier i) = 0 := by
  obtain ⟨P, est1, hb, hs, hbin⟩ := h
  obtain ⟨tfCons, -, rfl⟩ := buildFormulationA_ok hb
  have hsum := hs _ (noOutlier_mem ext est scene_pts tfCons hno)
  simp only [Constraint.holds, LinExpr.eval_sumOver, LinExpr.eval_var, LinExpr.eval_cst] at hsum
  exact binary_sum_eq_zero (x := fun i => σ (.f_outlier i))
    (fun j hj => hbin _ (f_outlier_binary_mem ext est scene_pts tfCons hj)) hsum i hi

/-- C12 (amended): in formulation A with outliers disallowed, at every feasible
point `f_outlier[i] = 0` for every scene point `i`, the point is assigned to
exactly one face, and `phi_i` is at least the L1 norm of the residual against
every body its face belongs to.  The residual of a point that no admissible
transform brings onto the mesh is carried by `phi_i`, which has no upper
bound. -/
theorem formulationA_no_outliers (ext : External) (est : Estimator) (scene_pts : List Vec3)
    (σ : Var → ℚ) (hno : est.optAllowOutliers_ = false) (h : FeasibleA ext est scene_pts σ)
    (i : Nat) (hi : i < scene_pts.length) :
    σ (.f_outlier i) = 0 ∧
    (∃ j < est.all_faces_.length, σ (.f i j) = 1 ∧
        ∀ j2 < est.all_faces_.length, j2 ≠ j → σ (.f i j2) = 0) ∧
    (∀ b < est.numBodies - 1, bodyGate est σ b i = 1 →
      l1norm (residual est σ (col scene_pts i) b i) ≤ σ (.phi i)) := by
  have ho := f_outlier_zero hno h hi
  have hsat := feasibleA_satisfies h
  refine ⟨ho, ?_, ?_⟩
  · rcases rowAssignment_of_feasible h hi with ⟨h1, -⟩ | ⟨-, hex⟩
    · rw [ho] at h1; norm_num at h1
    · exact hex
  · intro b hb hg
    have hphi := phi_eq hsat hi
    have habs : ∀ k : Fin 3, |residual est σ (col scene_pts i) b i k|
        ≤ σ (.alpha (alphaHandle est.alpha_ k) b i) := by
      intro k
      obtain ⟨h1, h2⟩ := alpha_ge_residual hsat k hi hb
      rw [hg] at h1 h2
      rw [abs_le]
      constructor <;> linarith
    have hle : ∀ k : Fin 3, σ (.alpha (alphaHandle est.alpha_ k) b i)
        ≤ ∑ c in Finset.range (est.numBodies - 1), σ (.alpha (alphaHandle est.alpha_ k) c i) :=
      fun k => single_le_sum_range (x := fun c => σ (.alpha (alphaHandle est.alpha_ k) c i))
        (fun c hc => alpha_nonneg hsat k hi hc) hb
    rw [hphi, ho, mul_zero, add_zero]
    unfold l1norm
    have a0 := habs 0
    have a1 := habs 1
    have a2 := habs 2
    have b0 := hle 0
    have b1 := hle 1
    have b2 := hle 2
    linarith

theorem farSigma_feasible : FeasibleA triExt noOutlierEst farPts farSigma := by
  refine ⟨_, _, rfl, ?_, ?_⟩
  · unfold Prog.SatisfiesConstraints
    decide!
  · unfold Prog.Binary
    decide!

/-- Witness for C12 (amended): the far scene point on the triangle estimator
with outliers disallowed. -/
theorem formulationA_no_outliers_witness :
    noOutlierEst.optAllowOutliers_ = false ∧ FeasibleA triExt noOutlierEst farPts farSigma ∧
    farSigma (.f_outlier 0) = 0 :=
  ⟨rfl, farSigma_feasible,
    (formulationA_no_outliers triExt noOutlierEst farPts farSigma rfl farSigma_feasible 0
      (by decide)).1⟩

/-- Counterexample to C12 as stated: on the triangle estimator with outliers
disallowed, the rotation fixed to the identity and translations boxed by 100,
no admissible transform brings the scene point `(1000, 0, 0)` onto the
triangle (whose points are the convex combinations of its vertices), and yet
the program of formulation A has a feasible point. -/
theorem noOutliers_unreachable_point_feasible :
    noOutlierEst.optAllowOutliers_ = false ∧
    (∀ tfCons, addTransformationVarsAndConstraints triExt noOutlierEst false = .ok tfCons →
      ∀ σ : Var → ℚ, (∀ c ∈ tfCons, c.holds σ) →
      ∀ w : Fin 3 → ℚ, (∀ v, 0 ≤ w v) → w 0 + w 1 + w 2 = 1 →
        (fun k => Mat3.mulVec3 (fun r c => σ (.R 0 r c)) (col farPts 0) k + σ (.T 0 k))
          ≠ (fun k => w 0 * col noOutlierEst.all_vertices_ 0 k
                    + w 1 * col noOutlierEst.all_vertices_ 1 k
                    + w 2 * col noOutlierEst.all_vertices_ 2 k)) ∧
    FeasibleA triExt noOutlierEst farPts farSigma := by
  refine ⟨rfl, ?_, farSigma_feasible⟩
  intro tfCons htf σ hσ w hw hsum heq
  obtain ⟨rc, hrc, hsub, -, hT⟩ := addTransformation_mem htf (b := 0) (by decide)
  have hrc2 : rotationConstraints triExt noOutlierEst false 0
      = .ok (([0, 1, 2] : List (Fin 3)).flatMap (fun c => ([0, 1, 2] : List (Fin 3)).map (fun r =>
          Constraint.eq (LinExpr.sub (LinExpr.var (.R 0 r c)) (LinExpr.cst (Mat3.id3 r c)))
            (LinExpr.cst 0)))) := rfl
  rw [hrc2] at hrc
  have hrc3 := Except.ok.inj hrc
  subst hrc3
  have hR : ∀ r c : Fin 3, σ (.R 0 r c) = Mat3.id3 r c := by
    intro r c
    have hm := hσ _ (hsub (Constraint.eq (LinExpr.sub (LinExpr.var (.R 0 r c))
      (LinExpr.cst (Mat3.id3 r c))) (LinExpr.cst 0))
      (by fin_cases r <;> fin_cases c <;> simp))
    simp only [Constraint.holds, LinExpr.eval_sub, LinExpr.eval_var, LinExpr.eval_cst] at hm
    linarith
  have hT0 := (hσ _ (hT 0)).1
  have h0 := congrFun heq 0
  have hw0 := hw 0
  have hw1 := hw 1
  have hw2 := hw 2
  have hm : Mat3.mulVec3 (fun r c => σ (.R 0 r c)) (col farPts 0) 0 = 1000 := by
    simp [Mat3.mulVec3, hR, Mat3.id3, col, farPts]
  have e0 : col noOutlierEst.all_vertices_ 0 0 = 0 := rfl
  have e1 : col noOutlierEst.all_vertices_ 1 0 = 3 := rfl
  have e2 : col noOutlierEst.all_vertices_ 2 0 = 0 := rfl
  have eM : -noOutlierEst.optBigNumber_ = -100 := rfl
  rw [eM] at hT0
  rw [hm, e0, e1, e2] at h0
  linarith

/-! ## C20: a second call on the same estimator -/

/-- C20 (evaluation at the failing input): on the triangle estimator after a
first call of formulation A, `alpha_` holds the three slack matrices of that
call (handles 0, 1, 2) and the best objective is the 0 of that call.  A second
call pushes three fresh matrices (handles 3, 4, 5), yet every `alpha` variable
in its constraints has a handle of the first call, and the best objective
still is 0 and not `+infinity`. -/
theorem second_call_reuses_first_call_state :
    afterFirstCall.alpha_ = [0, 1, 2] ∧
    afterFirstCall.best_sol_objective_yet_ = ((0 : ℚ) : WithTop ℚ) ∧
    ∃ P2 e2, buildFormulationA triExt afterFirstCall triPts = .ok (P2, e2) ∧
      e2.alpha_ = [0, 1, 2, 3, 4, 5] ∧
      Var.alpha 0 0 0 ∈ P2.vars ∧
      (∀ v ∈ P2.vars, ∀ h b i, v = Var.alpha h b i → h < 3) ∧
      e2.best_sol_objective_yet_ = ((0 : ℚ) : WithTop ℚ) := by
  have hok : (buildFormulationA triExt afterFirstCall triPts).toOption.isSome = true := by
    decide!
  refine ⟨by decide!, by decide!, ?_⟩
  cases hb : buildFormulationA triExt afterFirstCall triPts with
  | error e => rw [hb] at hok; cases hok
  | ok pe =>
    obtain ⟨P2, e2⟩ := pe
    have he := buildFormulationA_est hb
    obtain ⟨tfCons, htf, rfl⟩ := buildFormulationA_ok hb
    have htf2 : tfCons
        = (addTransformationVarsAndConstraints triExt afterFirstCall false).toOption.getD [] := by
      rw [htf]; rfl
    have hall : ∀ v ∈ (programA triExt afterFirstCall triPts
          ((addTransformationVarsAndConstraints triExt afterFirstCall false).toOption.getD [])).vars,
        (match v with
          | .alpha h _ _ => decide (h < 3)
          | _ => true) = true := by
      decide!
    refine ⟨_, e2, rfl, ?_, ?_, ?_, ?_⟩
    · rw [he]
      show alphaAfterPush afterFirstCall.alpha_ = _
      decide!
    · have hm := slackBox_mem triExt afterFirstCall triPts tfCons (i := 0) (b := 0) 0
        (by decide) (by decide!)
      have h0 : alphaHandle afterFirstCall.alpha_ 0 = 0 := by decide!
      rw [h0] at hm
      exact List.mem_flatMap.mpr ⟨_, hm, List.mem_singleton.mpr rfl⟩
    · intro v hv h b i hvh
      rw [htf2] at hv
      have := hall v hv
      subst hvh
      simpa using this
    · rw [he]
      show afterFirstCall.best_sol_objective_yet_ = _
      decide!

/-! ## C19: the seed stack and the heuristic queue -/

theorem publishNode_fields (est : Estimator) (q : List ℚ) (now : ℚ) :
    (publishNode est q now).detector_type = est.detector_type ∧
    (publishNode est q now).optUseICPHeuristic_ = est.optUseICPHeuristic_ ∧
    (publishNode est q now).new_heuristic_sols_ = est.new_heuristic_sols_ ∧
    (publishNode est q now).icp_search_seeds_ = est.icp_search_seeds_ := by
  unfold publishNode
  split <;> exact ⟨rfl, rfl, rfl, rfl⟩

theorem seedWhenEmpty_fields (est : Estimator) (q : List ℚ) :
    (seedWhenEmpty est q).detector_type = est.detector_type ∧
    (seedWhenEmpty est q).optUseICPHeuristic_ = est.optUseICPHeuristic_ ∧
    (seedWhenEmpty est q).new_heuristic_sols_ = est.new_heuristic_sols_ := by
  unfold seedWhenEmpty
  split <;> exact ⟨rfl, rfl, rfl⟩

theorem takeHeuristic_spec (est : Estimator) (hen : est.optUseICPHeuristic_ = true) :
    (takeHeuristic est).2 = est.new_heuristic_sols_.head? ∧
    (takeHeuristic est).1.new_heuristic_sols_ = est.new_heuristic_sols_.tail ∧
    (takeHeuristic est).1.detector_type = est.detector_type ∧
    (takeHeuristic est).1.optUseICPHeuristic_ = true ∧
    (takeHeuristic est).1.icp_search_seeds_ = est.icp_search_seeds_ := by
  unfold takeHeuristic
  cases hq : est.new_heuristic_sols_ with
  | nil => simp [hq, hen]
  | cons x xs => simp [hq, hen]

theorem recordNode_fields (est : Estimator) (info : SolveStatusInfo) (now : ℚ) :
    (recordNode est info now).detector_type = est.detector_type ∧
    (recordNode est info now).optUseICPHeuristic_ = est.optUseICPHeuristic_ ∧
    (recordNode est info now).new_heuristic_sols_ = est.new_heuristic_sols_ ∧
    (recordNode est info now).icp_search_seeds_ = est.icp_search_seeds_ := by
  unfold recordNode
  split
  · exact ⟨rfl, rfl, rfl, rfl⟩
  · split <;> exact ⟨rfl, rfl, rfl, rfl⟩

/-- Under a scalar detector type and with the ICP heuristic enabled, the node
callback returns, hands over the front of the heuristic queue and pops it. -/
theorem nodeCallback_queue (lib : RotationLib) (est : Estimator) (vals : SolverValues)
    (info : SolveStatusInfo) (now : ℚ) {dt : String} (hdt : est.detector_type = .scalar dt)
    (hen : est.optUseICPHeuristic_ = true) :
    ∃ est1, handleMipNodeCallbackFunction lib est vals info now
        = .ok (est1, est.new_heuristic_sols_.head?) ∧
      est1.new_heuristic_sols_ = est.new_heuristic_sols_.tail ∧
      est1.optUseICPHeuristic_ = true ∧ est1.detector_type = .scalar dt := by
  unfold handleMipNodeCallbackFunction
  rw [nodeReconstruct_scalar lib est vals hdt]
  dsimp only
  generalize hq : (List.range (est.numBodies - 1)).foldl (writeBody lib dt vals)
    (List.replicate est.numPositions 0) = q
  obtain ⟨p1, p2, p3, -⟩ := publishNode_fields est q now
  obtain ⟨s1, s2, s3⟩ := seedWhenEmpty_fields (publishNode est q now) q
  have hen2 : (seedWhenEmpty (publishNode est q now) q).optUseICPHeuristic_ = true := by
    rw [s2, p2, hen]
  obtain ⟨t1, t2, t3, t4, -⟩ := takeHeuristic_spec _ hen2
  obtain ⟨r1, r2, r3, -⟩ := recordNode_fields
    (takeHeuristic (seedWhenEmpty (publishNode est q now) q)).1 info now
  refine ⟨recordNode (takeHeuristic (seedWhenEmpty (publishNode est q now) q)).1 info now,
    ?_, ?_, ?_, ?_⟩
  · rw [t1, s3, p3]
  · rw [r3, t2, s3, p3]
  · rw [r2, t4]
  · rw [r1, t3, s1, p1, hdt]

theorem runNodeCallbacks_fold (lib : RotationLib) (dt : String)
    (calls : List (SolverValues × SolveStatusInfo × ℚ)) :
    ∀ (est : Estimator) (given : List NewHeuristicSol),
      est.detector_type = .scalar dt → est.optUseICPHeuristic_ = true →
      ∃ est1, calls.foldlM (nodeCallbackStep lib) (est, given)
          = .ok (est1, given ++ est.new_heuristic_sols_.take calls.length) ∧
        est1.new_heuristic_sols_ = est.new_heuristic_sols_.drop calls.length := by
  induction calls with
  | nil =>
    intro est given _ _
    exact ⟨est, by simp [List.foldlM, pure, Except.pure], by simp⟩
  | cons c cs ih =>
    intro est given hdt hen
    obtain ⟨e1, h1, hq, hen1, hdt1⟩ := nodeCallback_queue lib est c.1 c.2.1 c.2.2 hdt hen
    obtain ⟨e2, h2, hq2⟩ := ih e1 (given ++ est.new_heuristic_sols_.head?.toList) hdt1 hen1
    refine ⟨e2, ?_, ?_⟩
    · rw [List.foldlM_cons]
      have hstep : nodeCallbackStep lib (est, given) c
          = .ok (e1, given ++ est.new_heuristic_sols_.head?.toList) := by
        unfold nodeCallbackStep
        rw [h1]
      rw [hstep]
      show cs.foldlM (nodeCallbackStep lib) (e1, given ++ est.new_heuristic_sols_.head?.toList) = _
      rw [h2, hq]
      cases est.new_heuristic_sols_ with
      | nil => simp
      | cons x xs => simp
    · rw [hq2, hq]
      cases est.new_heuristic_sols_ with
      | nil => simp
      | cons x xs => simp

theorem offerHeuristic_fields (guess : List ℚ → NewHeuristicSol) (est : Estimator)
    (q : List ℚ) (obj : ℚ) :
    (offerHeuristic guess est q obj).icp_search_seeds_ = est.icp_search_seeds_ ∧
    ∃ l, l.length ≤ 1 ∧
      (offerHeuristic guess est q obj).new_heuristic_sols_ = est.new_heuristic_sols_ ++ l := by
  unfold offerHeuristic
  split
  · exact ⟨rfl, [guess q], by simp, rfl⟩
  · exact ⟨rfl, [], by simp, by simp⟩

theorem takeSeed_fields (est : Estimator) :
    (takeSeed est).2.icp_search_seeds_ = est.icp_search_seeds_.tail ∧
    (takeSeed est).2.new_heuristic_sols_ = est.new_heuristic_sols_ := by
  unfold takeSeed
  split
  · next h =>
    refine ⟨?_, rfl⟩
    show est.icp_search_seeds_ = _
    rw [h]; rfl
  · next q rest h =>
    refine ⟨?_, rfl⟩
    show rest = _
    rw [h]; rfl

theorem doICPProcessing_fields (icp : Estimator → List ℚ → List ℚ × ℚ)
    (guess : List ℚ → NewHeuristicSol) (est : Estimator) :
    (doICPProcessing icp guess est).icp_search_seeds_ = est.icp_search_seeds_.tail ∧
    ∃ l, l.length ≤ 1 ∧
      (doICPProcessing icp guess est).new_heuristic_sols_ = est.new_heuristic_sols_ ++ l := by
  obtain ⟨h1, h2⟩ := takeSeed_fields est
  unfold doICPProcessing
  dsimp only
  split
  · exact ⟨h1, [], by simp, by simp [h2]⟩
  · split
    · exact ⟨h1, [], by simp, by simp [h2]⟩
    · obtain ⟨o1, l, hl, o2⟩ := offerHeuristic_fields guess (takeSeed est).2
        (icp (takeSeed est).2 (takeSeed est).1).1 (icp (takeSeed est).2 (takeSeed est).1).2
      exact ⟨o1.trans h1, l, hl, by rw [o2, h2]⟩

/-- C19: the seed store is last-in/first-out and the heuristic store is
first-in/first-out.  With the ICP heuristic enabled: a seed pushed by a
callback is the one `doICPProcessing` takes next, and taking it leaves the
stack as it was before the push; `doICPProcessing` on a non-empty stack takes
the top seed and removes exactly that one, on an empty stack it does nothing,
and it only ever appends to the back of the heuristic queue; the node callback
hands the solver the front of the heuristic queue and removes exactly that
one, so a run of node callbacks hands over the queue in the order it was
appended. -/
theorem seed_stack_lifo_heuristic_queue_fifo (lib : RotationLib)
    (icp : Estimator → List ℚ → List ℚ × ℚ) (guess : List ℚ → NewHeuristicSol)
    (est : Estimator) (dt : String) (hdt : est.detector_type = .scalar dt)
    (hen : est.optUseICPHeuristic_ = true) :
    (∀ q, takeSeed (pushSeed est q) = (q, est)) ∧
    (∀ q, est.icp_search_seeds_ = [] → takeSeed (seedWhenEmpty est q) = (q, est)) ∧
    (∀ q rest, est.icp_search_seeds_ = q :: rest →
      (takeSeed est).1 = q ∧ (doICPProcessing icp guess est).icp_search_seeds_ = rest) ∧
    (est.icp_search_seeds_ = [] → doICPProcessing icp guess est = est) ∧
    (∃ l, l.length ≤ 1 ∧
      (doICPProcessing icp guess est).new_heuristic_sols_ = est.new_heuristic_sols_ ++ l) ∧
    (∀ vals info now, ∃ est1,
      handleMipNodeCallbackFunction lib est vals info now
        = .ok (est1, est.new_heuristic_sols_.head?) ∧
      est1.new_heuristic_sols_ = est.new_heuristic_sols_.tail) ∧
    (∀ calls, ∃ est1,
      runNodeCallbacks lib est calls = .ok (est1, est.new_heuristic_sols_.take calls.length) ∧
      est1.new_heuristic_sols_ = est.new_heuristic_sols_.drop calls.length) := by
  refine ⟨?_, ?_, ?_, ?_, (doICPProcessing_fields icp guess est).2, ?_, ?_⟩
  · intro q
    unfold pushSeed
    rw [if_pos hen]
    rfl
  · intro q hempty
    unfold seedWhenEmpty
    rw [if_pos ⟨hen, by simp [hempty]⟩]
    rfl
  · intro q rest hq
    refine ⟨?_, ?_⟩
    · unfold takeSeed; rw [hq]
    · rw [(doICPProcessing_fields icp guess est).1, hq]; rfl
  · intro hempty
    have h1 : takeSeed est = ([], est) := by unfold takeSeed; rw [hempty]
    unfold doICPProcessing
    simp [h1]
  · intro vals info now
    obtain ⟨e1, h1, h2, -, -⟩ := nodeCallback_queue lib est vals info now hdt hen
    exact ⟨e1, h1, h2⟩
  · intro calls
    obtain ⟨e1, h1, h2⟩ := runNodeCallbacks_fold lib dt calls est [] hdt hen
    exact ⟨e1, by simpa [runNodeCallbacks] using h1, h2⟩

/-- Witness for C19: an estimator with two seeds and two queued packets; the
ICP step leaves the older seed, and two node callbacks hand over both packets,
the oldest first. -/
theorem seed_stack_lifo_heuristic_queue_fifo_witness :
    icpEst.optUseICPHeuristic_ = true ∧
    (doICPProcessing icpKeep guessOf icpEst).icp_search_seeds_ = [[2, 2, 2, 0, 0, 0]] ∧
    ∃ est1, runNodeCallbacks triLib icpEst [(triVals, triInfo, 1), (triVals, triInfo, 2)]
      = .ok (est1, [⟨[1], [.phi 0]⟩, ⟨[2], [.phi 0]⟩]) :=
  ⟨rfl,
    ((seed_stack_lifo_heuristic_queue_fifo triLib icpKeep guessOf icpEst
      "world_to_body_transforms" rfl rfl).2.2.1 _ _ rfl).2,
    ((seed_stack_lifo_heuristic_queue_fifo triLib icpKeep guessOf icpEst
      "world_to_body_transforms" rfl rfl).2.2.2.2.2.2 _).imp (fun _ h => h.1)⟩

/-! ## C13: downsampling the scene -/

theorem eigenLinSpaced_of_three_le (n : Nat) (hn : 3 ≤ n) :
    eigenLinSpaced n 0 n = (List.range n).map (fun (i : Nat) => (i : Int)) := by
  unfold eigenLinSpaced
  rw [if_neg (by omega)]
  have hdiv : ((n : Int) - 0) / ((n : Int) - 1) = 1 := by
    have h1 : ((n : Int) - 0) = 1 + ((n : Int) - 1) * 1 := by ring
    rw [h1, Int.add_mul_ediv_left _ _ (by omega), Int.ediv_eq_zero_of_lt (by omega) (by omega)]
    rfl
  rw [hdiv]
  apply List.map_congr_left
  intro i _
  simp

theorem foldlM_pushResult_map {α β : Type} (f : α → Option β) (g : α → β) (l : List α)
    (h : ∀ a ∈ l, f a = some (g a)) :
    ∀ out : List β, l.foldlM (pushResult f) out = some (out ++ l.map g) := by
  induction l with
  | nil => intro out; simp [List.foldlM, pure]
  | cons a as ih =>
    intro out
    rw [List.foldlM_cons]
    unfold pushResult
    rw [h a (List.mem_cons_self _ _)]
    show as.foldlM (pushResult f) (out ++ [g a]) = _
    rw [ih (fun b hb => h b (List.mem_cons_of_mem _ hb))]
    simp

theorem range_map_getD_eq_take {α : Type} (w : List α) (d : α) (m : Nat) (hm : m ≤ w.length) :
    (List.range m).map (fun i => w.getD i d) = w.take m := by
  apply List.ext_getElem
  · simp [hm]
  · intro i h1 h2
    simp only [List.length_map, List.length_range] at h1
    have hi : i < w.length := by omega
    simp [List.getElem?_eq_getElem hi]

/-- Where the downsampling selects valid columns: with no outliers and no
noise, a negative count passes the input through; and for an input of at least
three points (where Eigen's `LinSpaced(n, 0, n)` is `0, ..., n-1`) and a shuffle
that permutes, a count `0 <= M <= n` yields exactly `M` columns of the input,
taken at pairwise distinct valid indices. -/
theorem doScenePointPreprocessing_downsample (lib : SceneLib) (est : Estimator)
    (pts : List Vec3) (hlin : lib.linSpaced = eigenLinSpaced)
    (hshuf : ∀ l, (lib.shuffle l).Perm l)
    (hout : est.optNumOutliers_ ≤ 0) (hnoise : est.optAddedSceneNoise_ ≤ 0) :
    (est.optDownsampleToThisManyPoints_ < 0 →
      doScenePointPreprocessing lib est pts = some pts) ∧
    (0 ≤ est.optDownsampleToThisManyPoints_ →
      est.optDownsampleToThisManyPoints_.toNat ≤ pts.length → 3 ≤ pts.length →
      ∃ idx : List Nat, idx.length = est.optDownsampleToThisManyPoints_.toNat ∧ idx.Nodup ∧
        (∀ i ∈ idx, i < pts.length) ∧
        doScenePointPreprocessing lib est pts = some (idx.map (fun i => col pts i))) := by
  have htail : ∀ out, downsample lib est pts = some out →
      doScenePointPreprocessing lib est pts = some out := by
    intro out h
    unfold doScenePointPreprocessing
    rw [h]
    simp only [corruptOutliers, if_neg (not_lt.mpr hout), addSceneNoise,
      if_neg (not_lt.mpr hnoise)]
  constructor
  · intro hneg
    apply htail
    unfold downsample
    rw [if_pos hneg]
  · intro hM hle hn
    generalize hind : lib.shuffle (lib.linSpaced pts.length 0 pts.length) = indices
    have hperm : indices.Perm ((List.range pts.length).map (fun (i : Nat) => (i : Int))) := by
      rw [← hind, hlin, eigenLinSpaced_of_three_le _ hn]
      exact hshuf _
    have hw : (indices.map Int.toNat).Perm (List.range pts.length) := by
      have := hperm.map Int.toNat
      simpa [List.map_map, Function.comp_def] using this
    have hlen : indices.length = pts.length := by
      have := hperm.length_eq
      simpa using this
    have hmem : ∀ x ∈ indices, 0 ≤ x ∧ x.toNat < pts.length := by
      intro x hx
      have := hperm.mem_iff.mp hx
      simp only [List.mem_map, List.mem_range] at this
      obtain ⟨k, hk, rfl⟩ := this
      exact ⟨by omega, by simpa using hk⟩
    refine ⟨(indices.map Int.toNat).take est.optDownsampleToThisManyPoints_.toNat, ?_, ?_, ?_, ?_⟩
    · simp [hlen, hle]
    · exact (hw.nodup_iff.mpr (List.nodup_range _)).sublist (List.take_sublist _ _)
    · intro i hi
      have := hw.mem_iff.mp (List.mem_of_mem_take hi)
      simpa using this
    · apply htail
      unfold downsample
      rw [if_neg (not_lt.mpr hM)]
      simp only [hind]
      rw [foldlM_pushResult_map (pickColumn pts indices)
        (fun i => col pts ((indices.map Int.toNat).getD i 0))]
      · rw [List.nil_append, ← range_map_getD_eq_take _ 0 _ (by simp [hlen, hle]), List.map_map]
        rfl
      · intro i hi
        rw [List.mem_range] at hi
        have hi2 : i < indices.length := by omega
        have hx := hmem _ (List.getElem_mem hi2)
        unfold pickColumn
        rw [List.getElem?_eq_getElem hi2]
        simp only []
        rw [if_neg (not_lt.mpr hx.1), List.getElem?_eq_getElem hx.2]
        simp [col, List.getElem?_eq_getElem hx.2, List.getElem?_eq_getElem hi2]

/-- Witness for the downsampling lemma: four points, reversed, downsampled to
two. -/
theorem doScenePointPreprocessing_downsample_witness :
    ∃ idx : List Nat, idx.length = 2 ∧ idx.Nodup ∧ (∀ i ∈ idx, i < 4) ∧
      doScenePointPreprocessing (sceneLib List.reverse) (downsampleEst 2) fourPts
        = some (idx.map (fun i => col fourPts i)) :=
  (doScenePointPreprocessing_downsample (sceneLib List.reverse) (downsampleEst 2) fourPts rfl
    (fun l => List.reverse_perm l) (by decide) (by decide!)).2 (by decide) (by decide)
    (by decide)
/-- C13 (evaluation at the failing input): `LinSpaced(n, 0, n)` is `[0, 2]`
for a scene of two points and `[1]` for a scene of one point, so it holds an
index that is not a column of the input.  Downsampling two points to `M = 2`
reads column 2 under either order the shuffle can leave, and downsampling one
point to `M = 1` reads column 1: both are reads outside the input cloud. -/
theorem downsample_small_scene_reads_out_of_range :
    eigenLinSpaced 2 0 2 = [0, 2] ∧ eigenLinSpaced 1 0 1 = [1] ∧
    doScenePointPreprocessing (sceneLib id) (downsampleEst 2) twoPts = none ∧
    doScenePointPreprocessing (sceneLib List.reverse) (downsampleEst 2) twoPts = none ∧
    doScenePointPreprocessing (sceneLib id) (downsampleEst 1) [![0, 0, 0]] = none ∧
    eigenLinSpaced 4 0 4 = [0, 1, 2, 3] ∧
    doScenePointPreprocessing (sceneLib List.reverse) (downsampleEst 2) fourPts
      = some [![3, 0, 0], ![2, 0, 0]] ∧
    doScenePointPreprocessing (sceneLib id) (downsampleEst (-1)) twoPts = some twoPts := by
  refine ⟨by decide, by decide, ?_, ?_, ?_, by decide, ?_, ?_⟩
  · decide!
  · decide!
  · decide!
  · decide!
  · decide!

/-! ## C18: sampled model points -/

theorem rejectionLoop_spec (n : Nat) : ∀ l : List ℚ, l.length ≤ n → (∀ x ∈ l, 0 ≤ x) →
    ∀ s rest, rejectionLoop l = some (s, rest) →
      0 ≤ s.1 ∧ 0 ≤ s.2 ∧ s.1 + s.2 < 1 ∧ ∀ x ∈ rest, 0 ≤ x := by
  induction n with
  | zero =>
    intro l hl _ s rest h
    have : l = [] := List.eq_nil_of_length_eq_zero (by omega)
    subst this
    simp [rejectionLoop] at h
  | succ n ih =>
    intro l hl hnn s rest h
    match l, hl, hnn, h with
    | [], _, _, h => simp [rejectionLoop] at h
    | [_], _, _, h => simp [rejectionLoop] at h
    | s1 :: s2 :: tl, hl, hnn, h =>
      unfold rejectionLoop at h
      by_cases hge : s1 + s2 ≥ 1
      · rw [if_pos hge] at h
        exact ih tl (by simp at hl; omega)
          (fun x hx => hnn x (List.mem_cons_of_mem _ (List.mem_cons_of_mem _ hx))) s rest h
      · rw [if_neg hge] at h
        have h2 := Option.some.inj h
        have hs : s = (s1, s2) := (congrArg Prod.fst h2).symm
        have hr : rest = tl := (congrArg Prod.snd h2).symm
        subst hs hr
        exact ⟨hnn _ (List.mem_cons_self _ _),
          hnn _ (List.mem_cons_of_mem _ (List.mem_cons_self _ _)), not_le.mp hge,
          fun x hx => hnn x (List.mem_cons_of_mem _ (List.mem_cons_of_mem _ hx))⟩

theorem sampleStep_spec (V : List Vec3) (faces : List Face) (tags : List Nat)
    (cum : Option (List ℚ)) (st st1 : SamplerState) (i : Nat)
    (hnn : ∀ x ∈ st.stream, 0 ≤ x) (h : sampleStep V faces tags cum st i = some st1) :
    ∃ (k : Nat) (face : Face) (a b c : Vec3) (tag : Nat) (s1 s2 : ℚ),
      faces[k]? = some face ∧ tags[k]? = some tag ∧
      V[face 0]? = some a ∧ V[face 1]? = some b ∧ V[face 2]? = some c ∧
      1 ≤ tag ∧ tag - 1 < st.B.rows ∧ i < st.B.cols ∧ 0 ≤ s1 ∧ 0 ≤ s2 ∧ s1 + s2 < 1 ∧
      st1.pts = st.pts ++ [fun j => a j + s1 * (b j - a j) + s2 * (c j - a j)] ∧
      st1.B = st.B.set (tag - 1) i 1 ∧ ∀ x ∈ st1.stream, 0 ≤ x := by
  unfold sampleStep at h
  split at h
  · next sample rest cum0 hst =>
    dsimp only at h
    split at h
    · cases h
    · split at h
      · next face tag s rest2 hface htag hrej =>
        split at h
        · next a b c ha hb hc =>
          split at h
          · next hcond =>
            have hst1 := (Option.some.inj h).symm
            subst hst1
            have hrest : ∀ x ∈ rest, 0 ≤ x := by
              intro x hx
              apply hnn
              rw [hst]
              exact List.mem_cons_of_mem _ hx
            obtain ⟨h1, h2, h3, h4⟩ := rejectionLoop_spec rest.length rest le_rfl hrest s rest2 hrej
            exact ⟨_, face, a, b, c, tag, s.1, s.2, hface, htag, ha, hb, hc, hcond.1,
              hcond.2.1, hcond.2.2, h1, h2, h3, rfl, rfl, h4⟩
          · cases h
        · cases h
      · cases h
  · cases h

theorem sampleFold_inv (V : List Vec3) (faces : List Face) (tags : List Nat)
    (cum : Option (List ℚ)) (nb K : Nat) (stream : List ℚ) (hnn : ∀ x ∈ stream, 0 ≤ x)
    (n : Nat) (hn : n ≤ K) :
    ∀ st, (List.range n).foldlM (sampleStep V faces tags cum)
        { pts := [], B := Mat.zeros nb K, stream := stream } = some st →
      st.pts.length = n ∧ st.B.rows = nb ∧ st.B.cols = K ∧ (∀ x ∈ st.stream, 0 ≤ x) ∧
      (∀ i, n ≤ i → ∀ r, st.B.data r i = 0) ∧
      ∀ i < n, SampleGood V faces tags st.pts st.B i := by
  induction n with
  | zero =>
    intro st h
    have hst := (Option.some.inj h).symm
    subst hst
    exact ⟨rfl, rfl, rfl, hnn, fun _ _ _ => rfl, fun i hi => absurd hi (Nat.not_lt_zero i)⟩
  | succ n ih =>
    intro st h
    rw [List.range_succ, List.foldlM_append] at h
    cases hprev : (List.range n).foldlM (sampleStep V faces tags cum)
        { pts := [], B := Mat.zeros nb K, stream := stream } with
    | none => rw [hprev] at h; cases h
    | some st0 =>
      rw [hprev] at h
      obtain ⟨hlen, hrows, hcols, hnn0, hzero, hgood⟩ := ih (by omega) st0 hprev
      have hstep : sampleStep V faces tags cum st0 n = some st := by
        simpa [List.foldlM] using h
      obtain ⟨k, face, a, b, c, tag, s1, s2, hface, htag, ha, hb, hc, ht1, ht2, hi, hs1, hs2,
        hs, hpts, hB, hnn1⟩ := sampleStep_spec V faces tags cum st0 st n hnn0 hstep
      refine ⟨?_, ?_, ?_, hnn1, ?_, ?_⟩
      · rw [hpts, List.length_append, hlen]; rfl
      · rw [hB, Mat.set_rows, hrows]
      · rw [hB, Mat.set_cols, hcols]
      · intro i hi2 r
        rw [hB, Mat.set_data, if_neg (by omega), hzero i (by omega)]
      · intro i hi2
        by_cases hin : i = n
        · subst hin
          refine ⟨k, face, a, b, c, tag, s1, s2, hface, htag, ha, hb, hc, ht1, ?_, hs1, hs2, hs,
            ?_, ?_, ?_⟩
          · rw [hB, Mat.set_rows]; exact ht2
          · rw [hpts, List.getElem?_append_right (by omega), hlen]; simp
          · rw [hpts, List.getElem?_append_right (by omega), hlen]
            simp only [Nat.sub_self, List.getElem?_cons_zero]
            congr 1
            funext j
            ring
          · intro r
            rw [hB, Mat.set_data, hzero i le_rfl]
            by_cases hr : r = tag - 1
            · rw [if_pos hr, if_pos ⟨hr, rfl, ht2, hi⟩]
            · rw [if_neg hr, if_neg (fun hh => hr hh.1)]
        · obtain ⟨k0, face0, a0, b0, c0, tag0, t1, t2, g1, g2, g3, g4, g5, g6, g7, g8, g9, g10,
            g11, g12, g13⟩ := hgood i (by omega)
          refine ⟨k0, face0, a0, b0, c0, tag0, t1, t2, g1, g2, g3, g4, g5, g6, ?_, g8, g9, g10,
            ?_, ?_, ?_⟩
          · rw [hB, Mat.set_rows]; exact g7
          · rw [hpts, List.getElem?_append_left (by omega)]; exact g11
          · rw [hpts, List.getElem?_append_left (by omega)]; exact g12
          · intro r
            rw [hB, Mat.set_data, if_neg (fun hh => hin hh.2.1), g13 r]

/-- C18: every point returned by `doModelPointSampling` (with draws of
`randrange(0, 1)` that are nonnegative) lies in the closed triangle of a face
of the mesh: it equals `v0 + s1 (v1 - v0) + s2 (v2 - v0)` with `s1 >= 0`,
`s2 >= 0` and `s1 + s2 < 1`, the convex combination of the face's vertices
with weights `(1 - s1 - s2, s1, s2)`; and column `i` of the returned body
matrix has exactly one 1, in the row of the body that owns that face. -/
theorem doModelPointSampling_in_triangle (norm : Vec3 → ℚ) (bodies : List Body)
    (est : Estimator) (stream : List ℚ) (pts : List Vec3) (B : Mat)
    (hnn : ∀ x ∈ stream, 0 ≤ x)
    (h : doModelPointSampling norm bodies est stream = some (pts, B)) :
    pts.length = est.optModelSampleRays_.toNat ∧
    B.rows = est.numBodies - 1 ∧ B.cols = est.optModelSampleRays_.toNat ∧
    ∀ i < est.optModelSampleRays_.toNat,
      SampleGood (collectBodyMeshesFromRBT bodies ([], [], [])).1
        (collectBodyMeshesFromRBT bodies ([], [], [])).2.1
        (collectBodyMeshesFromRBT bodies ([], [], [])).2.2 pts B i ∧
      ((List.range B.rows).filter (fun r => decide (B.data r i = 1))).length = 1 := by
  unfold doModelPointSampling at h
  dsimp only at h
  split at h
  · cases h
  · next cum hcum =>
    split at h
    · cases h
    · split at h
      · cases h
      · next st hst =>
        have hp := Option.some.inj h
        have hpts : st.pts = pts := congrArg Prod.fst hp
        have hB : st.B = B := congrArg Prod.snd hp
        obtain ⟨h1, h2, h3, -, -, h6⟩ := sampleFold_inv _ _ _ _ _ _ stream hnn
          est.optModelSampleRays_.toNat le_rfl st hst
        rw [hpts] at h1 h6
        rw [hB] at h2 h3 h6
        refine ⟨h1, h2, h3, fun i hi => ⟨h6 i hi, ?_⟩⟩
        obtain ⟨k, face, a, b, c, tag, s1, s2, -, -, -, -, -, -, g7, -, -, -, -, -, g13⟩ := h6 i hi
        rw [← filter_one_length B.rows (tag - 1) g7]
        congr 1
        apply List.filter_congr
        intro r _
        rw [g13 r]
        by_cases hr : r = tag - 1
        · rw [if_pos hr, decide_eq_true rfl, decide_eq_true hr]
        · rw [if_neg hr, decide_eq_false (by norm_num : ¬ (0 : ℚ) = 1), decide_eq_false hr]

/-- Witness for C18: three samples on the two-body mesh. -/
theorem doModelPointSampling_in_triangle_witness :
    (∀ x ∈ sampleStream, 0 ≤ x) ∧
    ∃ pts B, doModelPointSampling axisNorm twoBodies sampleEst sampleStream = some (pts, B) ∧
      pts.length = 3 := by
  have hnn : ∀ x ∈ sampleStream, 0 ≤ x := by decide!
  have hsome : (doModelPointSampling axisNorm twoBodies sampleEst sampleStream).isSome = true := by
    decide!
  cases hr : doModelPointSampling axisNorm twoBodies sampleEst sampleStream with
  | none => rw [hr] at hsome; cases hsome
  | some r =>
    obtain ⟨pts, B⟩ := r
    exact ⟨hnn, pts, B, rfl,
      (doModelPointSampling_in_triangle axisNorm twoBodies sampleEst sampleStream pts B hnn hr).1⟩

/-! ## C15: the mesh members across a call -/

theorem collectBody_inRange (body_i : Nat) (body : Body) (hwf : body.WellFormed)
    (acc : List Vec3 × List Face × List Nat) (hacc : IndicesInRange acc.1 acc.2.1) :
    IndicesInRange (collectBody acc body_i body).1 (collectBody acc body_i body).2.1 := by
  unfold collectBody
  unfold Body.WellFormed at hwf
  generalize body.elements = els at hwf
  induction els generalizing acc with
  | nil => exact hacc
  | cons el els ih =>
    rw [List.foldl_cons]
    refine ih _ ?_ (fun g hg => hwf g (List.mem_cons_of_mem _ hg))
    cases el with
    | none => exact hacc
    | some g =>
      by_cases hf : g.hasFaces
      · simp only [hf, if_true]
        intro face hface k
        rw [List.mem_append] at hface
        rw [List.length_append, List.length_map]
        rcases hface with hface | hface
        · have := hacc face hface k
          omega
        · obtain ⟨f0, hf0, rfl⟩ := List.mem_map.mp hface
          have := hwf g (List.mem_cons_self _ _) f0 hf0 k
          show f0 k + acc.1.length < _
          omega
      · simp only [hf]
        exact hacc

theorem collectBodies_inRange (bodies : List Body) (hwf : ∀ body ∈ bodies, body.WellFormed)
    (n : Nat) (hn : n ≤ bodies.length) :
    IndicesInRange
      ((List.range n).foldl
        (fun acc idx => collectBody acc (idx + 1) (bodies.getD idx ⟨[]⟩)) ([], [], [])).1
      ((List.range n).foldl
        (fun acc idx => collectBody acc (idx + 1) (bodies.getD idx ⟨[]⟩)) ([], [], [])).2.1 := by
  induction n with
  | zero => intro face hface; simp at hface
  | succ n ih =>
    rw [List.range_succ, List.foldl_append]
    apply collectBody_inRange _ _ _ _ (ih (by omega))
    apply hwf
    rw [List.getD_eq_getElem _ _ (show n < bodies.length by omega)]
    exact List.getElem_mem _

theorem collect_inRange (bodies : List Body) (hwf : ∀ body ∈ bodies, body.WellFormed) :
    IndicesInRange (collectBodyMeshesFromRBT bodies ([], [], [])).1
      (collectBodyMeshesFromRBT bodies ([], [], [])).2.1 :=
  collectBodies_inRange bodies hwf bodies.length le_rfl

theorem sampleStep_pts_length (V : List Vec3) (faces : List Face) (tags : List Nat)
    (cum : Option (List ℚ)) (st st1 : SamplerState) (i : Nat)
    (h : sampleStep V faces tags cum st i = some st1) :
    st1.pts.length = st.pts.length + 1 := by
  unfold sampleStep at h
  split at h
  · dsimp only at h
    split at h
    · cases h
    · split at h
      · split at h
        · split at h
          · have hst1 := (Option.some.inj h).symm
            subst hst1
            simp
          · cases h
        · cases h
      · cases h
  · cases h

theorem sampleFold_length (V : List Vec3) (faces : List Face) (tags : List Nat)
    (cum : Option (List ℚ)) (l : List Nat) :
    ∀ st0 st, l.foldlM (sampleStep V faces tags cum) st0 = some st →
      st.pts.length = st0.pts.length + l.length := by
  induction l with
  | nil =>
    intro st0 st h
    have := Option.some.inj h
    subst this
    rfl
  | cons a as ih =>
    intro st0 st h
    rw [List.foldlM_cons] at h
    cases hs : sampleStep V faces tags cum st0 a with
    | none => rw [hs] at h; cases h
    | some st1 =>
      rw [hs] at h
      have h1 := sampleStep_pts_length V faces tags cum st0 st1 a hs
      have h2 := ih st1 st h
      rw [h2, h1, List.length_cons]
      omega

theorem doModelPointSampling_length (norm : Vec3 → ℚ) (bodies : List Body) (est : Estimator)
    (stream : List ℚ) (pts : List Vec3) (B : Mat)
    (h : doModelPointSampling norm bodies est stream = some (pts, B)) :
    pts.length = est.optModelSampleRays_.toNat := by
  unfold doModelPointSampling at h
  dsimp only at h
  split at h
  · cases h
  · split at h
    · cases h
    · split at h
      · cases h
      · next st hst =>
        have hp := Option.some.inj h
        have hpts : st.pts = pts := congrArg Prod.fst hp
        have := sampleFold_length _ _ _ _ _ _ st hst
        rw [hpts] at this
        simpa using this

theorem publishSol_mesh (est : Estimator) (q : List ℚ) (now : ℚ) :
    (publishSol est q now).all_vertices_ = est.all_vertices_ ∧
    (publishSol est q now).all_faces_ = est.all_faces_ ∧
    (publishSol est q now).face_body_map_ = est.face_body_map_ := by
  unfold publishSol
  split <;> exact ⟨rfl, rfl, rfl⟩

theorem updateIncumbent_mesh (est est1 : Estimator) (vals : SolverValues)
    (info : SolveStatusInfo) (q : List ℚ) (tfs : List Affine3)
    (h : updateIncumbent est vals info q tfs = .ok est1) :
    est1.all_vertices_ = est.all_vertices_ ∧ est1.all_faces_ = est.all_faces_ ∧
    est1.face_body_map_ = est.face_body_map_ := by
  unfold updateIncumbent at h
  split at h
  · split at h
    · cases h
    · have := (Except.ok.inj h).symm
      subst this
      exact ⟨rfl, rfl, rfl⟩
  · have := (Except.ok.inj h).symm
    subst this
    exact ⟨rfl, rfl, rfl⟩

theorem pushSeed_mesh (est : Estimator) (q : List ℚ) :
    (pushSeed est q).all_vertices_ = est.all_vertices_ ∧
    (pushSeed est q).all_faces_ = est.all_faces_ ∧
    (pushSeed est q).face_body_map_ = est.face_body_map_ := by
  unfold pushSeed
  split <;> exact ⟨rfl, rfl, rfl⟩

/-- The solution callback assigns none of the mesh members. -/
theorem solCallback_mesh (lib : RotationLib) (est est1 : Estimator) (vals : SolverValues)
    (info : SolveStatusInfo) (now : ℚ)
    (h : handleMipSolCallbackFunction lib est vals info now = .ok est1) :
    est1.all_vertices_ = est.all_vertices_ ∧ est1.all_faces_ = est.all_faces_ ∧
    est1.face_body_map_ = est.face_body_map_ := by
  unfold handleMipSolCallbackFunction at h
  split at h
  · cases h
  · next qt hqt =>
    split at h
    · cases h
    · next est2 h2 =>
      have := (Except.ok.inj h).symm
      subst this
      obtain ⟨u1, u2, u3⟩ := updateIncumbent_mesh _ _ _ _ _ _ h2
      obtain ⟨p1, p2, p3⟩ := publishSol_mesh est qt.1 now
      obtain ⟨s1, s2, s3⟩ := pushSeed_mesh est2 qt.1
      exact ⟨s1.trans (u1.trans p1), s2.trans (u2.trans p2), s3.trans (u3.trans p3)⟩

/-- The node callback assigns none of the mesh members. -/
theorem nodeCallback_mesh (lib : RotationLib) (est : Estimator) (vals : SolverValues)
    (info : SolveStatusInfo) (now : ℚ) (r : Estimator × Option NewHeuristicSol)
    (h : handleMipNodeCallbackFunction lib est vals info now = .ok r) :
    r.1.all_vertices_ = est.all_vertices_ ∧ r.1.all_faces_ = est.all_faces_ ∧
    r.1.face_body_map_ = est.face_body_map_ := by
  unfold handleMipNodeCallbackFunction at h
  split at h
  · cases h
  · next q hq =>
    have := (Except.ok.inj h).symm
    subst this
    dsimp only
    unfold recordNode takeHeuristic seedWhenEmpty publishNode
    split_ifs <;> split <;> (try split_ifs) <;> exact ⟨rfl, rfl, rfl⟩

theorem twoBodies_wellFormed : ∀ body ∈ twoBodies, body.WellFormed := by
  intro body hb
  simp only [twoBodies, List.mem_cons, List.mem_singleton, List.not_mem_nil, or_false] at hb
  rcases hb with rfl | rfl
  · intro g hg face hface k
    simp only [List.mem_singleton, Option.some.injEq] at hg
    subst hg
    simp only [List.mem_singleton] at hface
    subst hface
    fin_cases k <;> decide
  · intro g hg face hface k
    simp only [List.mem_cons, List.mem_singleton, List.not_mem_nil, or_false,
      Option.some.injEq] at hg
    rcases hg with hg | hg
    · cases hg
    subst hg
    simp only [cornerFaces, List.mem_cons, List.mem_singleton, List.not_mem_nil, or_false]
      at hface
    rcases hface with rfl | rfl <;> fin_cases k <;> decide

theorem sampledFormulationSetup_members (ext : External) (bodies : List Body)
    (stream : List ℚ) (est est1 : Estimator) (scene_pts : List Vec3) (tfCons : List Constraint)
    (h : sampledFormulationSetup ext bodies stream est scene_pts = .ok (some (est1, tfCons))) :
    est1.all_faces_ = (collectBodyMeshesFromRBT bodies ([], [], [])).2.1 ∧
    est1.face_body_map_ = (collectBodyMeshesFromRBT bodies ([], [], [])).2.2 ∧
    ∃ B, doModelPointSampling ext.norm bodies (recollect bodies est scene_pts) stream
      = some (est1.all_vertices_, B) := by
  unfold sampledFormulationSetup at h
  dsimp only at h
  cases htf : addTransformationVarsAndConstraints ext (recollect bodies est scene_pts) false with
  | error e => rw [htf] at h; cases h
  | ok tf =>
    rw [htf] at h
    cases hs : doModelPointSampling ext.norm bodies (recollect bodies est scene_pts) stream with
    | none => rw [hs] at h; cases h
    | some r =>
      obtain ⟨spts, B⟩ := r
      rw [hs] at h
      have h2 := congrArg Prod.fst (Option.some.inj (Except.ok.inj h))
      subst h2
      exact ⟨rfl, rfl, B, rfl⟩

/-- C15 (failing input): the two-body estimator (seven vertices, three faces,
every face index in range) under
`world_to_body_transforms_with_sampled_model_points` with three samples.  Line
1526 stores the three sampled points in `all_vertices_` while `all_faces_`
keeps the indices of the mesh: when the program is built and the solver runs,
the stored vertex matrix is not the one from before the call, the stored faces
hold the vertex index 5, which is not a column of it, and the closest-face
search that the ICP worker runs on these members reads outside the matrix.
The sibling formulation C, on the same tree, samples into a local matrix and
leaves the stored vertex matrix as it was. -/
theorem sampled_formulation_overwrites_vertices :
    (sampledEst.all_vertices_, sampledEst.all_faces_, sampledEst.face_body_map_)
      = collectBodyMeshesFromRBT twoBodies ([], [], []) ∧
    IndicesInRange sampledEst.all_vertices_ sampledEst.all_faces_ ∧
    (∃ est1 tfCons,
      sampledFormulationSetup triExt twoBodies sampleStream sampledEst triPts
        = .ok (some (est1, tfCons)) ∧
      est1.all_vertices_.length = 3 ∧ est1.all_vertices_ ≠ sampledEst.all_vertices_ ∧
      est1.all_faces_ = sampledEst.all_faces_ ∧
      est1.face_body_map_ = sampledEst.face_body_map_ ∧
      ¬ IndicesInRange est1.all_vertices_ est1.all_faces_ ∧
      doExactCollisionDetectFromPoints axisNorm (fun _ s => s) (fun _ => Affine3.identity)
        est1.numBodies est1.all_vertices_ est1.all_faces_ est1.face_body_map_ est1.scene_pts_
        = none) ∧
    (∃ est1 model_pts tfCons,
      bodyToWorldFormulationSetup triExt twoBodies sampleStream b2wTwoEst triPts
        = .ok (some (est1, model_pts, tfCons)) ∧
      model_pts.length = 3 ∧ est1.all_vertices_ = b2wTwoEst.all_vertices_) := by
  have hall : ∀ r ∈ (sampledFormulationSetup triExt twoBodies sampleStream sampledEst
      triPts).toOption, ∀ p ∈ r,
      p.1.all_vertices_.length = 3 ∧ p.1.all_faces_.map (fun face => face 2) = [2, 5, 6] ∧
      (doExactCollisionDetectFromPoints axisNorm (fun _ s => s) (fun _ => Affine3.identity)
        p.1.numBodies p.1.all_vertices_ p.1.all_faces_ p.1.face_body_map_
        p.1.scene_pts_).isNone = true := by decide!
  have hsome : ((sampledFormulationSetup triExt twoBodies sampleStream sampledEst
      triPts).toOption.bind id).isSome = true := by decide!
  have hallC : ∀ r ∈ (bodyToWorldFormulationSetup triExt twoBodies sampleStream b2wTwoEst
      triPts).toOption, ∀ p ∈ r, p.2.1.length = 3 := by decide!
  have hsomeC : ((bodyToWorldFormulationSetup triExt twoBodies sampleStream b2wTwoEst
      triPts).toOption.bind id).isSome = true := by decide!
  refine ⟨rfl, collect_inRange twoBodies twoBodies_wellFormed, ?_, ?_⟩
  · cases h : sampledFormulationSetup triExt twoBodies sampleStream sampledEst triPts with
    | error e => rw [h] at hsome; cases hsome
    | ok r =>
      cases r with
      | none => rw [h] at hsome; cases hsome
      | some p =>
        obtain ⟨est1, tfCons⟩ := p
        obtain ⟨hl, hi, hnone⟩ := hall (some (est1, tfCons)) (by rw [h]; rfl) (est1, tfCons) rfl
        obtain ⟨hf, hm, -⟩ :=
          sampledFormulationSetup_members triExt twoBodies sampleStream sampledEst est1 triPts
            tfCons h
        refine ⟨est1, tfCons, rfl, hl, ?_, hf, hm, ?_, Option.isNone_iff_eq_none.mp hnone⟩
        · intro heq
          have h7 : sampledEst.all_vertices_.length = 7 := by decide
          rw [← heq, hl] at h7
          exact absurd h7 (by decide)
        · intro hin
          have hmem : (5 : Nat) ∈ est1.all_faces_.map (fun face => face 2) := by
            rw [hi]; decide
          obtain ⟨face, hface, h5⟩ := List.mem_map.mp hmem
          have := hin face hface 2
          rw [h5, hl] at this
          exact absurd this (by decide)
  · cases h : bodyToWorldFormulationSetup triExt twoBodies sampleStream b2wTwoEst triPts with
    | error e => rw [h] at hsomeC; cases hsomeC
    | ok r =>
      cases r with
      | none => rw [h] at hsomeC; cases hsomeC
      | some p =>
        obtain ⟨est1, model_pts, tfCons⟩ := p
        have hl := hallC (some (est1, model_pts, tfCons)) (by rw [h]; rfl)
          (est1, model_pts, tfCons) rfl
        refine ⟨est1, model_pts, tfCons, rfl, hl, ?_⟩
        unfold bodyToWorldFormulationSetup at h
        dsimp only at h
        cases htf : addTransformationVarsAndConstraints triExt
            (recollect twoBodies b2wTwoEst triPts) true with
        | error e => rw [htf] at h; cases h
        | ok tf =>
          rw [htf] at h
          cases hs : doModelPointSampling triExt.norm twoBodies
              (recollect twoBodies b2wTwoEst triPts) sampleStream with
          | none => rw [hs] at h; cases h
          | some q =>
            obtain ⟨spts, B⟩ := q
            rw [hs] at h
            have h2 := congrArg Prod.fst (Option.some.inj (Except.ok.inj h))
            subst h2
            rfl

/-! ## C30: the column cap of the same-face gate -/

theorem columnCap_mem (ext : External) (est : Estimator) (scene_pts : List Vec3)
    (tfCons : List Constraint) (hD : 0 < maxDistToSameFace ext est (buildFB est).1)
    {j : Nat} (hj : j < est.all_vertices_.length) :
    Constraint.le (LinExpr.sumOver scene_pts.length (fun i => LinExpr.var (.C i j)))
        (LinExpr.cst ((scene_pts.length : ℚ) - 10))
      ∈ (programA ext est scene_pts tfCons).constraints := by
  simp only [programA, gateConstraints, if_pos hD, List.mem_append]
  refine Or.inl (Or.inl (Or.inl (Or.inl (Or.inl (Or.inl (Or.inr (Or.inr ?_)))))))
  simp only [columnCapConstraints, List.mem_map, List.mem_range]
  exact ⟨j, hj, rfl⟩

/-- C30: in formulation A with the same-face gate active (`D_max > 0`) and a
mesh with at least one vertex, the program caps every column of `C` by
`Ns - 10`, so a point that satisfies the constraints exists only if there are
at least 10 scene points, and with fewer than 10 the program has no feasible
point; with the gate inactive the block of the gate (pairwise constraints and
column caps) is empty. -/
theorem formulationA_column_cap (ext : External) (est : Estimator) (scene_pts : List Vec3)
    (P : Prog) (est1 : Estimator)
    (hbuild : buildFormulationA ext est scene_pts = .ok (P, est1)) :
    (0 < maxDistToSameFace ext est (buildFB est).1 → 0 < est.all_vertices_.length →
      (∀ j < est.all_vertices_.length,
        Constraint.le (LinExpr.sumOver scene_pts.length (fun i => LinExpr.var (.C i j)))
          (LinExpr.cst ((scene_pts.length : ℚ) - 10)) ∈ P.constraints) ∧
      (∀ σ, P.SatisfiesConstraints σ → 10 ≤ scene_pts.length) ∧
      (scene_pts.length < 10 → ¬ ∃ σ, P.Feasible σ)) ∧
    (¬ 0 < maxDistToSameFace ext est (buildFB est).1 →
      gateConstraints ext scene_pts est.all_faces_.length est.all_vertices_.length
        (maxDistToSameFace ext est (buildFB est).1) = []) := by
  constructor
  · intro hD hNv
    obtain ⟨tfCons, htf, hP⟩ := buildFormulationA_ok hbuild
    have hsat : ∀ σ, P.SatisfiesConstraints σ → 10 ≤ scene_pts.length := by
      intro σ hσ
      have hA : SatisfiesA ext est scene_pts σ := ⟨P, est1, hbuild, hσ⟩
      have hcap := hσ _ (by rw [hP]; exact columnCap_mem ext est scene_pts tfCons hD hNv)
      simp only [Constraint.holds, LinExpr.eval_sumOver, LinExpr.eval_var, LinExpr.eval_cst]
        at hcap
      have hnn : 0 ≤ ∑ i in Finset.range scene_pts.length, σ (.C i 0) :=
        Finset.sum_nonneg (fun i hi => (C_bounds hA (Finset.mem_range.mp hi) hNv).1)
      have h10 : (10 : ℚ) ≤ (scene_pts.length : ℚ) := by linarith
      exact_mod_cast h10
    refine ⟨?_, hsat, ?_⟩
    · intro j hj
      rw [hP]
      exact columnCap_mem ext est scene_pts tfCons hD hj
    · rintro hlt ⟨σ, hσ⟩
      have := hsat σ hσ.1
      omega
  · intro hD
    unfold gateConstraints
    rw [if_neg hD]

/-- Witness for C30: the triangle estimator with the gate at distance 5; with
the single scene point of `triPts` the program has no feasible point. -/
theorem formulationA_column_cap_witness :
    ∃ P est1, buildFormulationA triExt gateEst triPts = .ok (P, est1) ∧
      0 < maxDistToSameFace triExt gateEst (buildFB gateEst).1 ∧
      ¬ ∃ σ, P.Feasible σ :=
  ⟨_, _, rfl, by decide!,
    ((formulationA_column_cap triExt gateEst triPts _ _ rfl).1 (by decide!) (by decide)).2.2
      (by decide)⟩

/-! ## C21, C22: the gate distance chosen for a configured 0 -/

/-- C21 (evaluation at the failing input): for the right triangle `(3,0,0)`,
`(0,4,0)`, `(0,0,0)` the widest-face loop yields 4, the longer leg (every
vector it measures lies along an axis, where the norm of the instance is the
Euclidean norm), and the gate distance becomes `4 + 2 * phi_max = 21/5`; the
edge between vertices 0 and 1 has squared length 25, so the widest edge of the
face is 5. -/
theorem widestFace_misses_longest_edge :
    rightEst.optMaxDistToSameFace = 0 ∧ rightEst.optAllowOutliers_ = true ∧
    widestFace triExt (buildFB rightEst).1 rightEst.all_vertices_ = 4 ∧
    maxDistToSameFace triExt rightEst (buildFB rightEst).1 = 21 / 5 ∧
    (∑ k : Fin 3, (vsub (col rightEst.all_vertices_ 0) (col rightEst.all_vertices_ 1) k) ^ 2)
      = 5 ^ 2 ∧
    axisNorm (vsub (col rightEst.all_vertices_ 0) (col rightEst.all_vertices_ 2)) = 3 ∧
    axisNorm (vsub (col rightEst.all_vertices_ 1) (col rightEst.all_vertices_ 2)) = 4 := by
  refine ⟨rfl, rfl, by decide!, by decide!, by decide!, by decide!, by decide!⟩

/-- C22 (amended): when `max_dist_to_same_face` is configured as 0 and the
widest-face detection yields 0, the gate distance is `2 * phi_max` with
outliers allowed and 0 with outliers disallowed; so formulation A adds no
pairwise same-face constraint and no column cap when outliers are disallowed
or `phi_max <= 0`, and with outliers allowed and `phi_max > 0` the gate is
active at distance `2 * phi_max`. -/
theorem gate_distance_when_widest_is_zero (ext : External) (est : Estimator)
    (scene_pts : List Vec3) (h0 : est.optMaxDistToSameFace = 0)
    (hw : widestFace ext (buildFB est).1 est.all_vertices_ = 0) :
    maxDistToSameFace ext est (buildFB est).1
      = (if est.optAllowOutliers_ then est.optPhiMax_ * 2 else 0) ∧
    ((est.optAllowOutliers_ = false ∨ est.optPhiMax_ ≤ 0) →
      gateConstraints ext scene_pts est.all_faces_.length est.all_vertices_.length
        (maxDistToSameFace ext est (buildFB est).1) = []) ∧
    (est.optAllowOutliers_ = true → 0 < est.optPhiMax_ →
      gateConstraints ext scene_pts est.all_faces_.length est.all_vertices_.length
          (maxDistToSameFace ext est (buildFB est).1)
        = sameFaceConstraints ext scene_pts est.all_faces_.length (est.optPhiMax_ * 2)
          ++ columnCapConstraints scene_pts.length est.all_vertices_.length) := by
  have hD : maxDistToSameFace ext est (buildFB est).1
      = (if est.optAllowOutliers_ then est.optPhiMax_ * 2 else 0) := by
    unfold maxDistToSameFace
    rw [if_pos h0]
    dsimp only
    rw [hw]
    split
    · rw [zero_add]
    · rfl
  refine ⟨hD, ?_, ?_⟩
  · intro h
    unfold gateConstraints
    rw [hD]
    rcases h with h | h
    · rw [h]
      simp
    · split
      · rw [if_neg (by linarith)]
      · simp
  · intro ha hp
    unfold gateConstraints
    rw [hD, ha]
    simp only [if_true]
    rw [if_pos (by linarith)]

/-- Witness for C22 (amended): the one-point mesh with outliers disallowed has
an empty gate block. -/
theorem gate_distance_when_widest_is_zero_witness :
    gateConstraints triExt triPts 1 3
      (maxDistToSameFace triExt { pointEst with optAllowOutliers_ := false }
        (buildFB { pointEst with optAllowOutliers_ := false }).1) = [] :=
  (gate_distance_when_widest_is_zero triExt { pointEst with optAllowOutliers_ := false } triPts
    rfl (by decide!)).2.1 (Or.inl rfl)

/-- Counterexample to C22 as stated: on the one-point mesh with
`max_dist_to_same_face = 0`, outliers allowed and `phi_max = 1/10`, the
widest-face detection yields 0, yet the gate distance is `1/5` and the program
of formulation A for one scene point holds the three column caps
`C(0, j) <= 1 - 10`. -/
theorem gate_active_when_widest_is_zero :
    pointEst.optMaxDistToSameFace = 0 ∧
    widestFace triExt (buildFB pointEst).1 pointEst.all_vertices_ = 0 ∧
    maxDistToSameFace triExt pointEst (buildFB pointEst).1 = 1 / 5 ∧
    ∃ P est1, buildFormulationA triExt pointEst triPts = .ok (P, est1) ∧
      triPts.length = 1 ∧
      ∀ j < 3, Constraint.le (LinExpr.sumOver triPts.length (fun i => LinExpr.var (.C i j)))
        (LinExpr.cst ((triPts.length : ℚ) - 10)) ∈ P.constraints := by
  refine ⟨rfl, by decide!, by decide!, _, _, rfl, rfl, ?_⟩
  intro j hj
  exact columnCap_mem triExt pointEst triPts _ (by decide!) hj

/-! ## C24: the best heuristic supplied so far -/

/-- C24 (evaluation at the failing input): three ICP runs with final objectives
1, 21/20 and 28/25.  The first is pushed and recorded as the best.  The second
is pushed (it is below `1.1 * 1`) and recorded in place of the 1, so the
recorded value increases.  The third is pushed because it is below
`1.1 * 21/20`, although it is not below 1.1 times the lowest objective so
far, which is 1. -/
theorem best_heuristic_can_increase :
    seededEst.best_heuristic_supplied_yet_ = ⊤ ∧
    (afterRuns [1]).best_heuristic_supplied_yet_ = ((1 : ℚ) : WithTop ℚ) ∧
    (afterRuns [1]).new_heuristic_sols_.length = 1 ∧
    (afterRuns [1, 21 / 20]).best_heuristic_supplied_yet_ = ((21 / 20 : ℚ) : WithTop ℚ) ∧
    (afterRuns [1, 21 / 20]).new_heuristic_sols_.length = 2 ∧
    (afterRuns [1, 21 / 20, 28 / 25]).new_heuristic_sols_.length = 3 ∧
    ¬ ((28 / 25 : ℚ) < 11 / 10 * min 1 (21 / 20)) := by
  refine ⟨rfl, by decide!, by decide!, by decide!, by decide!, by decide!, by norm_num⟩

/-! ## C25: the normalised cumulative area and the face that a draw selects -/

theorem areaOf_append_left (norm : Vec3 → ℚ) (V : List Vec3) (faces : List Face) (x : Face)
    {f : Nat} (hf : f < faces.length) :
    areaOf norm V (faces ++ [x]) f = areaOf norm V faces f := by
  unfold areaOf
  rw [List.getElem?_append_left hf]

theorem areaOf_append_last (norm : Vec3 → ℚ) (V : List Vec3) (faces : List Face) (x : Face) :
    areaOf norm V (faces ++ [x]) faces.length = (faceArea norm V x).getD 0 := by
  unfold areaOf
  rw [List.getElem?_append_right (le_refl _)]
  simp

theorem cumulativeAreas_eq (norm : Vec3 → ℚ) (V : List Vec3) (faces : List Face) :
    ∀ cum, cumulativeAreas norm V faces = some cum →
      cum = (List.range (faces.length + 1)).map
          (fun i => ∑ f in Finset.range i, areaOf norm V faces f) ∧
      ∀ f (hf : f < faces.length), faceArea norm V (faces[f]) = some (areaOf norm V faces f) := by
  induction faces using List.reverseRecOn with
  | nil =>
    intro cum h
    have hc : cum = [0] := (Option.some.inj h).symm
    subst hc
    exact ⟨by simp [List.range_succ], fun f hf => absurd hf (Nat.not_lt_zero f)⟩
  | append_singleton faces x ih =>
    intro cum h
    unfold cumulativeAreas at h
    rw [List.foldlM_append] at h
    cases hprev : cumulativeAreas norm V faces with
    | none =>
      unfold cumulativeAreas at hprev
      rw [hprev] at h
      cases h
    | some cum0 =>
      obtain ⟨hc0, ha0⟩ := ih cum0 hprev
      unfold cumulativeAreas at hprev
      rw [hprev] at h
      cases hx : faceArea norm V x with
      | none => simp [List.foldlM, hx] at h
      | some a =>
        have hcum : cum = cum0 ++ [cum0.getLastD 0 + a] := by
          simp [List.foldlM, hx] at h
          rw [← h]
          simp
        have hlast : cum0.getLastD 0 = ∑ f in Finset.range faces.length, areaOf norm V faces f := by
          rw [hc0, List.range_succ, List.map_append, List.map_singleton, List.getLastD_concat]
        have hsame : ∀ i, i ≤ faces.length →
            ∑ f in Finset.range i, areaOf norm V (faces ++ [x]) f
              = ∑ f in Finset.range i, areaOf norm V faces f := by
          intro i hi
          apply Finset.sum_congr rfl
          intro f hf
          exact areaOf_append_left norm V faces x (by have := Finset.mem_range.mp hf; omega)
        constructor
        · rw [hcum, hlast, hc0, List.length_append, List.length_singleton,
            List.range_succ (n := faces.length + 1), List.map_append, List.map_singleton]
          congr 1
          · apply List.map_congr_left
            intro i hi
            rw [List.mem_range] at hi
            exact (hsame i (by omega)).symm
          · rw [Finset.sum_range_succ, hsame _ le_rfl, areaOf_append_last, hx]
            rfl
        · intro f hf
          rw [List.length_append, List.length_singleton] at hf
          by_cases hlt : f < faces.length
          · rw [List.getElem_append_left hlt, areaOf_append_left norm V faces x hlt]
            exact ha0 f hlt
          · have hfe : f = faces.length := by omega
            subst hfe
            rw [areaOf_append_last, hx]
            simp [hx]

theorem areaOf_nonneg (norm : Vec3 → ℚ) (hnorm : ∀ v, 0 ≤ norm v) (V : List Vec3)
    (faces : List Face) (f : Nat) : 0 ≤ areaOf norm V faces f := by
  unfold areaOf
  split
  · exact le_refl 0
  · next face _ =>
    unfold faceArea
    split
    · exact div_nonneg (hnorm _) (by norm_num)
    · exact le_refl 0

theorem normalizeAreas_eq (norm : Vec3 → ℚ) (V : List Vec3) (faces : List Face)
    (cum : List ℚ) (hcum : cumulativeAreas norm V faces = some cum)
    (htot : cum.getLastD 0 ≠ 0) :
    cum.getLastD 0 = ∑ f in Finset.range faces.length, areaOf norm V faces f ∧
    normalizeAreas cum = some ((List.range (faces.length + 1)).map
      (fun i => (∑ f in Finset.range i, areaOf norm V faces f) / cum.getLastD 0)) := by
  obtain ⟨hc, -⟩ := cumulativeAreas_eq norm V faces cum hcum
  have hlast : cum.getLastD 0 = ∑ f in Finset.range faces.length, areaOf norm V faces f := by
    rw [hc, List.range_succ, List.map_append, List.map_singleton, List.getLastD_concat]
  refine ⟨hlast, ?_⟩
  unfold normalizeAreas
  rw [if_neg htot]
  congr 1
  generalize cum.getLastD 0 = T
  rw [hc, List.map_map]
  rfl

/-- C25: in `doModelPointSampling`, for a mesh with positive total area (and a
norm that is nonnegative), the normalised cumulative array has one entry more
than there are faces, starts at 0, ends at 1, is non-decreasing, and the gap
between entries `f` and `f + 1` is the area of face `f` divided by the total
area; and for every draw `u` with `0 < u < 1` the face selected is a valid face
index `k` with `cum[k] < u <= cum[k + 1]`. -/
theorem normalised_cumulative_area (norm : Vec3 → ℚ) (V : List Vec3) (faces : List Face)
    (cum : List ℚ) (hnorm : ∀ v, 0 ≤ norm v)
    (hcum : cumulativeAreas norm V faces = some cum) (htot : 0 < cum.getLastD 0) :
    ∃ ncum, normalizeAreas cum = some ncum ∧ ncum.length = faces.length + 1 ∧
      ncum[0]? = some 0 ∧ ncum[faces.length]? = some 1 ∧
      (∀ f (hf : f < faces.length), ∃ area a b,
        faceArea norm V (faces[f]) = some area ∧ ncum[f]? = some a ∧ ncum[f + 1]? = some b ∧
        a ≤ b ∧ b - a = area / cum.getLastD 0) ∧
      (∀ u : ℚ, 0 < u → u < 1 → ∃ (k : Nat) (a b : ℚ),
        pickFace ncum u = (k : Int) ∧ k < faces.length ∧
        ncum[k]? = some a ∧ ncum[k + 1]? = some b ∧ a < u ∧ u ≤ b) := by
  obtain ⟨hlast, hn⟩ := normalizeAreas_eq norm V faces cum hcum (ne_of_gt htot)
  obtain ⟨-, harea⟩ := cumulativeAreas_eq norm V faces cum hcum
  generalize hT : cum.getLastD 0 = T at hlast hn htot
  have hentry : ∀ i, i ≤ faces.length →
      ((List.range (faces.length + 1)).map
        (fun i => (∑ f in Finset.range i, areaOf norm V faces f) / T))[i]?
        = some ((∑ f in Finset.range i, areaOf norm V faces f) / T) := by
    intro i hi
    rw [List.getElem?_map, List.getElem?_range (by omega)]
    rfl
  have hone : (∑ f in Finset.range faces.length, areaOf norm V faces f) / T = 1 := by
    rw [← hlast]
    exact div_self (ne_of_gt htot)
  refine ⟨_, hn, by simp, ?_, ?_, ?_, ?_⟩
  · rw [hentry 0 (Nat.zero_le _)]
    simp
  · rw [hentry _ le_rfl, hone]
  · intro f hf
    refine ⟨areaOf norm V faces f, _, _, harea f hf, hentry f (by omega), hentry (f + 1) (by omega),
      ?_, ?_⟩
    · rw [Finset.sum_range_succ]
      apply div_le_div_of_nonneg_right _ (le_of_lt htot)
      have := areaOf_nonneg norm hnorm V faces f
      linarith
    · rw [Finset.sum_range_succ]
      ring
  · intro u hu0 hu1
    generalize hl : (List.range (faces.length + 1)).map
        (fun i => (∑ f in Finset.range i, areaOf norm V faces f) / T) = ncum at hentry
    have hlen : ncum.length = faces.length + 1 := by rw [← hl]; simp
    have hex : ∃ x ∈ ncum, decide (x ≥ u) = true := by
      refine ⟨1, ?_, by simpa using le_of_lt hu1⟩
      have := hentry _ le_rfl
      rw [hone] at this
      exact List.getElem?_mem this
    have hk := List.findIdx_lt_length_of_exists hex
    have hp := List.findIdx_getElem (w := hk)
    have hpos : 0 < ncum.findIdx (fun x => decide (x ≥ u)) := by
      rcases Nat.eq_zero_or_pos (ncum.findIdx (fun x => decide (x ≥ u))) with h0 | h0
      · exfalso
        have h00 := hentry 0 (Nat.zero_le _)
        rw [List.getElem?_eq_getElem (by omega)] at h00
        have hv := Option.some.inj h00
        simp only [h0, hv, Finset.range_zero, Finset.sum_empty, zero_div, decide_eq_true_eq]
          at hp
        linarith
      · exact h0
    generalize hidx : ncum.findIdx (fun x => decide (x ≥ u)) = k0 at hk hp hpos
    have hnot := @List.not_of_lt_findIdx ℚ (fun x => decide (x ≥ u)) ncum (k0 - 1)
      (by rw [hidx]; omega)
    have hk1 : k0 - 1 + 1 = k0 := by omega
    refine ⟨k0 - 1, ncum[k0 - 1], ncum[k0], ?_, by omega, ?_, ?_, ?_, ?_⟩
    · unfold pickFace
      rw [hidx]
      omega
    · exact List.getElem?_eq_getElem _
    · rw [hk1]
      exact List.getElem?_eq_getElem _
    · simpa using hnot
    · simpa using hp

theorem axisNorm_nonneg (v : Vec3) : 0 ≤ axisNorm v := by
  unfold axisNorm
  positivity

/-- Witness for C25: the mesh of the two-body tree, three faces of area 9/2
each. -/
theorem normalised_cumulative_area_witness :
    cumulativeAreas axisNorm twoBodyEst.all_vertices_ twoBodyEst.all_faces_
      = some [0, 9 / 2, 9, 27 / 2] ∧
    ∃ ncum, normalizeAreas [0, 9 / 2, 9, 27 / 2] = some ncum ∧
      ncum.length = twoBodyEst.all_faces_.length + 1 ∧ ncum[0]? = some 0 :=
  ⟨by decide!,
    (normalised_cumulative_area axisNorm twoBodyEst.all_vertices_ twoBodyEst.all_faces_
      [0, 9 / 2, 9, 27 / 2] axisNorm_nonneg (by decide!) (by decide!)).imp
      (fun _ h => ⟨h.1, h.2.1, h.2.2.1⟩)⟩

/-! ## C26: the body gates of a scene point -/

/-- A 0/1 matrix with exactly one 1 per column turns the sum over rows of its
gates into the plain sum. -/
theorem gate_sum (nb n : Nat) (Bd : Nat → Nat → ℚ) (x : Nat → ℚ)
    (hcol : ∀ j < n, ∃ r < nb, ∀ r2, Bd r2 j = if r2 = r then 1 else 0) :
    ∑ b in Finset.range nb, ∑ j in Finset.range n, Bd b j * x j
      = ∑ j in Finset.range n, x j := by
  rw [Finset.sum_comm]
  apply Finset.sum_congr rfl
  intro j hj
  obtain ⟨r, hr, hd⟩ := hcol j (Finset.mem_range.mp hj)
  rw [← Finset.sum_mul]
  have : ∑ b in Finset.range nb, Bd b j = 1 := by
    rw [Finset.sum_eq_single r]
    · rw [hd r, if_pos rfl]
    · intro b _ hb
      rw [hd b, if_neg hb]
    · intro hr2
      exact absurd (Finset.mem_range.mpr hr) hr2
  rw [this, one_mul]

/-- With one entry of `x` equal to 1 and the others 0, the gate of a row is the
matrix entry in that column. -/
theorem gate_single (n : Nat) (Bd : Nat → Nat → ℚ) (x : Nat → ℚ) (b j0 : Nat) (hj0 : j0 < n)
    (h1 : x j0 = 1) (h0 : ∀ j < n, j ≠ j0 → x j = 0) :
    ∑ j in Finset.range n, Bd b j * x j = Bd b j0 := by
  rw [Finset.sum_eq_single j0]
  · rw [h1, mul_one]
  · intro j hj hne
    rw [h0 j (Finset.mem_range.mp hj) hne, mul_zero]
  · intro h
    exact absurd (Finset.mem_range.mpr hj0) h

theorem gate_none (n : Nat) (Bd : Nat → Nat → ℚ) (x : Nat → ℚ) (b : Nat)
    (h0 : ∀ j < n, x j = 0) : ∑ j in Finset.range n, Bd b j * x j = 0 := by
  apply Finset.sum_eq_zero
  intro j hj
  rw [h0 j (Finset.mem_range.mp hj), mul_zero]

/-- The consequences of a row of binary values that sums to `1 - o` for the
gates of the rows of a 0/1 matrix with one 1 per column. -/
theorem gates_of_assignment (nb n : Nat) (Bd : Nat → Nat → ℚ) (x : Nat → ℚ) (o : ℚ)
    (hcol : ∀ j < n, ∃ r < nb, ∀ r2, Bd r2 j = if r2 = r then 1 else 0)
    (hsum : (∑ j in Finset.range n, x j) + o = 1)
    (hbin : ∀ j < n, x j = 0 ∨ x j = 1) :
    (o = 0 → ∃ b < nb, (∑ j in Finset.range n, Bd b j * x j) = 1 ∧
      ∀ b2 < nb, b2 ≠ b → (∑ j in Finset.range n, Bd b2 j * x j) = 0) ∧
    (o = 1 → ∀ b, (∑ j in Finset.range n, Bd b j * x j) = 0) := by
  constructor
  · intro ho
    rw [ho, add_zero] at hsum
    obtain ⟨j0, hj0, h1, h0⟩ := binary_sum_eq_one hbin hsum
    obtain ⟨r, hr, hd⟩ := hcol j0 hj0
    refine ⟨r, hr, ?_, ?_⟩
    · rw [gate_single n Bd x r j0 hj0 h1 h0, hd r, if_pos rfl]
    · intro b2 _ hne
      rw [gate_single n Bd x b2 j0 hj0 h1 h0, hd b2, if_neg hne]
  · intro ho b
    rw [ho] at hsum
    have hz : ∑ j in Finset.range n, x j = 0 := by linarith
    exact gate_none n Bd x b (binary_sum_eq_zero hbin hz)

theorem buildFB_B_column (est : Estimator)
    (hlen : est.face_body_map_.length = est.all_faces_.length)
    (htags : ∀ t ∈ est.face_body_map_, 1 ≤ t ∧ t ≤ est.numBodies - 1) :
    ∀ j < est.all_faces_.length, ∃ r < est.numBodies - 1,
      ∀ r2, (buildFB est).2.data r2 j = if r2 = r then 1 else 0 := by
  intro j hj
  have hmem : est.face_body_map_.getD j 0 ∈ est.face_body_map_ := by
    rw [List.getD_eq_getElem _ _ (by omega)]
    exact List.getElem_mem _
  obtain ⟨h1, h2⟩ := htags _ hmem
  refine ⟨est.face_body_map_.getD j 0 - 1, by omega, ?_⟩
  intro r2
  rw [buildFB_B_data]
  by_cases hr : r2 = est.face_body_map_.getD j 0 - 1
  · rw [if_pos hr, if_pos ⟨hj, by omega, by omega⟩]
  · rw [if_neg hr, if_neg (fun h => hr (by omega))]

theorem sampled_B_column (norm : Vec3 → ℚ) (bodies : List Body) (est : Estimator)
    (stream : List ℚ) (pts : List Vec3) (B : Mat) (hnn : ∀ x ∈ stream, 0 ≤ x)
    (h : doModelPointSampling norm bodies est stream = some (pts, B)) :
    ∀ v < pts.length, ∃ r < est.numBodies - 1, ∀ r2, B.data r2 v = if r2 = r then 1 else 0 := by
  unfold doModelPointSampling at h
  dsimp only at h
  split at h
  · cases h
  · split at h
    · cases h
    · split at h
      · cases h
      · next st hst =>
        have hp := Option.some.inj h
        have hpts : st.pts = pts := congrArg Prod.fst hp
        have hB : st.B = B := congrArg Prod.snd hp
        obtain ⟨h1, h2, -, -, -, h6⟩ := sampleFold_inv _ _ _ _ _ _ stream hnn
          est.optModelSampleRays_.toNat le_rfl st hst
        rw [hpts] at h1 h6
        rw [hB] at h2 h6
        intro v hv
        obtain ⟨k, face, a, b, c, tag, s1, s2, -, -, -, -, -, -, g7, -, -, -, -, -, g13⟩ :=
          h6 v (by omega)
        exact ⟨tag - 1, by omega, g13⟩

theorem eval_selectorB (est : Estimator) (σ : Var → ℚ) (b i : Nat) :
    (selectorB est.optBigNumber_ est.B_ est.all_vertices_.length b i).eval σ
      = est.optBigNumber_ * (1 - bodyGateB est σ b i) := by
  simp [selectorB, bodyGateB]

theorem programB_rowSum {est : Estimator} {scene_pts : List Vec3} {tfCons extra : List Constraint}
    {σ : Var → ℚ} (hs : (programB est scene_pts tfCons extra).SatisfiesConstraints σ)
    {i : Nat} (hi : i < scene_pts.length) :
    (∑ v in Finset.range est.all_vertices_.length, σ (.C i v)) + σ (.f_outlier i) = 1 := by
  have hmem : cRowSumConstraint est.all_vertices_.length i
      ∈ (programB est scene_pts tfCons extra).constraints := by
    simp only [programB, List.mem_append, List.mem_map, List.mem_range]
    exact Or.inl (Or.inl (Or.inl (Or.inr ⟨i, hi, rfl⟩)))
  have := hs _ hmem
  simpa [cRowSumConstraint, Constraint.holds] using this

theorem programB_binary {est : Estimator} {scene_pts : List Vec3} {tfCons extra : List Constraint}
    {σ : Var → ℚ} (hb : (programB est scene_pts tfCons extra).Binary σ)
    {i : Nat} (hi : i < scene_pts.length) :
    (∀ v < est.all_vertices_.length, σ (.C i v) = 0 ∨ σ (.C i v) = 1) ∧
    (σ (.f_outlier i) = 0 ∨ σ (.f_outlier i) = 1) := by
  constructor
  · intro v hv
    apply hb
    simp only [programB, List.mem_append, List.mem_flatMap, List.mem_map, List.mem_range]
    exact Or.inl ⟨i, hi, v, hv, rfl⟩
  · apply hb
    simp only [programB, List.mem_append, List.mem_flatMap, List.mem_map, List.mem_range]
    exact Or.inr ⟨i, hi, rfl⟩

/-- C26: in formulation A (for a mesh whose face tags are body indices in
`1..B`, one per face) and in formulation B (for the body matrix returned by
`doModelPointSampling`), at every point satisfying the constraints of the
program the body gates of scene point `i` sum to `1 - f_outlier[i]`; with
binary assignments, for a non-outlier exactly one body has gate 1 (its big-M
term is 0) and every other body has gate 0 (its big-M term is the full
`bigM`), and for an outlier every body has gate 0 and big-M term `bigM`. -/
theorem body_gates_sum (ext : External) (scene_pts : List Vec3) (σ : Var → ℚ) (i : Nat)
    (hi : i < scene_pts.length) :
    (∀ est : Estimator, est.face_body_map_.length = est.all_faces_.length →
      (∀ t ∈ est.face_body_map_, 1 ≤ t ∧ t ≤ est.numBodies - 1) →
      SatisfiesA ext est scene_pts σ →
      (∑ b in Finset.range (est.numBodies - 1), bodyGate est σ b i) = 1 - σ (.f_outlier i) ∧
      (FeasibleA ext est scene_pts σ →
        (σ (.f_outlier i) = 0 → ∃ b < est.numBodies - 1,
          bodyGate est σ b i = 1 ∧
          (selector est.optBigNumber_ (buildFB est).2 est.all_faces_.length b i).eval σ = 0 ∧
          ∀ b2 < est.numBodies - 1, b2 ≠ b → bodyGate est σ b2 i = 0 ∧
            (selector est.optBigNumber_ (buildFB est).2 est.all_faces_.length b2 i).eval σ
              = est.optBigNumber_) ∧
        (σ (.f_outlier i) = 1 → ∀ b, bodyGate est σ b i = 0 ∧
          (selector est.optBigNumber_ (buildFB est).2 est.all_faces_.length b i).eval σ
            = est.optBigNumber_))) ∧
    (∀ (bodies : List Body) (est : Estimator) (stream : List ℚ) (pts : List Vec3) (B : Mat)
      (tfCons extra : List Constraint), (∀ x ∈ stream, 0 ≤ x) →
      doModelPointSampling ext.norm bodies est stream = some (pts, B) →
      (programB { est with all_vertices_ := pts, B_ := B } scene_pts tfCons
        extra).SatisfiesConstraints σ →
      (∑ b in Finset.range (est.numBodies - 1),
          bodyGateB { est with all_vertices_ := pts, B_ := B } σ b i) = 1 - σ (.f_outlier i) ∧
      ((programB { est with all_vertices_ := pts, B_ := B } scene_pts tfCons extra).Binary σ →
        (σ (.f_outlier i) = 0 → ∃ b < est.numBodies - 1,
          bodyGateB { est with all_vertices_ := pts, B_ := B } σ b i = 1 ∧
          (selectorB est.optBigNumber_ B pts.length b i).eval σ = 0 ∧
          ∀ b2 < est.numBodies - 1, b2 ≠ b →
            bodyGateB { est with all_vertices_ := pts, B_ := B } σ b2 i = 0 ∧
            (selectorB est.optBigNumber_ B pts.length b2 i).eval σ = est.optBigNumber_) ∧
        (σ (.f_outlier i) = 1 → ∀ b,
          bodyGateB { est with all_vertices_ := pts, B_ := B } σ b i = 0 ∧
          (selectorB est.optBigNumber_ B pts.length b i).eval σ = est.optBigNumber_))) := by
  constructor
  · intro est hlen htags hsat
    have hcol := buildFB_B_column est hlen htags
    have hsum := fRowSum_eq hsat hi
    refine ⟨?_, ?_⟩
    · unfold bodyGate
      rw [gate_sum _ _ _ (fun j => σ (.f i j)) hcol]
      linarith
    · intro hfeas
      obtain ⟨P, est1, hb, hs, hbin⟩ := hfeas
      obtain ⟨tfCons, -, rfl⟩ := buildFormulationA_ok hb
      have hfb : ∀ j < est.all_faces_.length, σ (.f i j) = 0 ∨ σ (.f i j) = 1 :=
        fun j hj => hbin _ (f_binary_mem ext est scene_pts tfCons hi hj)
      obtain ⟨g0, g1⟩ := gates_of_assignment _ _ (buildFB est).2.data (fun j => σ (.f i j))
        (σ (.f_outlier i)) hcol hsum hfb
      constructor
      · intro ho
        obtain ⟨b, hb1, hg, hrest⟩ := g0 ho
        refine ⟨b, hb1, hg, ?_, ?_⟩
        · rw [eval_selector]
          unfold bodyGate
          rw [hg]; ring
        · intro b2 hb2 hne
          refine ⟨hrest b2 hb2 hne, ?_⟩
          rw [eval_selector]
          unfold bodyGate
          rw [hrest b2 hb2 hne]; ring
      · intro ho b
        refine ⟨g1 ho b, ?_⟩
        rw [eval_selector]
        unfold bodyGate
        rw [g1 ho b]; ring
  · intro bodies est stream pts B tfCons extra hnn hsamp hs
    have hcol := sampled_B_column ext.norm bodies est stream pts B hnn hsamp
    have hsum := programB_rowSum hs hi
    have hsel : ∀ b, (selectorB est.optBigNumber_ B pts.length b i).eval σ
        = est.optBigNumber_ * (1 - bodyGateB { est with all_vertices_ := pts, B_ := B } σ b i) :=
      fun b => eval_selectorB { est with all_vertices_ := pts, B_ := B } σ b i
    refine ⟨?_, ?_⟩
    · unfold bodyGateB
      show (∑ b in Finset.range (est.numBodies - 1),
        ∑ v in Finset.range pts.length, B.data b v * σ (.C i v)) = _
      rw [gate_sum _ _ _ (fun v => σ (.C i v)) hcol]
      have : (∑ v in Finset.range pts.length, σ (.C i v)) + σ (.f_outlier i) = 1 := hsum
      linarith
    · intro hbin
      obtain ⟨hC, -⟩ := programB_binary hbin hi
      obtain ⟨g0, g1⟩ := gates_of_assignment _ _ B.data (fun v => σ (.C i v))
        (σ (.f_outlier i)) hcol hsum hC
      constructor
      · intro ho
        obtain ⟨b, hb1, hg, hrest⟩ := g0 ho
        have hgb : bodyGateB { est with all_vertices_ := pts, B_ := B } σ b i = 1 := hg
        refine ⟨b, hb1, hgb, ?_, ?_⟩
        · rw [hsel, hgb]; ring
        · intro b2 hb2 hne
          have hg2 : bodyGateB { est with all_vertices_ := pts, B_ := B } σ b2 i = 0 :=
            hrest b2 hb2 hne
          refine ⟨hg2, ?_⟩
          rw [hsel, hg2]; ring
      · intro ho b
        have hg2 : bodyGateB { est with all_vertices_ := pts, B_ := B } σ b i = 0 := g1 ho b
        refine ⟨hg2, ?_⟩
        rw [hsel, hg2]; ring

/-- Witness for C26: formulation A on the triangle instance with the scene
point assigned to the face, and formulation B on the three samples of the
two-body mesh with the scene point declared an outlier. -/
theorem body_gates_sum_witness :
    SatisfiesA triExt triEst triPts triSigma ∧
    (∑ b in Finset.range (triEst.numBodies - 1), bodyGate triEst triSigma b 0)
      = 1 - triSigma (.f_outlier 0) ∧
    ∃ pts B, doModelPointSampling axisNorm twoBodies sampleEst sampleStream = some (pts, B) ∧
      (programB { sampleEst with all_vertices_ := pts, B_ := B } triPts [] []).SatisfiesConstraints
        triSigmaOutlier ∧
      (∑ b in Finset.range (sampleEst.numBodies - 1),
        bodyGateB { sampleEst with all_vertices_ := pts, B_ := B } triSigmaOutlier b 0)
        = 1 - triSigmaOutlier (.f_outlier 0) := by
  have hsatA := feasibleA_satisfies triSigma_feasible
  have hA := ((body_gates_sum triExt triPts triSigma 0 (by decide)).1 triEst rfl (by decide)
    hsatA).1
  have hnn : ∀ x ∈ sampleStream, 0 ≤ x := by decide!
  have hall : ∀ r ∈ doModelPointSampling axisNorm twoBodies sampleEst sampleStream,
      (programB { sampleEst with all_vertices_ := r.1, B_ := r.2 } triPts [] []).SatisfiesConstraints
        triSigmaOutlier := by
    unfold Prog.SatisfiesConstraints
    decide!
  have hsome : (doModelPointSampling axisNorm twoBodies sampleEst sampleStream).isSome = true := by
    decide!
  cases hr : doModelPointSampling axisNorm twoBodies sampleEst sampleStream with
  | none => rw [hr] at hsome; cases hsome
  | some r =>
    obtain ⟨pts, B⟩ := r
    have hsat := hall (pts, B) (by rw [hr]; rfl)
    exact ⟨hsatA, hA, pts, B, rfl, hsat,
      ((body_gates_sum triExt triPts triSigmaOutlier 0 (by decide)).2 twoBodies sampleEst
        sampleStream pts B [] [] hnn hr hsat).1⟩

/-! ## C23: how long the ICP loop runs -/

theorem icpLoop_le (errorOf : List ℚ → ℚ) (solveStep : List ℚ → Option (List ℚ)) (fuel : Nat) :
    ∀ st, (icpLoop errorOf solveStep fuel st).2 ≤ fuel := by
  induction fuel with
  | zero => intro st; exact le_refl 0
  | succ n ih =>
    intro st
    unfold icpLoop
    dsimp only
    split
    · exact Nat.succ_le_succ (Nat.zero_le n)
    · exact Nat.succ_le_succ (ih _)

/-- What one pass does: it breaks exactly when the error is 0, or the pass
stalls with the counter already at 10, or the solve is not finite; a pass that
goes on stores the error, and sets the counter to one more when it stalls and
to 0 otherwise. -/
theorem icpIteration_spec (errorOf : List ℚ → ℚ) (solveStep : List ℚ → Option (List ℚ))
    (st : IcpState) :
    ((icpIteration errorOf solveStep st).2 = true ↔
      (errorOf st.q_robot = 0 ∨
       (Stalls errorOf st ∧ 10 ≤ st.consecutive_rounds_of_nondecreasing_error) ∨
       (errorOf st.q_robot ≠ 0 ∧ solveStep st.q_robot = none))) ∧
    ((icpIteration errorOf solveStep st).2 = false →
      (icpIteration errorOf solveStep st).1.last_error = errorOf st.q_robot ∧
      solveStep st.q_robot = some (icpIteration errorOf solveStep st).1.q_robot ∧
      (Stalls errorOf st →
        (icpIteration errorOf solveStep st).1.consecutive_rounds_of_nondecreasing_error
          = st.consecutive_rounds_of_nondecreasing_error + 1) ∧
      (errorOf st.q_robot ≤ st.last_error - 1 / 10000 →
        (icpIteration errorOf solveStep st).1.consecutive_rounds_of_nondecreasing_error = 0)) := by
  unfold icpIteration Stalls
  dsimp only
  by_cases h0 : errorOf st.q_robot = 0
  · rw [if_pos h0]
    exact ⟨⟨fun _ => Or.inl h0, fun _ => rfl⟩, fun h => absurd (show true = false from h) (by decide)⟩
  · rw [if_neg h0]
    by_cases hgt : errorOf st.q_robot > st.last_error - 1 / 10000
    · rw [if_pos hgt]
      by_cases hc : st.consecutive_rounds_of_nondecreasing_error + 1 > 10
      · rw [if_pos hc]
        exact ⟨⟨fun _ => Or.inr (Or.inl ⟨⟨h0, hgt⟩, by omega⟩), fun _ => rfl⟩,
          fun h => absurd (show true = false from h) (by decide)⟩
      · rw [if_neg hc]
        cases hs : solveStep st.q_robot with
        | none =>
          exact ⟨⟨fun _ => Or.inr (Or.inr ⟨h0, rfl⟩), fun _ => rfl⟩,
            fun h => absurd (show true = false from h) (by decide)⟩
        | some q =>
          refine ⟨⟨fun h => absurd (show false = true from h) (by decide), fun h => ?_⟩,
            fun _ => ⟨rfl, rfl, fun _ => rfl, fun hle => absurd hgt (not_lt.mpr hle)⟩⟩
          rcases h with h | h | h
          · exact absurd h h0
          · exact absurd h.2 (by omega)
          · exact absurd h.2 (by simp)
    · rw [if_neg hgt]
      cases hs : solveStep st.q_robot with
      | none =>
        exact ⟨⟨fun _ => Or.inr (Or.inr ⟨h0, rfl⟩), fun _ => rfl⟩,
          fun h => absurd (show true = false from h) (by decide)⟩
      | some q =>
        refine ⟨⟨fun h => absurd (show false = true from h) (by decide), fun h => ?_⟩,
          fun _ => ⟨rfl, rfl, fun hst => absurd hst.2 hgt, fun _ => rfl⟩⟩
        rcases h with h | h | h
        · exact absurd h h0
        · exact absurd h.1.2 hgt
        · exact absurd h.2 (by simp)

theorem icpLoop_succ (errorOf : List ℚ → ℚ) (solveStep : List ℚ → Option (List ℚ))
    (fuel : Nat) (st : IcpState) :
    icpLoop errorOf solveStep (fuel + 1) st =
      if (icpIteration errorOf solveStep st).2 = true then
        ((icpIteration errorOf solveStep st).1, 1)
      else
        ((icpLoop errorOf solveStep fuel (icpIteration errorOf solveStep st).1).1,
         (icpLoop errorOf solveStep fuel (icpIteration errorOf solveStep st).1).2 + 1) := rfl

/-- A run of stalling passes that starts with the counter at `10 - k` leaves
the loop in pass `k + 1`, as long as the solves before it are finite. -/
theorem icpLoop_stall_run (errorOf : List ℚ → ℚ) (solveStep : List ℚ → Option (List ℚ)) :
    ∀ (k : Nat) (st : IcpState) (fuel : Nat),
      st.consecutive_rounds_of_nondecreasing_error + k = 10 → k + 1 ≤ fuel →
      (∀ m, m < k + 1 → Stalls errorOf (icpAfter errorOf solveStep m st)) →
      (∀ m, m < k → solveStep (icpAfter errorOf solveStep m st).q_robot ≠ none) →
      (icpLoop errorOf solveStep fuel st).2 = k + 1 := by
  intro k
  induction k with
  | zero =>
    intro st fuel hc hf hst _
    obtain ⟨f, rfl⟩ : ∃ f, fuel = f + 1 := ⟨fuel - 1, by omega⟩
    have h0 : Stalls errorOf st := hst 0 (by omega)
    have hb : (icpIteration errorOf solveStep st).2 = true :=
      (icpIteration_spec errorOf solveStep st).1.mpr (Or.inr (Or.inl ⟨h0, by omega⟩))
    rw [icpLoop_succ, if_pos hb]
  | succ k ih =>
    intro st fuel hc hf hst hsolve
    obtain ⟨f, rfl⟩ : ∃ f, fuel = f + 1 := ⟨fuel - 1, by omega⟩
    have h0 : Stalls errorOf st := hst 0 (by omega)
    have hb : ¬ (icpIteration errorOf solveStep st).2 = true := by
      intro hb
      rcases (icpIteration_spec errorOf solveStep st).1.mp hb with h | h | h
      · exact h0.1 h
      · exact absurd h.2 (by omega)
      · exact hsolve 0 (by omega) h.2
    have hcount := ((icpIteration_spec errorOf solveStep st).2 (by simpa using hb)).2.2.1 h0
    rw [icpLoop_succ, if_neg hb]
    show (icpLoop errorOf solveStep f (icpIteration errorOf solveStep st).1).2 + 1 = k + 1 + 1
    rw [ih (icpIteration errorOf solveStep st).1 f (by omega) (by omega)
      (fun m hm => hst (m + 1) (by omega)) (fun m hm => hsolve (m + 1) (by omega))]

/-- C23 (as amended): the ICP loop of `doICPProcessing` starts at most
`optICPIters_` passes.  A pass leaves the loop exactly when its total error is
0, or it stalls (its error is not 0 and exceeds the previous error minus
`1e-4`) with the counter of consecutive stalls already at 10, or its solve is
not finite; any other pass is followed by the rest of the loop.  A pass that
goes on adds one to the counter when it stalls and resets it to 0 when its
error is at most the previous error minus `1e-4`.  Hence, from the counter at
0, the loop is left in the eleventh consecutive stalling pass. -/
theorem icp_loop_exit (errorOf : List ℚ → ℚ) (solveStep : List ℚ → Option (List ℚ))
    (est : Estimator) (q_robot : List ℚ) (st : IcpState) (fuel : Nat) :
    (icpRun errorOf solveStep est q_robot).2 ≤ est.optICPIters_.toNat ∧
    ((icpIteration errorOf solveStep st).2 = true ↔
      (errorOf st.q_robot = 0 ∨
       (Stalls errorOf st ∧ 10 ≤ st.consecutive_rounds_of_nondecreasing_error) ∨
       (errorOf st.q_robot ≠ 0 ∧ solveStep st.q_robot = none))) ∧
    ((icpIteration errorOf solveStep st).2 = true →
      icpLoop errorOf solveStep (fuel + 1) st = ((icpIteration errorOf solveStep st).1, 1)) ∧
    ((icpIteration errorOf solveStep st).2 = false →
      (icpLoop errorOf solveStep (fuel + 1) st).2 =
        (icpLoop errorOf solveStep fuel (icpIteration errorOf solveStep st).1).2 + 1 ∧
      (Stalls errorOf st →
        (icpIteration errorOf solveStep st).1.consecutive_rounds_of_nondecreasing_error
          = st.consecutive_rounds_of_nondecreasing_error + 1) ∧
      (errorOf st.q_robot ≤ st.last_error - 1 / 10000 →
        (icpIteration errorOf solveStep st).1.consecutive_rounds_of_nondecreasing_error = 0)) ∧
    (st.consecutive_rounds_of_nondecreasing_error = 0 → 11 ≤ fuel →
      (∀ m, m < 11 → Stalls errorOf (icpAfter errorOf solveStep m st)) →
      (∀ m, m < 10 → solveStep (icpAfter errorOf solveStep m st).q_robot ≠ none) →
      (icpLoop errorOf solveStep fuel st).2 = 11) := by
  refine ⟨icpLoop_le errorOf solveStep _ _, (icpIteration_spec errorOf solveStep st).1,
    fun hb => ?_, fun hb => ⟨?_, ?_⟩, fun hc hf hst hsolve => ?_⟩
  · rw [icpLoop_succ, if_pos hb]
  · rw [icpLoop_succ, if_neg (by simp [hb])]
  · exact ((icpIteration_spec errorOf solveStep st).2 hb).2.2
  · exact icpLoop_stall_run errorOf solveStep 10 st fuel (by omega) hf hst hsolve

/-- With a constant error of 1 and solves that always succeed, the loop on
the one-point estimator is left in its eleventh pass. -/
theorem icp_loop_exit_witness :
    (icpLoop (fun _ => 1) stepUp 100 ⟨[0], 0, 3 / 10⟩).2 = 11 :=
  (icp_loop_exit (fun _ => 1) stepUp icpLoopEst [0] ⟨[0], 0, 3 / 10⟩ 100).2.2.2.2
    rfl (by decide) (by decide!) (by decide!)

/-- C23 (counterexample): on the one-point estimator with a constant error
of 1 the loop starts eleven passes and applies ten solves, so it is still
running after ten consecutive stalling passes; a pass whose error is exactly
`1e-4` below the previous error resets the counter; and a pass with a
decreasing nonzero error leaves the loop when its solve is not finite. -/
theorem icp_loop_runs_eleven_stalling_passes :
    icpRun (fun _ => 1) stepUp icpLoopEst [0] = (⟨[10], 11, 1⟩, 11) ∧
    (icpIteration (fun _ => 2999 / 10000) stepUp
      ⟨[0], 5, 3 / 10⟩).1.consecutive_rounds_of_nondecreasing_error = 0 ∧
    (icpIteration (fun _ => 2999 / 10000) stepUp ⟨[0], 5, 3 / 10⟩).2 = false ∧
    icpRun (fun _ => 1 / 10) (fun _ => none) icpLoopEst [0] = (⟨[0], 0, 1 / 10⟩, 1) := by
  refine ⟨?_, ?_, ?_, ?_⟩ <;> decide!

/-! ## C27, C28: the initial guess and the transform table -/

/-- C27 (failing input): one body, one face and two scene points.  The call
returns 15 entries where `12 * 1 + 2 * 1 + 2 = 16` are expected: the outlier
block is written over the guess of `f(1, 0)`, so the variable `f(1, 0)` is not
in `vars`. -/
theorem initial_guess_outlier_block_overlaps :
    guessAtIdentity = some
      ([some 0, some 0, some 0, some 1, some 0, some 0, some 0, some 1, some 0,
        some 0, some 0, some 1, some 1, some 0, some 0],
       [some (.T 0 0), some (.T 0 1), some (.T 0 2),
        some (.R 0 0 0), some (.R 0 0 1), some (.R 0 0 2),
        some (.R 0 1 0), some (.R 0 1 1), some (.R 0 1 2),
        some (.R 0 2 0), some (.R 0 2 1), some (.R 0 2 2),
        some (.f 0 0), some (.f_outlier 0), some (.f_outlier 1)]) := by
  decide!

theorem pushResult_none {α β : Type} (f : α → Option β) (out : List β) (a : α)
    (h : f a = none) : pushResult f out a = none := by
  unfold pushResult
  rw [h]

/-- C28 (failing input): a tree with `n + 1` bodies, whose valid body indices
are `0` to `n`.  The loops that fill the table `tfs` pass the body index
`n + 1` to `relativeTransform`, so filling the table fails as soon as a query
outside the tree fails; the table of `doExactCollisionDetectFromPoints` is
filled by the same queries. -/
theorem transform_table_queries_invalid_body (n : Nat) (relativeTransform : Nat → Affine3) :
    n + 1 ∈ tfsQueries (n + 1) ∧
    queryBody (n + 1) relativeTransform (n + 1) = none ∧
    fillTfs (n + 1) relativeTransform = none ∧
    (List.range (n + 1)).map (fun i => relativeTransform (i + 1))
      = (tfsQueries (n + 1)).map relativeTransform := by
  have hq : queryBody (n + 1) relativeTransform (n + 1) = none := by
    unfold queryBody
    rw [if_neg (Nat.lt_irrefl _)]
  refine ⟨?_, hq, ?_, ?_⟩
  · unfold tfsQueries
    exact List.mem_map.mpr ⟨n, List.mem_range.mpr (Nat.lt_succ_self n), rfl⟩
  · unfold fillTfs tfsQueries
    rw [List.range_succ, List.map_append, List.foldlM_append]
    cases (List.map (fun i => i + 1) (List.range n)).foldlM
        (pushResult (queryBody (n + 1) relativeTransform)) [] with
    | none => rfl
    | some out =>
      show List.foldlM (pushResult (queryBody (n + 1) relativeTransform)) out [n + 1] = none
      rw [List.foldlM_cons, pushResult_none _ _ _ hq]
      rfl
  · unfold tfsQueries
    rw [List.map_map]
    rfl

/-! ## C29: formulation C reads the member `C_` -/

/-- C29 (failing input): formulation C on an estimator with one body, one
sampled model point and one scene point, whatever values the solver gives to
the assignment matrix of this solve.  On a fresh estimator the member `C_` is
empty, so the callback would store an empty matrix and the extraction reads
`C_est(0, 0)` outside it; after a call of formulation A the member holds the
variables of that call's program and `GetSolution` throws. -/
theorem formulationC_reads_member_C (res : SolveResultC) :
    (getSolutionMemberC (declareVarsC {} b2wEst)).toOption.map (fun m => (m.rows, m.cols))
      = some (0, 0) ∧
    extractSolutionC {} b2wEst [![0, 0, 0]] triPts res = .ok none ∧
    extractSolutionC (declareVarsA triEstBuilt triPts) b2wEst [![0, 0, 0]] triPts res
      = .error "C_ is not a decision variable of the program" := by
  refine ⟨rfl, rfl, ?_⟩
  have h : getSolutionMemberC (declareVarsC (declareVarsA triEstBuilt triPts) b2wEst)
      = .error "C_ is not a decision variable of the program" := by
    have hd : (declareVarsC (declareVarsA triEstBuilt triPts) b2wEst).C_ = (1, 3) := by decide!
    unfold getSolutionMemberC
    rw [hd]
    rfl
  unfold extractSolutionC
  rw [h]

end MIPPose
